import Mathlib

/-!
# Sequence reconciler: a shallow embedding

Embedding of `pkg/controller/eventing/sequence/reconcile.go` and of
`pkg/apis/eventing/v1alpha1/sequence_types.go` and `sequence_validation.go`.
Pointers are `Option`s, slices are lists, the API server is an explicit store
that is passed along, and every call to the store is recorded in a log.
-/

namespace Eventing

/-! ## Object model -/

/-- Reference to another object (`corev1.ObjectReference`). -/
structure ObjectReference where
  Kind : String := ""
  Namespace : String := ""
  Name : String := ""
  APIVersion : String := ""
deriving DecidableEq, Repr

/-- Owner back-pointer (`metav1.OwnerReference`). -/
structure OwnerReference where
  APIVersion : String := ""
  Kind : String := ""
  Name : String := ""
  UID : String := ""
  Controller : Option Bool := none
  BlockOwnerDeletion : Option Bool := none
deriving DecidableEq, Repr

/-- Type information of an object (`metav1.TypeMeta`). -/
structure TypeMeta where
  Kind : String := ""
  APIVersion : String := ""
deriving DecidableEq, Repr

/-- Metadata of an object (`metav1.ObjectMeta`), the fields the controller reads or writes. -/
structure ObjectMeta where
  Name : String := ""
  Namespace : String := ""
  UID : String := ""
  DeletionTimestamp : Option Nat := none
  Finalizers : List String := []
  OwnerReferences : List OwnerReference := []
deriving DecidableEq, Repr

/-- Target of a subscription (`SubscriberSpec`). -/
structure SubscriberSpec where
  Ref : Option ObjectReference := none
  DNSName : Option String := none
deriving DecidableEq, Repr

/-- Where the result of a subscriber is sent (`ReplyStrategy`). -/
structure ReplyStrategy where
  Channel : Option ObjectReference := none
deriving DecidableEq, Repr

/-- One step of a Sequence (`StepSpec`): an embedded subscriber pointer and an optional
provisioner. -/
structure StepSpec where
  SubscriberSpec : Option SubscriberSpec := none
  Provisioner : Option ObjectReference := none
deriving DecidableEq, Repr

/-- Desired state of a Sequence (`SequenceSpec`); `Steps` is a slice of pointers. -/
structure SequenceSpec where
  Generation : Int := 0
  Provisioner : Option ObjectReference := none
  Steps : List (Option StepSpec) := []
  Reply : Option ReplyStrategy := none
deriving DecidableEq, Repr

/-- Values of a condition status (`corev1.ConditionStatus`). -/
inductive ConditionStatus where
  | True
  | False
  | Unknown
deriving DecidableEq, Repr

/-- One status condition (`duckv1alpha1.Condition`); `Typ` is the Go field `Type`. -/
structure Condition where
  Typ : String
  Status : ConditionStatus
  Severity : String := ""
  LastTransitionTime : Nat := 0
  Reason : String := ""
  Message : String := ""
deriving DecidableEq, Repr

/-- Address of an addressable object (`duckv1alpha1.Addressable`). -/
structure Addressable where
  Hostname : String := ""
deriving DecidableEq, Repr

/-- Observed state of a Sequence (`SequenceStatus`). -/
structure SequenceStatus where
  Address : Addressable := {}
  Conditions : List Condition := []
deriving DecidableEq, Repr

/-- The composite resource (`Sequence`). -/
structure Sequence where
  TypeMeta : TypeMeta := {}
  ObjectMeta : ObjectMeta := {}
  Spec : SequenceSpec := {}
  Status : SequenceStatus := {}
deriving DecidableEq, Repr

/-- Modelled from the spec: the type `ChannelSubscriberSpec` of the package is not among the
sources; it is an entry of the subscriber list that "other controllers" set on a channel. -/
structure ChannelSubscriberSpec where
  Ref : Option ObjectReference := none
  SubscriberURI : String := ""
  ReplyURI : String := ""
deriving DecidableEq, Repr

/-- Modelled from the spec: the type `Subscribable` of the package is not among the sources;
it is the field of a channel spec that is "set by other controllers". -/
structure Subscribable where
  Subscribers : List ChannelSubscriberSpec := []
deriving DecidableEq, Repr

/-- Modelled from the spec: the type `ChannelSpec` is declared in a file of the package that is
not among the sources.  `reconcile.go` uses `Generation`, `Provisioner` (the backend hint) and
`Subscribable`; `Arguments` stands for what else the spec of a channel holds. -/
structure ChannelSpec where
  Generation : Int := 0
  Provisioner : Option ObjectReference := none
  Arguments : Option String := none
  Subscribable : Option Subscribable := none
deriving DecidableEq, Repr

/-- Modelled from the spec: the type `ChannelStatus` is not among the sources; "each Channel
exposes an observed address/hostname status field, empty string when not yet provisioned". -/
structure ChannelStatus where
  Address : Addressable := {}
  Conditions : List Condition := []
deriving DecidableEq, Repr

/-- Modelled from the spec: the type `Channel` is declared in a file of the package that is not
among the sources; one per pipeline step. -/
structure Channel where
  TypeMeta : TypeMeta := {}
  ObjectMeta : ObjectMeta := {}
  Spec : ChannelSpec := {}
  Status : ChannelStatus := {}
deriving DecidableEq, Repr

/-- Modelled from the spec: the type `SubscriptionSpec` is declared in a file of the package
that is not among the sources.  `reconcile.go` uses `Generation`, `Channel` (the source),
`Subscriber` and `Reply` (the destination). -/
structure SubscriptionSpec where
  Generation : Int := 0
  Channel : ObjectReference := {}
  Subscriber : Option SubscriberSpec := none
  Reply : Option ReplyStrategy := none
deriving DecidableEq, Repr

/-- Modelled from the spec: the type `SubscriptionStatus` is not among the sources; only its
conditions are kept. -/
structure SubscriptionStatus where
  Conditions : List Condition := []
deriving DecidableEq, Repr

/-- Modelled from the spec: the type `Subscription` is declared in a file of the package that is
not among the sources; one per pipeline step. -/
structure Subscription where
  TypeMeta : TypeMeta := {}
  ObjectMeta : ObjectMeta := {}
  Spec : SubscriptionSpec := {}
  Status : SubscriptionStatus := {}
deriving DecidableEq, Repr

/-! ## The store (API server) seen through the client -/

/-- Errors of a store call; `errors.IsNotFound` singles out `notFound`. -/
inductive StoreError where
  | notFound
  | alreadyExists
  | conflict
  | other (msg : String)
deriving DecidableEq, Repr

/-- Text of an error, as printed by the verb `%s`. -/
def StoreError.Error : StoreError → String
  | .notFound => "not found"
  | .alreadyExists => "already exists"
  | .conflict => "the object has been modified"
  | .other msg => msg

/-- The test `errors.IsNotFound(err)`. -/
def IsNotFound (err : StoreError) : Bool :=
  match err with
  | .notFound => true
  | _ => false

/-- The three kinds of object the controller reads and writes. -/
inductive ResourceKind where
  | sequence
  | channel
  | subscription
deriving DecidableEq, Repr

/-- Identity of an object within its kind (`client.ObjectKey`). -/
structure ObjectKey where
  Namespace : String := ""
  Name : String := ""
deriving DecidableEq, Repr

/-- The key of an object, `client.ObjectKeyFromObject`; it cannot fail for a typed object. -/
def ObjectKeyFromObject (meta : ObjectMeta) : ObjectKey :=
  { Namespace := meta.Namespace, Name := meta.Name }

/-- One call to the store, as the controller issued it. -/
inductive Op where
  | get (kind : ResourceKind) (key : ObjectKey)
  | createChannel (obj : Channel)
  | createSubscription (obj : Subscription)
  | updateChannel (obj : Channel)
  | updateSubscription (obj : Subscription)
  | updateSequence (obj : Sequence)
deriving DecidableEq, Repr

/-- A call that writes (create or update). -/
def Op.isWrite : Op → Bool
  | .get _ _ => false
  | _ => true

/-- A create or update of a channel or of a subscription. -/
def Op.isChildWrite : Op → Bool
  | .createChannel _ => true
  | .createSubscription _ => true
  | .updateChannel _ => true
  | .updateSubscription _ => true
  | _ => false

/-- The writes among the calls of a log. -/
def writes (log : List Op) : List Op := log.filter Op.isWrite

/-- The store behind `r.client`: the objects it holds, per kind; the calls it refuses
(a read fails with an error other than not-found, a write with any error); the log of calls. -/
structure Client where
  sequences : List Sequence := []
  channels : List Channel := []
  subscriptions : List Subscription := []
  getFault : ResourceKind → ObjectKey → Option String := fun _ _ => none
  createFault : ResourceKind → ObjectKey → Option StoreError := fun _ _ => none
  updateFault : ResourceKind → ObjectKey → Option StoreError := fun _ _ => none
  log : List Op := []

/-- First object stored under a key. -/
def lookup {α : Type} (meta : α → ObjectMeta) (objs : List α) (key : ObjectKey) : Option α :=
  objs.find? (fun o => decide (ObjectKeyFromObject (meta o) = key))

/-- Replace what is stored under the key of `obj` by `obj`. -/
def replace {α : Type} (meta : α → ObjectMeta) (objs : List α) (obj : α) : List α :=
  objs.map (fun o => if ObjectKeyFromObject (meta o) = ObjectKeyFromObject (meta obj) then obj else o)

/-- Append a call to the log. -/
def Client.record (c : Client) (op : Op) : Client :=
  { c with log := c.log ++ [op] }

/-- What a read of a Sequence answers: the fault if the store refuses the read, else the object
stored under the key, else not-found. -/
def Client.readSequence (c : Client) (key : ObjectKey) : Except StoreError Sequence :=
  match c.getFault ResourceKind.sequence key with
  | some msg => Except.error (StoreError.other msg)
  | none =>
    match lookup Sequence.ObjectMeta c.sequences key with
    | some obj => Except.ok obj
    | none => Except.error StoreError.notFound

/-- The call `client.Get` for a Sequence. -/
def Client.GetSequence (c : Client) (key : ObjectKey) : Except StoreError Sequence × Client :=
  (c.readSequence key, c.record (Op.get ResourceKind.sequence key))

/-- What a read of a Channel answers: the fault if the store refuses the read, else the object
stored under the key, else not-found. -/
def Client.readChannel (c : Client) (key : ObjectKey) : Except StoreError Channel :=
  match c.getFault ResourceKind.channel key with
  | some msg => Except.error (StoreError.other msg)
  | none =>
    match lookup Channel.ObjectMeta c.channels key with
    | some obj => Except.ok obj
    | none => Except.error StoreError.notFound

/-- The call `client.Get` for a Channel. -/
def Client.GetChannel (c : Client) (key : ObjectKey) : Except StoreError Channel × Client :=
  (c.readChannel key, c.record (Op.get ResourceKind.channel key))

/-- What a read of a Subscription answers: the fault if the store refuses the read, else the object
stored under the key, else not-found. -/
def Client.readSubscription (c : Client) (key : ObjectKey) : Except StoreError Subscription :=
  match c.getFault ResourceKind.subscription key with
  | some msg => Except.error (StoreError.other msg)
  | none =>
    match lookup Subscription.ObjectMeta c.subscriptions key with
    | some obj => Except.ok obj
    | none => Except.error StoreError.notFound

/-- The call `client.Get` for a Subscription. -/
def Client.GetSubscription (c : Client) (key : ObjectKey) : Except StoreError Subscription × Client :=
  (c.readSubscription key, c.record (Op.get ResourceKind.subscription key))

/-- The call `client.Create` for a Channel. -/
def Client.CreateChannel (c : Client) (obj : Channel) : Option StoreError × Client :=
  let key := ObjectKeyFromObject obj.ObjectMeta
  let c1 := c.record (Op.createChannel obj)
  match c.createFault ResourceKind.channel key with
  | some err => (some err, c1)
  | none =>
    match lookup Channel.ObjectMeta c.channels key with
    | some _ => (some StoreError.alreadyExists, c1)
    | none => (none, { c1 with channels := c.channels ++ [obj] })

/-- The call `client.Create` for a Subscription. -/
def Client.CreateSubscription (c : Client) (obj : Subscription) : Option StoreError × Client :=
  let key := ObjectKeyFromObject obj.ObjectMeta
  let c1 := c.record (Op.createSubscription obj)
  match c.createFault ResourceKind.subscription key with
  | some err => (some err, c1)
  | none =>
    match lookup Subscription.ObjectMeta c.subscriptions key with
    | some _ => (some StoreError.alreadyExists, c1)
    | none => (none, { c1 with subscriptions := c.subscriptions ++ [obj] })

/-- The call `client.Update` for a Channel. -/
def Client.UpdateChannel (c : Client) (obj : Channel) : Option StoreError × Client :=
  let key := ObjectKeyFromObject obj.ObjectMeta
  let c1 := c.record (Op.updateChannel obj)
  match c.updateFault ResourceKind.channel key with
  | some err => (some err, c1)
  | none =>
    match lookup Channel.ObjectMeta c.channels key with
    | none => (some StoreError.notFound, c1)
    | some _ => (none, { c1 with channels := replace Channel.ObjectMeta c.channels obj })

/-- The call `client.Update` for a Subscription. -/
def Client.UpdateSubscription (c : Client) (obj : Subscription) : Option StoreError × Client :=
  let key := ObjectKeyFromObject obj.ObjectMeta
  let c1 := c.record (Op.updateSubscription obj)
  match c.updateFault ResourceKind.subscription key with
  | some err => (some err, c1)
  | none =>
    match lookup Subscription.ObjectMeta c.subscriptions key with
    | none => (some StoreError.notFound, c1)
    | some _ =>
      (none, { c1 with subscriptions := replace Subscription.ObjectMeta c.subscriptions obj })

/-- The call `client.Update` for a Sequence. -/
def Client.UpdateSequence (c : Client) (obj : Sequence) : Option StoreError × Client :=
  let key := ObjectKeyFromObject obj.ObjectMeta
  let c1 := c.record (Op.updateSequence obj)
  match c.updateFault ResourceKind.sequence key with
  | some err => (some err, c1)
  | none =>
    match lookup Sequence.ObjectMeta c.sequences key with
    | none => (some StoreError.notFound, c1)
    | some _ => (none, { c1 with sequences := replace Sequence.ObjectMeta c.sequences obj })

/-! ## Conditions (`sequence_types.go`) -/

/-- The happy condition of a living condition set (`duckv1alpha1.ConditionReady`). -/
def ConditionReady : String := "Ready"

/-- The constant `SequenceConditionReady`. -/
def SequenceConditionReady : String := ConditionReady

/-- The constant `SequenceConditionProvisioned`. -/
def SequenceConditionProvisioned : String := "Provisioned"

/-- The constant `SequenceConditionAddressable`. -/
def SequenceConditionAddressable : String := "Addressable"

/-- Modelled from the spec: the condition-set library (`duckv1alpha1.ConditionSet` and its
manager) is not among the sources.  "A fixed condition set is declared per resource kind,
plus one `Ready` condition". -/
structure ConditionSet where
  happy : String
  dependents : List String
deriving DecidableEq, Repr

/-- Modelled from the spec: `NewLivingConditionSet` of the condition-set library, not among the
sources: the declared conditions with `Ready` as the aggregate. -/
def NewLivingConditionSet (d : List String) : ConditionSet :=
  { happy := ConditionReady, dependents := (d.filter (fun t => decide (t ≠ ConditionReady))).dedup }

/-- The variable `seqCondSet`. -/
def seqCondSet : ConditionSet :=
  NewLivingConditionSet [SequenceConditionProvisioned, SequenceConditionAddressable]

/-- Modelled from the spec: `GetCondition` of the condition manager, not among the sources:
"returns the matching condition or not found; no partial matches". -/
def ConditionSet.GetCondition (_cs : ConditionSet) (conds : List Condition) (t : String) :
    Option Condition :=
  conds.find? (fun c => decide (c.Typ = t))

/-- Modelled from the spec: `Condition.IsTrue` of the condition-set library, on the result of a
lookup; an absent condition is not true. -/
def IsTrue (c : Option Condition) : Bool :=
  match c with
  | some c => decide (c.Status = ConditionStatus.True)
  | none => false

/-- Order of two strings, character by character (the order of Go's `<=` on strings). -/
def strLE (a b : String) : Prop := a.data ≤ b.data

instance strLE.decidable (a b : String) : Decidable (strLE a b) :=
  inferInstanceAs (Decidable (a.data ≤ b.data))

instance strLE.isTotal : IsTotal String strLE :=
  ⟨fun a b => le_total a.data b.data⟩

instance strLE.isTrans : IsTrans String strLE :=
  ⟨fun a b c (h1 : a.data ≤ b.data) (h2 : b.data ≤ c.data) => le_trans h1 h2⟩

instance strLE.isAntisymm : IsAntisymm String strLE :=
  ⟨fun a b (h1 : a.data ≤ b.data) (h2 : b.data ≤ a.data) => String.ext (le_antisymm h1 h2)⟩

/-- Ordering of conditions by type that the manager stores them in; the tests of
`sequence_types_test.go` expect Addressable, Provisioned, Ready. -/
def sortByType (conds : List Condition) : List Condition :=
  conds.insertionSort (fun a b => strLE a.Typ b.Typ)

/-- Modelled from the spec: the transition time that `SetCondition` of the condition manager
(not among the sources) stores: "only rewrites `LastTransitionTime` if the status value
actually changes". -/
def ConditionSet.transitionTime (cs : ConditionSet) (now : Nat) (new : Condition)
    (conds : List Condition) : Nat :=
  match cs.GetCondition conds new.Typ with
  | some c => if c.Status = new.Status then c.LastTransitionTime else now
  | none => now

/-- Modelled from the spec: `SetCondition` of the condition manager, not among the sources:
"upserts the named condition"; a repeated identical write leaves the conditions as they are,
and a write that changes them stores them ordered by type. -/
def ConditionSet.SetCondition (cs : ConditionSet) (now : Nat) (new : Condition)
    (conds : List Condition) : List Condition :=
  let new := { new with LastTransitionTime := cs.transitionTime now new conds }
  if cs.GetCondition conds new.Typ = some new then
    conds
  else
    sortByType (conds.filter (fun c => decide (c.Typ ≠ new.Typ)) ++ [new])

/-- Modelled from the spec: `MarkTrue` of the condition manager, not among the sources: the
condition becomes True, and `Ready` becomes True when every dependent condition is True
("`Ready` is True iff every dependent condition is True").  While a dependent is not True the
entry of `Ready` is not written: the tests of `sequence_types_test.go` expect no `Ready` entry
after `SetAddress` with a hostname on the zero status, and the spec leaves the recomputation to
the read. -/
def ConditionSet.MarkTrue (cs : ConditionSet) (now : Nat) (t : String) (conds : List Condition) :
    List Condition :=
  let conds := cs.SetCondition now { Typ := t, Status := ConditionStatus.True } conds
  if cs.dependents.all (fun d => IsTrue (cs.GetCondition conds d)) then
    cs.SetCondition now { Typ := cs.happy, Status := ConditionStatus.True } conds
  else
    conds

/-- Modelled from the spec: `MarkFalse` of the condition manager, not among the sources: the
condition becomes False with the reason and message, and so does `Ready` ("`Ready` is False if
any is False"; the tests of `sequence_types_test.go` expect the `Ready` entry). -/
def ConditionSet.MarkFalse (cs : ConditionSet) (now : Nat) (t : String) (reason message : String)
    (conds : List Condition) : List Condition :=
  let types := if t ∈ cs.dependents then [t, cs.happy] else [t]
  types.foldl
    (fun conds t =>
      cs.SetCondition now
        { Typ := t, Status := ConditionStatus.False, Reason := reason, Message := message } conds)
    conds

/-- Modelled from the spec: the step of `InitializeConditions` for one condition type: a type
"not yet present" is stored "with status Unknown; existing entries are untouched". -/
def ConditionSet.InitializeCondition (cs : ConditionSet) (now : Nat) (t : String)
    (conds : List Condition) : List Condition :=
  match cs.GetCondition conds t with
  | none => cs.SetCondition now { Typ := t, Status := ConditionStatus.Unknown } conds
  | some _ => conds

/-- Modelled from the spec: `InitializeConditions` of the condition manager, not among the
sources: "for every condition type in the declared set not yet present, appends it with status
Unknown"; the tests of `sequence_types_test.go` expect the `Ready` entry too. -/
def ConditionSet.InitializeConditions (cs : ConditionSet) (now : Nat) (conds : List Condition) :
    List Condition :=
  (cs.dependents ++ [cs.happy]).foldl (fun conds t => cs.InitializeCondition now t conds) conds

/-- Modelled from the spec: `IsHappy` of the condition manager, not among the sources:
"`isReady()`: true iff all non-`Ready` conditions are `True`", the non-`Ready` conditions being
the declared ones. -/
def ConditionSet.IsHappy (cs : ConditionSet) (conds : List Condition) : Bool :=
  cs.dependents.all (fun d => IsTrue (cs.GetCondition conds d))

/-- Method `GetCondition` of `SequenceStatus`. -/
def SequenceStatus.GetCondition (ss : SequenceStatus) (t : String) : Option Condition :=
  seqCondSet.GetCondition ss.Conditions t

/-- Method `IsReady` of `SequenceStatus`. -/
def SequenceStatus.IsReady (ss : SequenceStatus) : Bool :=
  seqCondSet.IsHappy ss.Conditions

/-- Method `InitializeConditions` of `SequenceStatus`. -/
def SequenceStatus.InitializeConditions (ss : SequenceStatus) (now : Nat) : SequenceStatus :=
  { ss with Conditions := seqCondSet.InitializeConditions now ss.Conditions }

/-- Method `MarkProvisioned` of `SequenceStatus`. -/
def SequenceStatus.MarkProvisioned (ss : SequenceStatus) (now : Nat) : SequenceStatus :=
  { ss with Conditions := seqCondSet.MarkTrue now SequenceConditionProvisioned ss.Conditions }

/-- Method `MarkNotProvisioned` of `SequenceStatus`; `message` is the format already filled in
with its arguments. -/
def SequenceStatus.MarkNotProvisioned (ss : SequenceStatus) (now : Nat) (reason message : String) :
    SequenceStatus :=
  { ss with
    Conditions := seqCondSet.MarkFalse now SequenceConditionProvisioned reason message ss.Conditions }

/-- Method `SetAddress` of `SequenceStatus`. -/
def SequenceStatus.SetAddress (ss : SequenceStatus) (now : Nat) (hostname : String) :
    SequenceStatus :=
  let ss := { ss with Address := { ss.Address with Hostname := hostname } }
  if hostname ≠ "" then
    { ss with Conditions := seqCondSet.MarkTrue now SequenceConditionAddressable ss.Conditions }
  else
    { ss with
      Conditions :=
        seqCondSet.MarkFalse now SequenceConditionAddressable "emptyHostname"
          "hostname is the empty string" ss.Conditions }

/-! ## The reconciler (`reconcile.go`) -/

/-- Modelled from the spec: the constant `controllerAgentName` is declared in a file of the
package that is not among the sources; it names "this controller's finalizer token". -/
def controllerAgentName : String := "sequence-controller"

/-- The constant `finalizerName`. -/
def finalizerName : String := controllerAgentName

/-- The variable `defaultProvisioner`. -/
def defaultProvisioner : ObjectReference :=
  { APIVersion := "eventing.knative.dev/v1alpha1",
    Kind := "ClusterChannelProvisioner",
    Name := "in-memory-channel" }

/-- The format `"%s-step-%d"` of `fmt.Sprintf`, the index in decimal. -/
def stepName (name : String) (i : Nat) : String :=
  name ++ "-step-" ++ toString i

/-- The members of `sets.NewString(l...)` as `List()` returns them: each once, sorted. -/
def setList (l : List String) : List String :=
  l.dedup.insertionSort strLE

/-- Function `addFinalizer`. -/
def addFinalizer (seq : Sequence) : Sequence :=
  { seq with
    ObjectMeta :=
      { seq.ObjectMeta with Finalizers := setList (seq.ObjectMeta.Finalizers ++ [finalizerName]) } }

/-- Function `removeFinalizer`. -/
def removeFinalizer (seq : Sequence) : Sequence :=
  { seq with
    ObjectMeta :=
      { seq.ObjectMeta with
        Finalizers :=
          setList (seq.ObjectMeta.Finalizers.filter (fun f => decide (f ≠ finalizerName))) } }

/-- The owner reference `metav1.NewControllerRef(owner, gvk)`: the owner's name and UID, both
flags set. -/
def NewControllerRef (owner : ObjectMeta) (group version kind : String) : OwnerReference :=
  { APIVersion := group ++ "/" ++ version,
    Kind := kind,
    Name := owner.Name,
    UID := owner.UID,
    BlockOwnerDeletion := some true,
    Controller := some true }

/-- Group of `v1alpha1.SchemeGroupVersion`, as in the API version strings of `reconcile.go`. -/
def SchemeGroup : String := "eventing.knative.dev"

/-- Version of `v1alpha1.SchemeGroupVersion`. -/
def SchemeVersion : String := "v1alpha1"

/-- Function `makeChannel`. -/
def makeChannel (name : String) (namespace_ : String) (provisioner : Option ObjectReference)
    (sequence : Sequence) : Channel :=
  { TypeMeta := { APIVersion := "eventing.knative.dev/v1alpha1", Kind := "Channel" },
    ObjectMeta :=
      { Name := name,
        Namespace := namespace_,
        OwnerReferences :=
          [NewControllerRef sequence.ObjectMeta SchemeGroup SchemeVersion "Sequence"] },
    Spec := { Provisioner := provisioner } }

/-- Function `makeSubscription`. -/
def makeSubscription (name : String) (namespace_ : String) (channel : ObjectReference)
    (subscriber : Option SubscriberSpec) (reply : Option ReplyStrategy) (sequence : Sequence) :
    Subscription :=
  { TypeMeta := { APIVersion := "eventing.knative.dev/v1alpha1", Kind := "Subscription" },
    ObjectMeta :=
      { Name := name,
        Namespace := namespace_,
        OwnerReferences :=
          [NewControllerRef sequence.ObjectMeta SchemeGroup SchemeVersion "Sequence"] },
    Spec := { Channel := channel, Subscriber := subscriber, Reply := reply } }

/-- Function `makeChannelRef`. -/
def makeChannelRef (channel : Channel) : ObjectReference :=
  { APIVersion := channel.TypeMeta.APIVersion,
    Kind := channel.TypeMeta.Kind,
    Name := channel.ObjectMeta.Name }

/-- Method `reconcileChannel`: `newChannel` is what the store holds. -/
def reconcileChannel (r : Client) (channel : Channel) : Option StoreError × Client :=
  let channelKey := ObjectKeyFromObject channel.ObjectMeta
  match r.GetChannel channelKey with
  | (Except.error err, r1) =>
    if IsNotFound err then
      r1.CreateChannel channel
    else
      (some err, r1)
  | (Except.ok newChannel, r1) =>
    let newChannel : Channel :=
      { newChannel with
        Spec :=
          { newChannel.Spec with
            Generation := channel.Spec.Generation,
            Subscribable := channel.Spec.Subscribable } }
    if channel.Spec ≠ newChannel.Spec then
      let newChannel : Channel := { newChannel with Spec := channel.Spec }
      r1.UpdateChannel newChannel
    else
      (none, r1)

/-- Method `reconcileSubscription`: `newSubscription` is what the store holds. -/
def reconcileSubscription (r : Client) (subscription : Subscription) :
    Option StoreError × Client :=
  let subscriptionKey := ObjectKeyFromObject subscription.ObjectMeta
  match r.GetSubscription subscriptionKey with
  | (Except.error err, r1) =>
    if IsNotFound err then
      r1.CreateSubscription subscription
    else
      (some err, r1)
  | (Except.ok newSubscription, r1) =>
    let newSubscription : Subscription :=
      { newSubscription with
        Spec := { newSubscription.Spec with Generation := subscription.Spec.Generation } }
    if subscription.Spec ≠ newSubscription.Spec then
      let newSubscription : Subscription := { newSubscription with Spec := subscription.Spec }
      r1.UpdateSubscription newSubscription
    else
      (none, r1)

/-- Method `reconcileStep`.  The step is handed to `makeSubscription` as the subscriber: the
subscriber is the one embedded in the step, absent for a nil step.  An index outside the steps
is a run-time panic in the source and an error here. -/
def reconcileStep (r : Client) (sequence : Sequence) (i : Nat) : Option StoreError × Client :=
  match sequence.Spec.Steps[i]? with
  | none => (some (StoreError.other "index out of range"), r)
  | some step =>
    let name := stepName sequence.ObjectMeta.Name i
    let channel := makeChannel name sequence.ObjectMeta.Namespace (some defaultProvisioner) sequence
    match reconcileChannel r channel with
    | (some err, r1) => (some err, r1)
    | (none, r1) =>
      let reply : Option ReplyStrategy :=
        if i = sequence.Spec.Steps.length - 1 then
          sequence.Spec.Reply
        else
          some
            { Channel :=
                some
                  { APIVersion := "eventing.knative.dev/v1alpha1",
                    Kind := "Channel",
                    Name := stepName sequence.ObjectMeta.Name (i + 1) } }
      let subscription :=
        makeSubscription name sequence.ObjectMeta.Namespace (makeChannelRef channel)
          (step.bind (fun s => s.SubscriberSpec)) reply sequence
      reconcileSubscription r1 subscription

/-- The loop of `reconcile` over the steps `i, i + 1, ...`, `n` of them: it stops at the first
step that fails and returns its index and error. -/
def provisionSteps (r : Client) (sequence : Sequence) : Nat → Nat → Option (Nat × StoreError) × Client
  | 0, _ => (none, r)
  | n + 1, i =>
    match reconcileStep r sequence i with
    | (some err, r1) => (some (i, err), r1)
    | (none, r1) => provisionSteps r1 sequence n (i + 1)

/-- Method `reconcile`: the error, the Sequence as the method leaves it, and the store. -/
def reconcile (r : Client) (sequence : Sequence) (now : Nat) :
    Option StoreError × Sequence × Client :=
  let sequence : Sequence := { sequence with Status := sequence.Status.InitializeConditions now }
  if sequence.ObjectMeta.DeletionTimestamp ≠ none then
    (none, removeFinalizer sequence, r)
  else
    match provisionSteps r sequence sequence.Spec.Steps.length 0 with
    | (some (i, err), r1) =>
      let sequence : Sequence :=
        { sequence with
          Status :=
            sequence.Status.MarkNotProvisioned now "NotProvisioned"
              ("error while provisioning step " ++ toString i ++ ": " ++ err.Error) }
      (some err, sequence, r1)
    | (none, r1) =>
      let sequence : Sequence := { sequence with Status := sequence.Status.MarkProvisioned now }
      (none, addFinalizer sequence, r1)

/-- Method `updateStatus`.  The error of the read of the first channel is dropped: the channel
then stays the zero value. -/
def updateStatus (r : Client) (sequence : Sequence) (now : Nat) :
    Except StoreError Sequence × Client :=
  match r.GetSequence
      { Namespace := sequence.ObjectMeta.Namespace, Name := sequence.ObjectMeta.Name } with
  | (Except.error err, r1) => (Except.error err, r1)
  | (Except.ok newSequence, r1) =>
    let channelKey : ObjectKey :=
      { Namespace := sequence.ObjectMeta.Namespace, Name := stepName sequence.ObjectMeta.Name 0 }
    let got := r1.GetChannel channelKey
    let channel : Channel :=
      match got.1 with
      | Except.ok ch => ch
      | Except.error _ => {}
    let r2 := got.2
    let sequence : Sequence :=
      { sequence with Status := sequence.Status.SetAddress now channel.Status.Address.Hostname }
    let updated := false
    let step1 : Sequence × Bool :=
      if newSequence.ObjectMeta.Finalizers ≠ sequence.ObjectMeta.Finalizers then
        ({ newSequence with
            ObjectMeta :=
              { newSequence.ObjectMeta with Finalizers := sequence.ObjectMeta.Finalizers } },
          true)
      else
        (newSequence, updated)
    let step2 : Sequence × Bool :=
      if step1.1.Status ≠ sequence.Status then
        ({ step1.1 with Status := sequence.Status }, true)
      else
        step1
    let newSequence := step2.1
    if step2.2 then
      match r2.UpdateSequence newSequence with
      | (some err, r3) => (Except.error err, r3)
      | (none, r3) => (Except.ok newSequence, r3)
    else
      (Except.ok newSequence, r2)

/-- Method `Reconcile`: the error it returns (`none` for nil) and the store it leaves. -/
def Reconcile (r : Client) (request : ObjectKey) (now : Nat) : Option StoreError × Client :=
  match r.GetSequence request with
  | (Except.error err, r1) =>
    if IsNotFound err then
      (none, r1)
    else
      (some err, r1)
  | (Except.ok sequence, r1) =>
    let res := reconcile r1 sequence now
    match updateStatus res.2.2 res.2.1 now with
    | (Except.error updateStatusErr, r3) => (some updateStatusErr, r3)
    | (Except.ok _, r3) => (res.1, r3)

/-! ## Vocabulary of the statements -/

/-- The channel that `reconcileStep` builds for step `i`. -/
def stepChannel (sequence : Sequence) (i : Nat) : Channel :=
  makeChannel (stepName sequence.ObjectMeta.Name i) sequence.ObjectMeta.Namespace
    (some defaultProvisioner) sequence

/-- The reply that `reconcileStep` gives the subscription of step `i`. -/
def stepReply (sequence : Sequence) (i : Nat) : Option ReplyStrategy :=
  if i = sequence.Spec.Steps.length - 1 then
    sequence.Spec.Reply
  else
    some
      { Channel :=
          some
            { APIVersion := "eventing.knative.dev/v1alpha1",
              Kind := "Channel",
              Name := stepName sequence.ObjectMeta.Name (i + 1) } }

/-- The subscription that `reconcileStep` builds for step `i`. -/
def stepSubscription (sequence : Sequence) (i : Nat) : Subscription :=
  makeSubscription (stepName sequence.ObjectMeta.Name i) sequence.ObjectMeta.Namespace
    (makeChannelRef (stepChannel sequence i))
    ((sequence.Spec.Steps[i]?).bind (fun step => step.bind (fun s => s.SubscriberSpec)))
    (stepReply sequence i) sequence

/-- The metadata carries an owner reference to the Sequence: kind Sequence, the name and UID of
the Sequence, controller flag set. -/
def OwnedBy (meta : ObjectMeta) (sequence : Sequence) : Prop :=
  ∃ o ∈ meta.OwnerReferences,
    o.Kind = "Sequence" ∧ o.Name = sequence.ObjectMeta.Name ∧
      o.UID = sequence.ObjectMeta.UID ∧ o.Controller = some true

/-- A call that creates an object creates one owned by the Sequence. -/
def Op.createsOwned (sequence : Sequence) : Op → Prop
  | .createChannel obj => OwnedBy obj.ObjectMeta sequence
  | .createSubscription obj => OwnedBy obj.ObjectMeta sequence
  | _ => True

/-- The condition of type `t` is stored with this status, reason and message (and the empty
severity), whatever its transition time. -/
def Holds (conds : List Condition) (t : String) (st : ConditionStatus) (reason message : String) :
    Prop :=
  ∃ ts, seqCondSet.GetCondition conds t =
    some { Typ := t, Status := st, Severity := "", LastTransitionTime := ts, Reason := reason,
           Message := message }

/-- A condition of type `t` is stored. -/
def Present (conds : List Condition) (t : String) : Prop :=
  ∃ c, seqCondSet.GetCondition conds t = some c

/-- The store answers a read of the channel with an object whose spec equals the spec of
`channel` apart from Generation and Subscribable. -/
def ChannelConverged (r : Client) (channel : Channel) : Prop :=
  ∃ obs, r.readChannel (ObjectKeyFromObject channel.ObjectMeta) = Except.ok obs ∧
    channel.Spec.Provisioner = obs.Spec.Provisioner ∧ channel.Spec.Arguments = obs.Spec.Arguments

/-- The store answers a read of the subscription with an object whose spec equals the spec of
`subscription` apart from Generation. -/
def SubscriptionConverged (r : Client) (subscription : Subscription) : Prop :=
  ∃ obs, r.readSubscription (ObjectKeyFromObject subscription.ObjectMeta) = Except.ok obs ∧
    subscription.Spec.Channel = obs.Spec.Channel ∧
    subscription.Spec.Subscriber = obs.Spec.Subscriber ∧
    subscription.Spec.Reply = obs.Spec.Reply

/-- The second store holds what the first holds and refuses what the first refuses, and no
write was logged in between. -/
structure SameStore (r t : Client) : Prop where
  sequences : t.sequences = r.sequences
  channels : t.channels = r.channels
  subscriptions : t.subscriptions = r.subscriptions
  getFault : t.getFault = r.getFault
  createFault : t.createFault = r.createFault
  updateFault : t.updateFault = r.updateFault
  log : writes t.log = writes r.log

/-- The number that a list of decimal digits denotes, continuing from `a`. -/
def digitsValue : Nat → List Char → Nat
  | a, [] => a
  | a, c :: cs => digitsValue (10 * a + (c.toNat - 48)) cs

/-- The key of the two children of step `i`. -/
def stepKey (sequence : Sequence) (i : Nat) : ObjectKey :=
  { Namespace := sequence.ObjectMeta.Namespace, Name := stepName sequence.ObjectMeta.Name i }

/-- Both children of step `i` are converged in the store. -/
def StepConverged (r : Client) (sequence : Sequence) (i : Nat) : Prop :=
  ChannelConverged r (stepChannel sequence i) ∧
    SubscriptionConverged r (stepSubscription sequence i)

/-- The hostname that `updateStatus` reads off the channel of step 0: empty when the read
fails. -/
def firstChannelHostname (r : Client) (sequence : Sequence) : String :=
  match r.readChannel (stepKey sequence 0) with
  | Except.ok ch => ch.Status.Address.Hostname
  | Except.error _ => ""

/-- The object `updateStatus` wants stored: the fresh copy with the finalizers and the status
(address set) of the Sequence in memory. -/
def statusTarget (r : Client) (sequence fresh : Sequence) (now : Nat) : Sequence :=
  { fresh with
    ObjectMeta := { fresh.ObjectMeta with Finalizers := sequence.ObjectMeta.Finalizers },
    Status := sequence.Status.SetAddress now (firstChannelHostname r sequence) }

/-! ## Concrete inputs -/

/-- A Sequence with two steps and a reply, in an empty store. -/
def demoSequence : Sequence :=
  { ObjectMeta := { Name := "s", Namespace := "ns", UID := "u1" },
    Spec :=
      { Provisioner := some { Kind := "ClusterChannelProvisioner", Name := "kafka" },
        Steps :=
          [some { SubscriberSpec := some { DNSName := some "a.b" } },
           some { Provisioner := some { Kind := "ClusterChannelProvisioner", Name := "natss" } }],
        Reply := some { Channel := some { Kind := "Channel", Name := "out" } } } }

/-- A store that holds `demoSequence` and nothing else. -/
def demoClient : Client := { sequences := [demoSequence] }

/-- The channel of step 0 of `demoSequence` as another actor left it: generation 5 and one
subscriber set on it. -/
def observedChannel : Channel :=
  { stepChannel demoSequence 0 with
    Spec :=
      { Generation := 5,
        Provisioner := some defaultProvisioner,
        Subscribable := some { Subscribers := [{ SubscriberURI := "http://a.b/" }] } },
    Status := { Address := { Hostname := "s-step-0.ns.svc.cluster.local" } } }

/-- The channel of step 0 of `demoSequence` under another provisioner, otherwise as
`observedChannel`. -/
def staleChannel : Channel :=
  { observedChannel with
    Spec :=
      { observedChannel.Spec with
        Provisioner := some { Kind := "ClusterChannelProvisioner", Name := "kafka" } } }

/-- The subscription of step 0 of `demoSequence` with generation 3. -/
def observedSubscription : Subscription :=
  { stepSubscription demoSequence 0 with
    Spec := { (stepSubscription demoSequence 0).Spec with Generation := 3 } }

/-- The subscription of step 0 of `demoSequence` with no reply, generation 3. -/
def staleSubscription : Subscription :=
  { stepSubscription demoSequence 0 with
    Spec := { (stepSubscription demoSequence 0).Spec with Generation := 3, Reply := none } }

/-- The store of `demoClient`, refusing every read of a Sequence. -/
def unreadableClient : Client :=
  { demoClient with
    getFault := fun kind _ => if kind = ResourceKind.sequence then some "connection refused" else none }

/-- The store of `demoClient`, refusing the create of the subscription of step 1. -/
def quotaClient : Client :=
  { demoClient with
    createFault := fun kind key =>
      if kind = ResourceKind.subscription ∧ key = { Namespace := "ns", Name := "s-step-1" } then
        some (StoreError.other "quota exceeded")
      else
        none }

/-- A Sequence under deletion that still carries the token of the controller, with a
finalizer of another controller. -/
def deletedSequence : Sequence :=
  { demoSequence with
    ObjectMeta :=
      { demoSequence.ObjectMeta with
        DeletionTimestamp := some 42,
        Finalizers := ["sequence-controller", "other-controller"] } }

/-- A Sequence whose finalizers hold the token of the controller, out of order. -/
def unsortedSequence : Sequence :=
  { demoSequence with
    ObjectMeta := { demoSequence.ObjectMeta with Finalizers := ["sequence-controller", "a"] } }

/-- A Sequence whose finalizers do not hold the token of the controller, out of order. -/
def foreignSequence : Sequence :=
  { demoSequence with ObjectMeta := { demoSequence.ObjectMeta with Finalizers := ["b", "a"] } }

/-- A Sequence whose finalizers are sorted and hold the token of the controller. -/
def finalizedSequence : Sequence :=
  { demoSequence with
    ObjectMeta := { demoSequence.ObjectMeta with Finalizers := ["a", "sequence-controller"] } }

/-- The stored status of the condition of type `t`, if one is stored. -/
def statusOf (conds : List Condition) (t : String) : Option ConditionStatus :=
  (seqCondSet.GetCondition conds t).map (fun c => c.Status)

/-- The statuses that the methods of `SequenceStatus` produce from the zero value. -/
inductive Reachable : SequenceStatus → Prop where
  | zero : Reachable {}
  | initializeConditions (ss : SequenceStatus) (now : Nat) :
    Reachable ss → Reachable (ss.InitializeConditions now)
  | markProvisioned (ss : SequenceStatus) (now : Nat) :
    Reachable ss → Reachable (ss.MarkProvisioned now)
  | markNotProvisioned (ss : SequenceStatus) (now : Nat) (reason message : String) :
    Reachable ss → Reachable (ss.MarkNotProvisioned now reason message)
  | setAddress (ss : SequenceStatus) (now : Nat) (hostname : String) :
    Reachable ss → Reachable (ss.SetAddress now hostname)

/-- `Ready` is stored as True exactly when both declared conditions are, and as False when one
of them is False. -/
def ReadyDerived (conds : List Condition) : Prop :=
  (statusOf conds "Ready" = some ConditionStatus.True ↔
      statusOf conds "Provisioned" = some ConditionStatus.True ∧
        statusOf conds "Addressable" = some ConditionStatus.True) ∧
    (statusOf conds "Provisioned" = some ConditionStatus.False ∨
        statusOf conds "Addressable" = some ConditionStatus.False →
      statusOf conds "Ready" = some ConditionStatus.False)

/-- The status of the case "one false" of the test of `InitializeConditions`: Provisioned
False and no other condition. -/
def oneFalseStatus : SequenceStatus :=
  { Conditions := [{ Typ := "Provisioned", Status := ConditionStatus.False }] }

/-- The types and statuses of conditions, which is what the tests of `sequence_types_test.go`
compare. -/
def typesAndStatuses (conds : List Condition) : List (String × ConditionStatus) :=
  conds.map (fun c => (c.Typ, c.Status))

/-! ## Validation (`sequence_validation.go`) -/

/-- What `CheckImmutableFields` is handed as the original (the interface `apis.Immutable` of
knative/pkg, not among the sources): a pointer to a Sequence, which may be nil, or a value of
another type (a nil interface included). -/
inductive Immutable where
  | sequence (original : Option Sequence)
  | other
deriving DecidableEq, Repr

/-- The error of a validation (`apis.FieldError` of knative/pkg, not among the sources), with
the three fields the code sets. -/
structure FieldError where
  Message : String
  Paths : List String := []
  Details : String := ""
deriving DecidableEq, Repr

/-- Method `CheckImmutableFields` of the Sequence `current`; `none` is the nil error.  `Diff` is
`cmp.Diff` under the option `cmpopts.IgnoreFields(SequenceSpec{})`, which names no field. -/
def Sequence.CheckImmutableFields (Diff : SequenceSpec → SequenceSpec → String)
    (current : Sequence) (og : Immutable) : Option FieldError :=
  match og with
  | Immutable.other => some { Message := "The provided original was not a Sequence" }
  | Immutable.sequence none => none
  | Immutable.sequence (some original) =>
    let diff := Diff original.Spec current.Spec
    if diff ≠ "" then
      some
        { Message := "Immutable fields changed (-old +new)",
          Paths := ["spec"],
          Details := diff }
    else
      none

/-- A report of differences that is empty exactly on equal specs, for the concrete inputs. -/
def plainDiff (a b : SequenceSpec) : String :=
  if a = b then "" else "spec differs"

/-- The Sequence `demoSequence` with one more step. -/
def longerSequence : Sequence :=
  { demoSequence with
    Spec := { demoSequence.Spec with Steps := demoSequence.Spec.Steps ++ [some {}] } }

/-- The store of `demoClient` with the channel of step 0 as another actor left it. -/
def addressedClient : Client := { demoClient with channels := [observedChannel] }

/-- The store of `demoClient`, refusing the update of the Sequence as a conflict. -/
def conflictClient : Client :=
  { demoClient with
    updateFault := fun kind _ =>
      if kind = ResourceKind.sequence then some StoreError.conflict else none }

/-- The call of `updateStatus` that `Reconcile` makes for the Sequence it read. -/
def statusCall (r : Client) (request : ObjectKey) (sequence : Sequence) (now : Nat) :
    Except StoreError Sequence × Client :=
  updateStatus (reconcile (r.record (Op.get ResourceKind.sequence request)) sequence now).2.2
    (reconcile (r.record (Op.get ResourceKind.sequence request)) sequence now).2.1 now

/-- The calls that take the log of `r` to the log of `t`: at most `g` of them are reads, at
most `w` of them are writes, and there are at least `lo` of them. -/
def Issues (r t : Client) (g w lo : Nat) : Prop :=
  ∃ new, t.log = r.log ++ new ∧ new.length ≤ g + (writes new).length ∧
    (writes new).length ≤ w ∧ lo ≤ new.length

/-- A Sequence without steps. -/
def emptySequence : Sequence :=
  { ObjectMeta := { Name := "s", Namespace := "ns", UID := "u1" } }

/-- A store that holds `emptySequence` and a channel under the name of its step 0, with a
hostname. -/
def leftoverClient : Client :=
  { sequences := [emptySequence], channels := [observedChannel] }

/-- A store that holds `emptySequence` under deletion, and nothing else. -/
def deletedEmptyClient : Client :=
  { sequences :=
      [{ emptySequence with
          ObjectMeta := { emptySequence.ObjectMeta with DeletionTimestamp := some 42 } }] }

/-- The store refuses, with `e`, the write that brings `channel` into it: the create when the
channel is absent, the update to the spec of `channel` when the channel stored is not
converged. -/
def ChannelWriteRefused (r : Client) (channel : Channel) (e : StoreError) : Prop :=
  (r.readChannel (ObjectKeyFromObject channel.ObjectMeta) = Except.error StoreError.notFound ∧
      (r.CreateChannel channel).1 = some e) ∨
    (¬ ChannelConverged r channel ∧
      ∃ obs, r.readChannel (ObjectKeyFromObject channel.ObjectMeta) = Except.ok obs ∧
        (r.UpdateChannel { obs with Spec := channel.Spec }).1 = some e)

/-- The store refuses, with `e`, the write that brings `subscription` into it: the create when
the subscription is absent, the update to the spec of `subscription` when the subscription
stored is not converged. -/
def SubscriptionWriteRefused (r : Client) (subscription : Subscription) (e : StoreError) :
    Prop :=
  (r.readSubscription (ObjectKeyFromObject subscription.ObjectMeta) =
        Except.error StoreError.notFound ∧
      (r.CreateSubscription subscription).1 = some e) ∨
    (¬ SubscriptionConverged r subscription ∧
      ∃ obs, r.readSubscription (ObjectKeyFromObject subscription.ObjectMeta) = Except.ok obs ∧
        (r.UpdateSubscription { obs with Spec := subscription.Spec }).1 = some e)

/-- The store refuses, with `e`, a write of a child of step `i`: the write of its channel, or,
once the channel is converged, the write of its subscription. -/
def ChildWriteRefused (r : Client) (sequence : Sequence) (i : Nat) (e : StoreError) : Prop :=
  ChannelWriteRefused r (stepChannel sequence i) e ∨
    ((reconcileChannel r (stepChannel sequence i)).1 = none ∧
      SubscriptionWriteRefused (reconcileChannel r (stepChannel sequence i)).2
        (stepSubscription sequence i) e)

/-! ## Theorems -/

/-! ### The store -/

@[simp]
theorem record_log (c : Client) (op : Op) : (c.record op).log = c.log ++ [op] := rfl

@[simp]
theorem record_sequences (c : Client) (op : Op) : (c.record op).sequences = c.sequences := rfl

@[simp]
theorem record_channels (c : Client) (op : Op) : (c.record op).channels = c.channels := rfl

@[simp]
theorem record_subscriptions (c : Client) (op : Op) :
    (c.record op).subscriptions = c.subscriptions := rfl

@[simp]
theorem record_getFault (c : Client) (op : Op) : (c.record op).getFault = c.getFault := rfl

@[simp]
theorem record_createFault (c : Client) (op : Op) : (c.record op).createFault = c.createFault :=
  rfl

@[simp]
theorem record_updateFault (c : Client) (op : Op) : (c.record op).updateFault = c.updateFault :=
  rfl

theorem CreateChannel_log (c : Client) (obj : Channel) :
    (c.CreateChannel obj).2.log = c.log ++ [Op.createChannel obj] := by
  unfold Client.CreateChannel
  dsimp only
  split
  · rfl
  · split <;> rfl

theorem CreateSubscription_log (c : Client) (obj : Subscription) :
    (c.CreateSubscription obj).2.log = c.log ++ [Op.createSubscription obj] := by
  unfold Client.CreateSubscription
  dsimp only
  split
  · rfl
  · split <;> rfl

theorem UpdateChannel_log (c : Client) (obj : Channel) :
    (c.UpdateChannel obj).2.log = c.log ++ [Op.updateChannel obj] := by
  unfold Client.UpdateChannel
  dsimp only
  split
  · rfl
  · split <;> rfl

theorem UpdateSubscription_log (c : Client) (obj : Subscription) :
    (c.UpdateSubscription obj).2.log = c.log ++ [Op.updateSubscription obj] := by
  unfold Client.UpdateSubscription
  dsimp only
  split
  · rfl
  · split <;> rfl

theorem UpdateSequence_log (c : Client) (obj : Sequence) :
    (c.UpdateSequence obj).2.log = c.log ++ [Op.updateSequence obj] := by
  unfold Client.UpdateSequence
  dsimp only
  split
  · rfl
  · split <;> rfl

/-- The three ways `reconcileChannel` can go, by what the read answers. -/
theorem reconcileChannel_cases (r : Client) (channel : Channel) :
    reconcileChannel r channel =
      match r.readChannel (ObjectKeyFromObject channel.ObjectMeta) with
      | Except.error err =>
        if IsNotFound err then
          (r.record (Op.get ResourceKind.channel (ObjectKeyFromObject channel.ObjectMeta))).CreateChannel
            channel
        else
          (some err, r.record (Op.get ResourceKind.channel (ObjectKeyFromObject channel.ObjectMeta)))
      | Except.ok obs =>
        if channel.Spec.Provisioner = obs.Spec.Provisioner ∧
            channel.Spec.Arguments = obs.Spec.Arguments then
          (none, r.record (Op.get ResourceKind.channel (ObjectKeyFromObject channel.ObjectMeta)))
        else
          (r.record (Op.get ResourceKind.channel (ObjectKeyFromObject channel.ObjectMeta))).UpdateChannel
            { obs with Spec := channel.Spec } := by
  unfold reconcileChannel Client.GetChannel
  cases h : r.readChannel (ObjectKeyFromObject channel.ObjectMeta) with
  | error err => simp only [h]
  | ok obs =>
    simp only [h]
    have key : channel.Spec =
        { obs.Spec with
          Generation := channel.Spec.Generation,
          Subscribable := channel.Spec.Subscribable } ↔
        (channel.Spec.Provisioner = obs.Spec.Provisioner ∧
          channel.Spec.Arguments = obs.Spec.Arguments) := by
      constructor
      · intro hc
        rw [hc]
        exact ⟨rfl, rfl⟩
      · intro hp
        cases hc : channel.Spec
        simp only [hc] at hp
        simp [hp.1, hp.2]
    by_cases hp : channel.Spec.Provisioner = obs.Spec.Provisioner ∧
        channel.Spec.Arguments = obs.Spec.Arguments
    · rw [if_pos hp, if_neg (not_not.mpr (key.2 hp))]
    · rw [if_neg hp, if_pos (mt key.1 hp)]
/-- The three ways `reconcileSubscription` can go, by what the read answers. -/
theorem reconcileSubscription_cases (r : Client) (subscription : Subscription) :
    reconcileSubscription r subscription =
      match r.readSubscription (ObjectKeyFromObject subscription.ObjectMeta) with
      | Except.error err =>
        if IsNotFound err then
          (r.record
            (Op.get ResourceKind.subscription
              (ObjectKeyFromObject subscription.ObjectMeta))).CreateSubscription subscription
        else
          (some err,
            r.record
              (Op.get ResourceKind.subscription (ObjectKeyFromObject subscription.ObjectMeta)))
      | Except.ok obs =>
        if subscription.Spec.Channel = obs.Spec.Channel ∧
            subscription.Spec.Subscriber = obs.Spec.Subscriber ∧
            subscription.Spec.Reply = obs.Spec.Reply then
          (none,
            r.record
              (Op.get ResourceKind.subscription (ObjectKeyFromObject subscription.ObjectMeta)))
        else
          (r.record
            (Op.get ResourceKind.subscription
              (ObjectKeyFromObject subscription.ObjectMeta))).UpdateSubscription
            { obs with Spec := subscription.Spec } := by
  unfold reconcileSubscription Client.GetSubscription
  cases h : r.readSubscription (ObjectKeyFromObject subscription.ObjectMeta) with
  | error err => simp only [h]
  | ok obs =>
    simp only [h]
    have key : subscription.Spec =
        { obs.Spec with Generation := subscription.Spec.Generation } ↔
        (subscription.Spec.Channel = obs.Spec.Channel ∧
          subscription.Spec.Subscriber = obs.Spec.Subscriber ∧
          subscription.Spec.Reply = obs.Spec.Reply) := by
      constructor
      · intro hc
        rw [hc]
        exact ⟨rfl, rfl, rfl⟩
      · intro hp
        cases hc : subscription.Spec
        simp only [hc] at hp
        simp [hp.1, hp.2.1, hp.2.2]
    by_cases hp : subscription.Spec.Channel = obs.Spec.Channel ∧
        subscription.Spec.Subscriber = obs.Spec.Subscriber ∧
        subscription.Spec.Reply = obs.Spec.Reply
    · rw [if_pos hp, if_neg (not_not.mpr (key.2 hp))]
    · rw [if_neg hp, if_pos (mt key.1 hp)]

theorem lookup_append {α : Type} (m : α → ObjectMeta) (l : List α) (o : α) (k : ObjectKey) :
    lookup m (l ++ [o]) k =
      match lookup m l k with
      | some x => some x
      | none => if ObjectKeyFromObject (m o) = k then some o else none := by
  unfold lookup
  rw [List.find?_append]
  cases h : List.find? (fun o => decide (ObjectKeyFromObject (m o) = k)) l with
  | some x => simp
  | none => by_cases hk : ObjectKeyFromObject (m o) = k <;> simp [List.find?, hk]

theorem lookup_replace {α : Type} (m : α → ObjectMeta) (l : List α) (o : α) (k : ObjectKey) :
    lookup m (replace m l o) k =
      if k = ObjectKeyFromObject (m o) then (lookup m l k).map (fun _ => o) else lookup m l k := by
  unfold lookup replace
  induction l with
  | nil => simp
  | cons a l ih =>
    simp only [List.map_cons, List.find?_cons]
    by_cases hk : k = ObjectKeyFromObject (m o)
    · subst hk
      simp only [if_true] at ih ⊢
      by_cases ha : ObjectKeyFromObject (m a) = ObjectKeyFromObject (m o)
      · simp [ha]
      · simp [ha, ih]
    · simp only [if_neg hk] at ih ⊢
      by_cases ha : ObjectKeyFromObject (m a) = ObjectKeyFromObject (m o)
      · have h1 : ¬ ObjectKeyFromObject (m o) = k := fun h => hk h.symm
        have h2 : ¬ ObjectKeyFromObject (m a) = k := fun h => hk (by rw [← h, ha])
        simp [ha, h1, h2, ih]
      · simp [ha, ih]

/-- What is found under a key is stored under that key. -/
theorem lookup_key {α : Type} (m : α → ObjectMeta) (l : List α) (k : ObjectKey) (o : α)
    (h : lookup m l k = some o) : ObjectKeyFromObject (m o) = k := by
  unfold lookup at h
  have := List.find?_some h
  simpa using this

/-- The step of `reconcileStep`, in terms of the two objects it builds. -/
theorem reconcileStep_eq (r : Client) (sequence : Sequence) (i : Nat)
    (hi : i < sequence.Spec.Steps.length) :
    reconcileStep r sequence i =
      match reconcileChannel r (stepChannel sequence i) with
      | (some err, r1) => (some err, r1)
      | (none, r1) => reconcileSubscription r1 (stepSubscription sequence i) := by
  unfold reconcileStep
  rw [List.getElem?_eq_getElem hi]
  simp only [stepChannel, stepSubscription, stepReply, List.getElem?_eq_getElem hi, Option.bind]

/-! ### What a run adds to the log -/

/-- The calls `reconcileChannel` issues: one read, then at most one write, of the channel
handed in or of the stored object with the spec of the channel handed in. -/
theorem reconcileChannel_ops (r : Client) (channel : Channel) (P : Op → Prop)
    (hget : P (Op.get ResourceKind.channel (ObjectKeyFromObject channel.ObjectMeta)))
    (hcreate : P (Op.createChannel channel))
    (hupdate : ∀ obs : Channel, P (Op.updateChannel { obs with Spec := channel.Spec })) :
    ∃ new, (reconcileChannel r channel).2.log = r.log ++ new ∧ ∀ op ∈ new, P op := by
  rw [reconcileChannel_cases]
  cases h : r.readChannel (ObjectKeyFromObject channel.ObjectMeta) with
  | error err =>
    simp only
    split
    · refine ⟨[Op.get ResourceKind.channel (ObjectKeyFromObject channel.ObjectMeta),
        Op.createChannel channel], ?_, ?_⟩
      · simp [CreateChannel_log]
      · intro op hop
        simp only [List.mem_cons, List.mem_singleton, List.not_mem_nil, or_false] at hop
        rcases hop with rfl | rfl
        · exact hget
        · exact hcreate
    · refine ⟨[Op.get ResourceKind.channel (ObjectKeyFromObject channel.ObjectMeta)], ?_, ?_⟩
      · simp
      · intro op hop
        simp only [List.mem_singleton] at hop
        subst hop
        exact hget
  | ok obs =>
    simp only
    split
    · refine ⟨[Op.get ResourceKind.channel (ObjectKeyFromObject channel.ObjectMeta)], ?_, ?_⟩
      · simp
      · intro op hop
        simp only [List.mem_singleton] at hop
        subst hop
        exact hget
    · refine ⟨[Op.get ResourceKind.channel (ObjectKeyFromObject channel.ObjectMeta),
        Op.updateChannel { obs with Spec := channel.Spec }], ?_, ?_⟩
      · simp [UpdateChannel_log]
      · intro op hop
        simp only [List.mem_cons, List.mem_singleton, List.not_mem_nil, or_false] at hop
        rcases hop with rfl | rfl
        · exact hget
        · exact hupdate obs

/-- The calls `reconcileSubscription` issues: one read, then at most one write, of the
subscription handed in or of the stored object with the spec of the subscription handed in. -/
theorem reconcileSubscription_ops (r : Client) (subscription : Subscription) (P : Op → Prop)
    (hget : P (Op.get ResourceKind.subscription (ObjectKeyFromObject subscription.ObjectMeta)))
    (hcreate : P (Op.createSubscription subscription))
    (hupdate : ∀ obs : Subscription,
      P (Op.updateSubscription { obs with Spec := subscription.Spec })) :
    ∃ new, (reconcileSubscription r subscription).2.log = r.log ++ new ∧ ∀ op ∈ new, P op := by
  rw [reconcileSubscription_cases]
  cases h : r.readSubscription (ObjectKeyFromObject subscription.ObjectMeta) with
  | error err =>
    simp only
    split
    · refine ⟨[Op.get ResourceKind.subscription (ObjectKeyFromObject subscription.ObjectMeta),
        Op.createSubscription subscription], ?_, ?_⟩
      · simp [CreateSubscription_log]
      · intro op hop
        simp only [List.mem_cons, List.mem_singleton, List.not_mem_nil, or_false] at hop
        rcases hop with rfl | rfl
        · exact hget
        · exact hcreate
    · refine ⟨[Op.get ResourceKind.subscription (ObjectKeyFromObject subscription.ObjectMeta)],
        ?_, ?_⟩
      · simp
      · intro op hop
        simp only [List.mem_singleton] at hop
        subst hop
        exact hget
  | ok obs =>
    simp only
    split
    · refine ⟨[Op.get ResourceKind.subscription (ObjectKeyFromObject subscription.ObjectMeta)],
        ?_, ?_⟩
      · simp
      · intro op hop
        simp only [List.mem_singleton] at hop
        subst hop
        exact hget
    · refine ⟨[Op.get ResourceKind.subscription (ObjectKeyFromObject subscription.ObjectMeta),
        Op.updateSubscription { obs with Spec := subscription.Spec }], ?_, ?_⟩
      · simp [UpdateSubscription_log]
      · intro op hop
        simp only [List.mem_cons, List.mem_singleton, List.not_mem_nil, or_false] at hop
        rcases hop with rfl | rfl
        · exact hget
        · exact hupdate obs

/-- The calls of one step are those of its channel and of its subscription. -/
theorem reconcileStep_ops (r : Client) (sequence : Sequence) (i : Nat) (P : Op → Prop)
    (hget : ∀ kind key, P (Op.get kind key))
    (hcc : P (Op.createChannel (stepChannel sequence i)))
    (hcs : P (Op.createSubscription (stepSubscription sequence i)))
    (huc : ∀ obs : Channel, P (Op.updateChannel { obs with Spec := (stepChannel sequence i).Spec }))
    (hus : ∀ obs : Subscription,
      P (Op.updateSubscription { obs with Spec := (stepSubscription sequence i).Spec })) :
    ∃ new, (reconcileStep r sequence i).2.log = r.log ++ new ∧ ∀ op ∈ new, P op := by
  by_cases hi : i < sequence.Spec.Steps.length
  · rw [reconcileStep_eq r sequence i hi]
    obtain ⟨n1, h1, p1⟩ := reconcileChannel_ops r (stepChannel sequence i) P (hget _ _) hcc huc
    cases hc : reconcileChannel r (stepChannel sequence i) with
    | mk e r1 =>
      rw [hc] at h1
      cases e with
      | some err => exact ⟨n1, h1, p1⟩
      | none =>
        simp only
        obtain ⟨n2, h2, p2⟩ :=
          reconcileSubscription_ops r1 (stepSubscription sequence i) P (hget _ _) hcs hus
        refine ⟨n1 ++ n2, ?_, ?_⟩
        · rw [h2, h1, List.append_assoc]
        · intro op hop
          rcases List.mem_append.1 hop with h | h
          · exact p1 op h
          · exact p2 op h
  · refine ⟨[], ?_, by simp⟩
    unfold reconcileStep
    rw [List.getElem?_eq_none (Nat.le_of_not_lt hi)]
    simp

/-- The calls of the loop over the steps are those of the steps it runs. -/
theorem provisionSteps_ops (sequence : Sequence) (P : Op → Prop)
    (hstep : ∀ (r : Client) (i : Nat),
      ∃ new, (reconcileStep r sequence i).2.log = r.log ++ new ∧ ∀ op ∈ new, P op)
    (n : Nat) : ∀ (r : Client) (i : Nat),
      ∃ new, (provisionSteps r sequence n i).2.log = r.log ++ new ∧ ∀ op ∈ new, P op := by
  induction n with
  | zero => intro r i; exact ⟨[], by simp [provisionSteps], by simp⟩
  | succ n ih =>
    intro r i
    unfold provisionSteps
    obtain ⟨n1, h1, p1⟩ := hstep r i
    cases hc : reconcileStep r sequence i with
    | mk e r1 =>
      rw [hc] at h1
      cases e with
      | some err => exact ⟨n1, h1, p1⟩
      | none =>
        simp only
        obtain ⟨n2, h2, p2⟩ := ih r1 (i + 1)
        refine ⟨n1 ++ n2, ?_, ?_⟩
        · rw [h2, h1, List.append_assoc]
        · intro op hop
          rcases List.mem_append.1 hop with h | h
          · exact p1 op h
          · exact p2 op h

/-! ### Claims on what is built -/

/-- C1: for a Sequence named S with N steps and a step index i below N, `reconcileStep`
converges the channel and then the subscription it builds for step i; both are named
"S-step-i" in the namespace of the Sequence; the source of the subscription is a Channel
reference to that name; its reply is a Channel reference named "S-step-(i+1)" when i is not
the last index, and the Reply of the Sequence (absent when the Sequence has none) when it is. -/
theorem C1_step_naming_and_wiring (r : Client) (sequence : Sequence) (i : Nat)
    (hi : i < sequence.Spec.Steps.length) :
    (reconcileStep r sequence i =
        match reconcileChannel r (stepChannel sequence i) with
        | (some err, r1) => (some err, r1)
        | (none, r1) => reconcileSubscription r1 (stepSubscription sequence i)) ∧
      (stepChannel sequence i).ObjectMeta.Name =
        sequence.ObjectMeta.Name ++ "-step-" ++ toString i ∧
      (stepChannel sequence i).ObjectMeta.Namespace = sequence.ObjectMeta.Namespace ∧
      (stepSubscription sequence i).ObjectMeta.Name =
        sequence.ObjectMeta.Name ++ "-step-" ++ toString i ∧
      (stepSubscription sequence i).ObjectMeta.Namespace = sequence.ObjectMeta.Namespace ∧
      (stepSubscription sequence i).Spec.Channel =
        { APIVersion := (stepChannel sequence i).TypeMeta.APIVersion,
          Kind := "Channel",
          Name := (stepChannel sequence i).ObjectMeta.Name } ∧
      (i < sequence.Spec.Steps.length - 1 →
        (stepSubscription sequence i).Spec.Reply =
          some
            { Channel :=
                some
                  { APIVersion := "eventing.knative.dev/v1alpha1",
                    Kind := "Channel",
                    Name := sequence.ObjectMeta.Name ++ "-step-" ++ toString (i + 1) } }) ∧
      (i = sequence.Spec.Steps.length - 1 →
        (stepSubscription sequence i).Spec.Reply = sequence.Spec.Reply) := by
  refine ⟨reconcileStep_eq r sequence i hi, rfl, rfl, rfl, rfl, rfl, ?_, ?_⟩
  · intro h
    have hne : i ≠ sequence.Spec.Steps.length - 1 := Nat.ne_of_lt h
    simp [stepSubscription, makeSubscription, stepReply, hne, stepName]
  · intro h
    simp [stepSubscription, makeSubscription, stepReply, h]

/-- Witness of C1: the two steps of `demoSequence`. -/
theorem C1_step_naming_and_wiring_witness :
    (stepSubscription demoSequence 0).ObjectMeta.Name = "s-step-0" ∧
      (stepSubscription demoSequence 0).Spec.Reply =
        some { Channel := some { APIVersion := "eventing.knative.dev/v1alpha1", Kind := "Channel", Name := "s-step-1" } } ∧
      (stepSubscription demoSequence 1).Spec.Reply =
        some { Channel := some { Kind := "Channel", Name := "out" } } := by
  have h0 := C1_step_naming_and_wiring {} demoSequence 0 (by decide)
  have h1 := C1_step_naming_and_wiring {} demoSequence 1 (by decide)
  exact ⟨h0.2.2.2.1, h0.2.2.2.2.2.2.1 (by decide), h1.2.2.2.2.2.2.2 (by decide)⟩

/-- C2: the Channel built by `makeChannel` and the Subscription built by `makeSubscription`
each carry an owner reference to the Sequence (kind Sequence, the name and UID of the
Sequence, controller flag set); and every create that `reconcile` issues, for any store and
any number of steps, is the create of an object with such an owner reference. -/
theorem C2_children_carry_owner_reference (r : Client) (sequence : Sequence) (now : Nat)
    (name namespace_ : String) (provisioner : Option ObjectReference) (channel : ObjectReference)
    (subscriber : Option SubscriberSpec) (reply : Option ReplyStrategy) :
    OwnedBy (makeChannel name namespace_ provisioner sequence).ObjectMeta sequence ∧
      OwnedBy (makeSubscription name namespace_ channel subscriber reply sequence).ObjectMeta
        sequence ∧
      ∃ new, (reconcile r sequence now).2.2.log = r.log ++ new ∧
        ∀ op ∈ new, Op.createsOwned sequence op := by
  have hch : ∀ (s : Sequence) (n ns : String) (p : Option ObjectReference),
      OwnedBy (makeChannel n ns p s).ObjectMeta s := by
    intro s n ns p
    exact ⟨_, List.mem_singleton.2 rfl, rfl, rfl, rfl, rfl⟩
  have hsub : ∀ (s : Sequence) (n ns : String) (c : ObjectReference)
      (sb : Option SubscriberSpec) (rp : Option ReplyStrategy),
      OwnedBy (makeSubscription n ns c sb rp s).ObjectMeta s := by
    intro s n ns c sb rp
    exact ⟨_, List.mem_singleton.2 rfl, rfl, rfl, rfl, rfl⟩
  refine ⟨hch _ _ _ _, hsub _ _ _ _ _ _, ?_⟩
  unfold reconcile
  simp only
  split
  · exact ⟨[], by simp, by simp⟩
  · have hloop := provisionSteps_ops
      { sequence with Status := sequence.Status.InitializeConditions now }
      (Op.createsOwned sequence)
      (fun r i => reconcileStep_ops r _ i (Op.createsOwned sequence)
        (fun _ _ => trivial) (hch _ _ _ _) (hsub _ _ _ _ _ _) (fun _ => trivial)
        (fun _ => trivial))
      sequence.Spec.Steps.length r 0
    obtain ⟨new, hlog, hP⟩ := hloop
    refine ⟨new, ?_, hP⟩
    rw [← hlog]
    split <;> rename_i h <;> simp only [h]

/-- C3 (the code at the failing input): whatever provisioner the step or the Sequence sets,
the channel that `reconcileStep` builds has the cluster default provisioner. -/
theorem C3_channel_provisioner_is_default (sequence : Sequence) (i : Nat) :
    (stepChannel sequence i).Spec.Provisioner = some defaultProvisioner ∧
      (demoSequence.Spec.Steps[1]?).bind (fun step => step.bind (fun s => s.Provisioner)) =
        some { Kind := "ClusterChannelProvisioner", Name := "natss" } ∧
      demoSequence.Spec.Provisioner = some { Kind := "ClusterChannelProvisioner", Name := "kafka" } ∧
      (stepChannel demoSequence 1).Spec.Provisioner =
        some
          { APIVersion := "eventing.knative.dev/v1alpha1",
            Kind := "ClusterChannelProvisioner",
            Name := "in-memory-channel" } ∧
      (stepChannel demoSequence 0).Spec.Provisioner =
        some
          { APIVersion := "eventing.knative.dev/v1alpha1",
            Kind := "ClusterChannelProvisioner",
            Name := "in-memory-channel" } :=
  ⟨rfl, by decide, by decide, by decide, by decide⟩

/-! ### Claims on the create-or-update rule -/

/-- C4: for every store and every child handed to `reconcileChannel` or to
`reconcileSubscription`, after the one read by the name of the child: if the store answers
that no such object exists, exactly one create, of the child as built, is issued and no update;
if it answers an object whose spec equals the built spec apart from Generation (and
Subscribable, for a channel), nothing more is issued; if it answers another object, exactly one
update is issued, of the stored object with the built spec.  A store that serves the read
answers with the object it holds under the name, and with not-found when it holds none. -/
theorem C4_create_or_update (r : Client) (channel : Channel) (subscription : Subscription) :
    (r.readChannel (ObjectKeyFromObject channel.ObjectMeta) = Except.error StoreError.notFound →
        (reconcileChannel r channel).2.log =
          r.log ++ [Op.get ResourceKind.channel (ObjectKeyFromObject channel.ObjectMeta),
            Op.createChannel channel]) ∧
      (∀ obs : Channel, r.readChannel (ObjectKeyFromObject channel.ObjectMeta) = Except.ok obs →
        obs.Spec.Provisioner = channel.Spec.Provisioner →
        obs.Spec.Arguments = channel.Spec.Arguments →
        (reconcileChannel r channel).2.log =
          r.log ++ [Op.get ResourceKind.channel (ObjectKeyFromObject channel.ObjectMeta)]) ∧
      (∀ obs : Channel, r.readChannel (ObjectKeyFromObject channel.ObjectMeta) = Except.ok obs →
        ¬ (obs.Spec.Provisioner = channel.Spec.Provisioner ∧
            obs.Spec.Arguments = channel.Spec.Arguments) →
        (reconcileChannel r channel).2.log =
          r.log ++ [Op.get ResourceKind.channel (ObjectKeyFromObject channel.ObjectMeta),
            Op.updateChannel { obs with Spec := channel.Spec }]) ∧
      (r.readSubscription (ObjectKeyFromObject subscription.ObjectMeta) =
          Except.error StoreError.notFound →
        (reconcileSubscription r subscription).2.log =
          r.log ++ [Op.get ResourceKind.subscription (ObjectKeyFromObject subscription.ObjectMeta),
            Op.createSubscription subscription]) ∧
      (∀ obs : Subscription,
        r.readSubscription (ObjectKeyFromObject subscription.ObjectMeta) = Except.ok obs →
        obs.Spec.Channel = subscription.Spec.Channel →
        obs.Spec.Subscriber = subscription.Spec.Subscriber →
        obs.Spec.Reply = subscription.Spec.Reply →
        (reconcileSubscription r subscription).2.log =
          r.log ++
            [Op.get ResourceKind.subscription (ObjectKeyFromObject subscription.ObjectMeta)]) ∧
      (∀ obs : Subscription,
        r.readSubscription (ObjectKeyFromObject subscription.ObjectMeta) = Except.ok obs →
        ¬ (obs.Spec.Channel = subscription.Spec.Channel ∧
            obs.Spec.Subscriber = subscription.Spec.Subscriber ∧
            obs.Spec.Reply = subscription.Spec.Reply) →
        (reconcileSubscription r subscription).2.log =
          r.log ++ [Op.get ResourceKind.subscription (ObjectKeyFromObject subscription.ObjectMeta),
            Op.updateSubscription { obs with Spec := subscription.Spec }]) ∧
      (r.getFault ResourceKind.channel (ObjectKeyFromObject channel.ObjectMeta) = none →
        r.readChannel (ObjectKeyFromObject channel.ObjectMeta) =
          match lookup Channel.ObjectMeta r.channels (ObjectKeyFromObject channel.ObjectMeta) with
          | some obs => Except.ok obs
          | none => Except.error StoreError.notFound) ∧
      (r.getFault ResourceKind.subscription (ObjectKeyFromObject subscription.ObjectMeta) = none →
        r.readSubscription (ObjectKeyFromObject subscription.ObjectMeta) =
          match lookup Subscription.ObjectMeta r.subscriptions
              (ObjectKeyFromObject subscription.ObjectMeta) with
          | some obs => Except.ok obs
          | none => Except.error StoreError.notFound) := by
  refine ⟨?_, ?_, ?_, ?_, ?_, ?_, ?_, ?_⟩
  · intro h
    rw [reconcileChannel_cases, h]
    simp [IsNotFound, CreateChannel_log]
  · intro obs h hp ha
    rw [reconcileChannel_cases, h]
    simp [hp, ha]
  · intro obs h hne
    rw [reconcileChannel_cases, h]
    have hne2 : ¬ (channel.Spec.Provisioner = obs.Spec.Provisioner ∧
        channel.Spec.Arguments = obs.Spec.Arguments) := fun hh => hne ⟨hh.1.symm, hh.2.symm⟩
    simp only [if_neg hne2, UpdateChannel_log]
    simp
  · intro h
    rw [reconcileSubscription_cases, h]
    simp [IsNotFound, CreateSubscription_log]
  · intro obs h hc hs hr
    rw [reconcileSubscription_cases, h]
    simp [hc, hs, hr]
  · intro obs h hne
    rw [reconcileSubscription_cases, h]
    have hne2 : ¬ (subscription.Spec.Channel = obs.Spec.Channel ∧
        subscription.Spec.Subscriber = obs.Spec.Subscriber ∧
        subscription.Spec.Reply = obs.Spec.Reply) :=
      fun hh => hne ⟨hh.1.symm, hh.2.1.symm, hh.2.2.symm⟩
    simp only [if_neg hne2, UpdateSubscription_log]
    simp
  · intro h
    unfold Client.readChannel
    rw [h]
  · intro h
    unfold Client.readSubscription
    rw [h]

/-- Witness of C4: step 0 of `demoSequence` against an empty store, against a store that holds
the child with other system-set fields, and against a store that holds a child that differs. -/
theorem C4_create_or_update_witness :
    (reconcileChannel demoClient (stepChannel demoSequence 0)).2.log =
        [Op.get ResourceKind.channel { Namespace := "ns", Name := "s-step-0" },
          Op.createChannel (stepChannel demoSequence 0)] ∧
      (reconcileChannel { channels := [observedChannel] } (stepChannel demoSequence 0)).2.log =
        [Op.get ResourceKind.channel { Namespace := "ns", Name := "s-step-0" }] ∧
      (reconcileChannel { channels := [staleChannel] } (stepChannel demoSequence 0)).2.log =
        [Op.get ResourceKind.channel { Namespace := "ns", Name := "s-step-0" },
          Op.updateChannel { staleChannel with Spec := (stepChannel demoSequence 0).Spec }] ∧
      (reconcileSubscription demoClient (stepSubscription demoSequence 0)).2.log =
        [Op.get ResourceKind.subscription { Namespace := "ns", Name := "s-step-0" },
          Op.createSubscription (stepSubscription demoSequence 0)] ∧
      (reconcileSubscription { subscriptions := [observedSubscription] }
          (stepSubscription demoSequence 0)).2.log =
        [Op.get ResourceKind.subscription { Namespace := "ns", Name := "s-step-0" }] ∧
      (reconcileSubscription { subscriptions := [staleSubscription] }
          (stepSubscription demoSequence 0)).2.log =
        [Op.get ResourceKind.subscription { Namespace := "ns", Name := "s-step-0" },
          Op.updateSubscription
            { staleSubscription with Spec := (stepSubscription demoSequence 0).Spec }] :=
  ⟨(C4_create_or_update demoClient (stepChannel demoSequence 0)
      (stepSubscription demoSequence 0)).1 rfl,
    (C4_create_or_update { channels := [observedChannel] } (stepChannel demoSequence 0)
      (stepSubscription demoSequence 0)).2.1 observedChannel rfl rfl rfl,
    (C4_create_or_update { channels := [staleChannel] } (stepChannel demoSequence 0)
      (stepSubscription demoSequence 0)).2.2.1 staleChannel rfl (by decide),
    (C4_create_or_update demoClient (stepChannel demoSequence 0)
      (stepSubscription demoSequence 0)).2.2.2.1 rfl,
    (C4_create_or_update { subscriptions := [observedSubscription] } (stepChannel demoSequence 0)
      (stepSubscription demoSequence 0)).2.2.2.2.1 observedSubscription rfl rfl rfl rfl,
    (C4_create_or_update { subscriptions := [staleSubscription] } (stepChannel demoSequence 0)
      (stepSubscription demoSequence 0)).2.2.2.2.2.1 staleSubscription rfl (by decide)⟩

/-- C5 (the code at the failing input): the store holds the channel of step 0 with generation 5,
one subscriber set by another controller and a provisioner other than the built one.
`reconcileChannel` then updates it with the built spec as a whole: the object written and the
object stored afterwards have generation 0 and no subscribers.  Likewise the update of a
subscription stored with generation 3 writes generation 0. -/
theorem C5_update_overwrites_observed_fields :
    staleChannel.Spec.Generation = 5 ∧
      staleChannel.Spec.Subscribable =
        some { Subscribers := [{ SubscriberURI := "http://a.b/" }] } ∧
      (reconcileChannel { channels := [staleChannel] } (stepChannel demoSequence 0)).1 = none ∧
      (reconcileChannel { channels := [staleChannel] } (stepChannel demoSequence 0)).2.log =
        [Op.get ResourceKind.channel { Namespace := "ns", Name := "s-step-0" },
          Op.updateChannel
            { staleChannel with
              Spec :=
                { Generation := 0,
                  Provisioner := some defaultProvisioner,
                  Arguments := none,
                  Subscribable := none } }] ∧
      ((reconcileChannel { channels := [staleChannel] } (stepChannel demoSequence 0)).2.channels.map
          (fun c => (c.Spec.Generation, c.Spec.Subscribable))) = [(0, none)] ∧
      staleSubscription.Spec.Generation = 3 ∧
      (reconcileSubscription { subscriptions := [staleSubscription] }
          (stepSubscription demoSequence 0)).2.log =
        [Op.get ResourceKind.subscription { Namespace := "ns", Name := "s-step-0" },
          Op.updateSubscription
            { staleSubscription with
              Spec := { (stepSubscription demoSequence 0).Spec with Generation := 0 } }] := by
  refine ⟨rfl, rfl, ?_, ?_, ?_, rfl, ?_⟩ <;> decide

/-! ### Conditions -/

theorem find_orderedInsert (t : String) (a : Condition) (l : List Condition) :
    (List.orderedInsert (fun a b => strLE a.Typ b.Typ) a l).find? (fun c => decide (c.Typ = t)) =
      if a.Typ = t then some a else l.find? (fun c => decide (c.Typ = t)) := by
  induction l with
  | nil => by_cases h : a.Typ = t <;> simp [h]
  | cons b l ih =>
    simp only [List.orderedInsert]
    by_cases hab : strLE a.Typ b.Typ
    · rw [if_pos hab]
      by_cases h : a.Typ = t <;> simp [h]
    · rw [if_neg hab]
      have hne : a.Typ ≠ b.Typ := by
        intro he
        apply hab
        unfold strLE
        rw [he]
      rw [List.find?_cons, ih, List.find?_cons]
      by_cases hb : b.Typ = t
      · have ha : a.Typ ≠ t := fun h => hne (h.trans hb.symm)
        simp [hb, ha]
      · simp [hb]

theorem find_sortByType (t : String) (l : List Condition) :
    (sortByType l).find? (fun c => decide (c.Typ = t)) = l.find? (fun c => decide (c.Typ = t)) := by
  unfold sortByType
  induction l with
  | nil => rfl
  | cons a l ih =>
    simp only [List.insertionSort, find_orderedInsert, ih, List.find?_cons]
    by_cases h : a.Typ = t <;> simp [h]

/-- After `SetCondition` the condition of that type is the one handed in, with the transition
time of the manager. -/
theorem GetCondition_SetCondition_same (cs : ConditionSet) (now : Nat) (new : Condition)
    (conds : List Condition) :
    cs.GetCondition (cs.SetCondition now new conds) new.Typ =
      some { new with LastTransitionTime := cs.transitionTime now new conds } := by
  unfold ConditionSet.SetCondition
  simp only
  split
  · rename_i h
    exact h
  · unfold ConditionSet.GetCondition
    rw [find_sortByType, List.find?_append]
    have : List.find? (fun c => decide (c.Typ = new.Typ))
        (List.filter (fun c => decide (c.Typ ≠ new.Typ)) conds) = none := by
      rw [List.find?_eq_none]
      intro x hx
      have := (List.mem_filter.1 hx).2
      simpa using this
    rw [this]
    simp

theorem find_filter_other (t u : String) (ht : t ≠ u) (l : List Condition) :
    List.find? (fun c => decide (c.Typ = t)) (List.filter (fun c => decide (c.Typ ≠ u)) l) =
      List.find? (fun c => decide (c.Typ = t)) l := by
  induction l with
  | nil => rfl
  | cons a l ih =>
    by_cases ha : a.Typ = u
    · have hat : a.Typ ≠ t := fun h => ht (h.symm.trans ha)
      rw [List.filter_cons_of_neg (by simpa using ha), List.find?_cons_of_neg _ (by simpa using hat)]
      exact ih
    · rw [List.filter_cons_of_pos (by simpa using ha)]
      by_cases hat : a.Typ = t
      · rw [List.find?_cons_of_pos _ (by simpa using hat),
          List.find?_cons_of_pos _ (by simpa using hat)]
      · rw [List.find?_cons_of_neg _ (by simpa using hat),
          List.find?_cons_of_neg _ (by simpa using hat)]
        exact ih

/-- `SetCondition` leaves the conditions of the other types as they are. -/
theorem GetCondition_SetCondition_other (cs : ConditionSet) (now : Nat) (new : Condition)
    (conds : List Condition) (t : String) (ht : t ≠ new.Typ) :
    cs.GetCondition (cs.SetCondition now new conds) t = cs.GetCondition conds t := by
  unfold ConditionSet.SetCondition
  simp only
  split
  · rfl
  · unfold ConditionSet.GetCondition
    rw [find_sortByType, List.find?_append]
    have hlast : ∀ x : Condition, x.Typ = new.Typ →
        List.find? (fun c => decide (c.Typ = t)) [x] = none := by
      intro x hx
      have : x.Typ ≠ t := fun h => ht (h.symm.trans hx)
      simp [List.find?, this]
    rw [hlast { new with LastTransitionTime := cs.transitionTime now new conds } rfl,
      Option.or_none]
    exact find_filter_other t new.Typ ht conds

/-- A repeated identical write: `SetCondition` changes nothing when the condition of that type
already has the status, severity, reason and message handed in. -/
theorem SetCondition_noop (cs : ConditionSet) (now : Nat) (new c : Condition)
    (conds : List Condition) (hget : cs.GetCondition conds new.Typ = some c)
    (hc : c = { new with LastTransitionTime := c.LastTransitionTime }) :
    cs.SetCondition now new conds = conds := by
  have hs : c.Status = new.Status := by rw [hc]
  have ht : cs.transitionTime now new conds = c.LastTransitionTime := by
    unfold ConditionSet.transitionTime
    rw [hget]
    simp only [if_pos hs]
  unfold ConditionSet.SetCondition
  simp only [ht, hget]
  rw [if_pos (by rw [← hc])]

theorem seqCondSet_happy : seqCondSet.happy = "Ready" := rfl

theorem seqCondSet_dependents : seqCondSet.dependents = ["Provisioned", "Addressable"] := by
  decide

theorem Holds_SetCondition_same (now : Nat) (conds : List Condition) (t : String)
    (st : ConditionStatus) (reason message : String) :
    Holds
      (seqCondSet.SetCondition now { Typ := t, Status := st, Reason := reason, Message := message }
        conds) t st reason message :=
  ⟨_, GetCondition_SetCondition_same seqCondSet now
    { Typ := t, Status := st, Reason := reason, Message := message } conds⟩

theorem Holds_SetCondition_other (now : Nat) (conds : List Condition) (new : Condition)
    (t : String) (st : ConditionStatus) (reason message : String) (ht : t ≠ new.Typ)
    (h : Holds conds t st reason message) :
    Holds (seqCondSet.SetCondition now new conds) t st reason message := by
  obtain ⟨ts, hts⟩ := h
  exact ⟨ts, by rw [GetCondition_SetCondition_other seqCondSet now new conds t ht, hts]⟩

theorem SetCondition_noop_of_Holds (now : Nat) (conds : List Condition) (t : String)
    (st : ConditionStatus) (reason message : String) (h : Holds conds t st reason message) :
    seqCondSet.SetCondition now { Typ := t, Status := st, Reason := reason, Message := message }
      conds = conds := by
  obtain ⟨ts, hts⟩ := h
  exact SetCondition_noop seqCondSet now _ _ conds hts rfl

theorem Present_SetCondition (now : Nat) (conds : List Condition) (new : Condition) (t : String)
    (h : Present conds t ∨ t = new.Typ) : Present (seqCondSet.SetCondition now new conds) t := by
  by_cases ht : t = new.Typ
  · subst ht
    exact ⟨_, GetCondition_SetCondition_same seqCondSet now new conds⟩
  · rcases h with ⟨c, hc⟩ | h
    · exact ⟨c, by rw [GetCondition_SetCondition_other seqCondSet now new conds t ht, hc]⟩
    · exact absurd h ht

theorem Holds_Present {conds : List Condition} {t : String} {st : ConditionStatus}
    {reason message : String} (h : Holds conds t st reason message) : Present conds t := by
  obtain ⟨ts, hts⟩ := h
  exact ⟨_, hts⟩

theorem IsTrue_of_Holds {conds : List Condition} {t : String} {reason message : String}
    (h : Holds conds t ConditionStatus.True reason message) :
    IsTrue (seqCondSet.GetCondition conds t) = true := by
  obtain ⟨ts, hts⟩ := h
  rw [hts]
  rfl

theorem not_IsTrue_of_Holds_False {conds : List Condition} {t : String} {reason message : String}
    (h : Holds conds t ConditionStatus.False reason message) :
    IsTrue (seqCondSet.GetCondition conds t) = false := by
  obtain ⟨ts, hts⟩ := h
  rw [hts]
  rfl

/-- `MarkTrue` on the condition set of a Sequence, spelled out. -/
theorem MarkTrue_eq (now : Nat) (t : String) (conds : List Condition) :
    seqCondSet.MarkTrue now t conds =
      if IsTrue
            (seqCondSet.GetCondition
              (seqCondSet.SetCondition now { Typ := t, Status := ConditionStatus.True } conds)
              "Provisioned") = true ∧
          IsTrue
            (seqCondSet.GetCondition
              (seqCondSet.SetCondition now { Typ := t, Status := ConditionStatus.True } conds)
              "Addressable") = true then
        seqCondSet.SetCondition now { Typ := "Ready", Status := ConditionStatus.True }
          (seqCondSet.SetCondition now { Typ := t, Status := ConditionStatus.True } conds)
      else
        seqCondSet.SetCondition now { Typ := t, Status := ConditionStatus.True } conds := by
  unfold ConditionSet.MarkTrue
  simp only [seqCondSet_dependents, seqCondSet_happy, List.all_cons, List.all_nil, Bool.and_true,
    Bool.and_eq_true]

/-- `MarkFalse` of a declared condition on the condition set of a Sequence, spelled out. -/
theorem MarkFalse_eq (now : Nat) (t : String) (reason message : String) (conds : List Condition)
    (ht : t = "Provisioned" ∨ t = "Addressable") :
    seqCondSet.MarkFalse now t reason message conds =
      seqCondSet.SetCondition now
        { Typ := "Ready", Status := ConditionStatus.False, Reason := reason, Message := message }
        (seqCondSet.SetCondition now
          { Typ := t, Status := ConditionStatus.False, Reason := reason, Message := message }
          conds) := by
  unfold ConditionSet.MarkFalse
  have hmem : t ∈ seqCondSet.dependents := by
    rw [seqCondSet_dependents]
    rcases ht with rfl | rfl <;> simp
  simp only [if_pos hmem, List.foldl_cons, List.foldl_nil, seqCondSet_happy]

/-- `InitializeConditions` on the condition set of a Sequence, spelled out. -/
theorem InitializeConditions_eq (now : Nat) (conds : List Condition) :
    seqCondSet.InitializeConditions now conds =
      seqCondSet.InitializeCondition now "Ready"
        (seqCondSet.InitializeCondition now "Addressable"
          (seqCondSet.InitializeCondition now "Provisioned" conds)) := by
  unfold ConditionSet.InitializeConditions
  rw [seqCondSet_dependents, seqCondSet_happy]
  rfl

/-! ### Finalizers -/

theorem mem_setList (x : String) (l : List String) : x ∈ setList l ↔ x ∈ l := by
  unfold setList
  rw [(List.perm_insertionSort strLE l.dedup).mem_iff, List.mem_dedup]

/-! ### The loop over the steps -/

/-- The step does not look at the status or the finalizers of the Sequence. -/
theorem reconcileStep_congr (r : Client) (s t : Sequence) (i : Nat)
    (hname : t.ObjectMeta.Name = s.ObjectMeta.Name)
    (hns : t.ObjectMeta.Namespace = s.ObjectMeta.Namespace)
    (huid : t.ObjectMeta.UID = s.ObjectMeta.UID) (hspec : t.Spec = s.Spec) :
    reconcileStep r t i = reconcileStep r s i := by
  simp only [reconcileStep, makeChannel, makeSubscription, NewControllerRef, hname, hns, huid,
    hspec]

theorem provisionSteps_congr (s t : Sequence)
    (hname : t.ObjectMeta.Name = s.ObjectMeta.Name)
    (hns : t.ObjectMeta.Namespace = s.ObjectMeta.Namespace)
    (huid : t.ObjectMeta.UID = s.ObjectMeta.UID) (hspec : t.Spec = s.Spec) (n : Nat) :
    ∀ (r : Client) (i : Nat), provisionSteps r t n i = provisionSteps r s n i := by
  induction n with
  | zero => intro r i; rfl
  | succ n ih =>
    intro r i
    simp only [provisionSteps, reconcileStep_congr r s t i hname hns huid hspec, ih]

/-- The loop over `a + b` steps is the loop over `a` steps followed, when none of them fails,
by the loop over the next `b` steps. -/
theorem provisionSteps_add (sequence : Sequence) (a b : Nat) :
    ∀ (r r1 : Client) (k : Nat), provisionSteps r sequence a k = (none, r1) →
      provisionSteps r sequence (a + b) k = provisionSteps r1 sequence b (k + a) := by
  induction a with
  | zero =>
    intro r r1 k h
    simp only [provisionSteps, Prod.mk.injEq, true_and] at h
    subst h
    simp
  | succ a ih =>
    intro r r1 k h
    rw [Nat.succ_add]
    simp only [provisionSteps] at h ⊢
    cases hs : reconcileStep r sequence k with
    | mk e r2 =>
      rw [hs] at h
      cases e with
      | some err => simp at h
      | none =>
        simp only at h ⊢
        rw [ih r2 r1 (k + 1) h]
        congr 1
        omega

/-- The loop stops at the first step that fails. -/
theorem provisionSteps_first_failure (sequence : Sequence) (r ri rf : Client) (i n : Nat)
    (err : StoreError) (hi : i < n) (hbefore : provisionSteps r sequence i 0 = (none, ri))
    (hfail : reconcileStep ri sequence i = (some err, rf)) :
    provisionSteps r sequence n 0 = (some (i, err), rf) := by
  have hn : n = i + (n - i - 1 + 1) := by omega
  rw [hn, provisionSteps_add sequence i (n - i - 1 + 1) r ri 0 hbefore]
  simp only [provisionSteps, Nat.zero_add, hfail]

/-! ### Reads and frames -/

theorem SameStore.refl (r : Client) : SameStore r r :=
  ⟨rfl, rfl, rfl, rfl, rfl, rfl, rfl⟩

theorem SameStore.trans {r s t : Client} (h1 : SameStore r s) (h2 : SameStore s t) :
    SameStore r t :=
  ⟨h2.sequences.trans h1.sequences, h2.channels.trans h1.channels,
    h2.subscriptions.trans h1.subscriptions, h2.getFault.trans h1.getFault,
    h2.createFault.trans h1.createFault, h2.updateFault.trans h1.updateFault,
    h2.log.trans h1.log⟩

theorem SameStore.record_get (r : Client) (kind : ResourceKind) (key : ObjectKey) :
    SameStore r (r.record (Op.get kind key)) :=
  ⟨rfl, rfl, rfl, rfl, rfl, rfl, by simp [Eventing.writes, Op.isWrite]⟩

theorem readChannel_congr {r t : Client} (hf : t.getFault = r.getFault)
    (hc : t.channels = r.channels) (k : ObjectKey) : t.readChannel k = r.readChannel k := by
  unfold Client.readChannel
  rw [hf, hc]

theorem readSubscription_congr {r t : Client} (hf : t.getFault = r.getFault)
    (hc : t.subscriptions = r.subscriptions) (k : ObjectKey) :
    t.readSubscription k = r.readSubscription k := by
  unfold Client.readSubscription
  rw [hf, hc]

theorem readSequence_congr {r t : Client} (hf : t.getFault = r.getFault)
    (hc : t.sequences = r.sequences) (k : ObjectKey) : t.readSequence k = r.readSequence k := by
  unfold Client.readSequence
  rw [hf, hc]

theorem readChannel_ok {r : Client} {k : ObjectKey} {obs : Channel}
    (h : r.readChannel k = Except.ok obs) :
    r.getFault ResourceKind.channel k = none ∧ lookup Channel.ObjectMeta r.channels k = some obs := by
  unfold Client.readChannel at h
  cases hf : r.getFault ResourceKind.channel k with
  | some msg => rw [hf] at h; simp at h
  | none =>
    rw [hf] at h
    cases hl : lookup Channel.ObjectMeta r.channels k with
    | none => rw [hl] at h; simp at h
    | some o =>
      rw [hl] at h
      simp only [Except.ok.injEq] at h
      rw [h]
      exact ⟨rfl, rfl⟩

theorem readChannel_notFound {r : Client} {k : ObjectKey} {err : StoreError}
    (h : r.readChannel k = Except.error err) (hnf : IsNotFound err = true) :
    r.getFault ResourceKind.channel k = none ∧ lookup Channel.ObjectMeta r.channels k = none := by
  unfold Client.readChannel at h
  cases hf : r.getFault ResourceKind.channel k with
  | some msg =>
    rw [hf] at h
    simp only [Except.error.injEq] at h
    subst h
    simp [IsNotFound] at hnf
  | none =>
    rw [hf] at h
    cases hl : lookup Channel.ObjectMeta r.channels k with
    | none => exact ⟨rfl, rfl⟩
    | some o => rw [hl] at h; simp at h

theorem readSubscription_ok {r : Client} {k : ObjectKey} {obs : Subscription}
    (h : r.readSubscription k = Except.ok obs) :
    r.getFault ResourceKind.subscription k = none ∧
      lookup Subscription.ObjectMeta r.subscriptions k = some obs := by
  unfold Client.readSubscription at h
  cases hf : r.getFault ResourceKind.subscription k with
  | some msg => rw [hf] at h; simp at h
  | none =>
    rw [hf] at h
    cases hl : lookup Subscription.ObjectMeta r.subscriptions k with
    | none => rw [hl] at h; simp at h
    | some o =>
      rw [hl] at h
      simp only [Except.ok.injEq] at h
      rw [h]
      exact ⟨rfl, rfl⟩

theorem readSubscription_notFound {r : Client} {k : ObjectKey} {err : StoreError}
    (h : r.readSubscription k = Except.error err) (hnf : IsNotFound err = true) :
    r.getFault ResourceKind.subscription k = none ∧
      lookup Subscription.ObjectMeta r.subscriptions k = none := by
  unfold Client.readSubscription at h
  cases hf : r.getFault ResourceKind.subscription k with
  | some msg =>
    rw [hf] at h
    simp only [Except.error.injEq] at h
    subst h
    simp [IsNotFound] at hnf
  | none =>
    rw [hf] at h
    cases hl : lookup Subscription.ObjectMeta r.subscriptions k with
    | none => exact ⟨rfl, rfl⟩
    | some o => rw [hl] at h; simp at h

theorem readSequence_ok {r : Client} {k : ObjectKey} {obs : Sequence}
    (h : r.readSequence k = Except.ok obs) :
    r.getFault ResourceKind.sequence k = none ∧
      lookup Sequence.ObjectMeta r.sequences k = some obs := by
  unfold Client.readSequence at h
  cases hf : r.getFault ResourceKind.sequence k with
  | some msg => rw [hf] at h; simp at h
  | none =>
    rw [hf] at h
    cases hl : lookup Sequence.ObjectMeta r.sequences k with
    | none => rw [hl] at h; simp at h
    | some o =>
      rw [hl] at h
      simp only [Except.ok.injEq] at h
      rw [h]
      exact ⟨rfl, rfl⟩

/-! ### Effect of the writes on the store -/

theorem CreateChannel_sequences (c : Client) (obj : Channel) :
    (c.CreateChannel obj).2.sequences = c.sequences := by
  unfold Client.CreateChannel
  dsimp only
  split
  · rfl
  · split <;> rfl

theorem CreateChannel_channels (c : Client) (obj : Channel) :
    (c.CreateChannel obj).2.channels = if (c.CreateChannel obj).1 = none then c.channels ++ [obj] else c.channels := by
  unfold Client.CreateChannel
  dsimp only
  split
  · simp
  · split <;> simp

theorem CreateChannel_subscriptions (c : Client) (obj : Channel) :
    (c.CreateChannel obj).2.subscriptions = c.subscriptions := by
  unfold Client.CreateChannel
  dsimp only
  split
  · rfl
  · split <;> rfl

theorem CreateChannel_getFault (c : Client) (obj : Channel) :
    (c.CreateChannel obj).2.getFault = c.getFault := by
  unfold Client.CreateChannel
  dsimp only
  split
  · rfl
  · split <;> rfl

theorem CreateChannel_createFault (c : Client) (obj : Channel) :
    (c.CreateChannel obj).2.createFault = c.createFault := by
  unfold Client.CreateChannel
  dsimp only
  split
  · rfl
  · split <;> rfl

theorem CreateChannel_updateFault (c : Client) (obj : Channel) :
    (c.CreateChannel obj).2.updateFault = c.updateFault := by
  unfold Client.CreateChannel
  dsimp only
  split
  · rfl
  · split <;> rfl

theorem CreateChannel_ok (c : Client) (obj : Channel) (h : (c.CreateChannel obj).1 = none) :
    lookup Channel.ObjectMeta c.channels (ObjectKeyFromObject obj.ObjectMeta) = none := by
  unfold Client.CreateChannel at h
  dsimp only at h
  split at h
  · simp at h
  · split at h
    · simp at h
    · assumption

theorem CreateSubscription_sequences (c : Client) (obj : Subscription) :
    (c.CreateSubscription obj).2.sequences = c.sequences := by
  unfold Client.CreateSubscription
  dsimp only
  split
  · rfl
  · split <;> rfl

theorem CreateSubscription_channels (c : Client) (obj : Subscription) :
    (c.CreateSubscription obj).2.channels = c.channels := by
  unfold Client.CreateSubscription
  dsimp only
  split
  · rfl
  · split <;> rfl

theorem CreateSubscription_subscriptions (c : Client) (obj : Subscription) :
    (c.CreateSubscription obj).2.subscriptions = if (c.CreateSubscription obj).1 = none then c.subscriptions ++ [obj] else c.subscriptions := by
  unfold Client.CreateSubscription
  dsimp only
  split
  · simp
  · split <;> simp

theorem CreateSubscription_getFault (c : Client) (obj : Subscription) :
    (c.CreateSubscription obj).2.getFault = c.getFault := by
  unfold Client.CreateSubscription
  dsimp only
  split
  · rfl
  · split <;> rfl

theorem CreateSubscription_createFault (c : Client) (obj : Subscription) :
    (c.CreateSubscription obj).2.createFault = c.createFault := by
  unfold Client.CreateSubscription
  dsimp only
  split
  · rfl
  · split <;> rfl

theorem CreateSubscription_updateFault (c : Client) (obj : Subscription) :
    (c.CreateSubscription obj).2.updateFault = c.updateFault := by
  unfold Client.CreateSubscription
  dsimp only
  split
  · rfl
  · split <;> rfl

theorem CreateSubscription_ok (c : Client) (obj : Subscription) (h : (c.CreateSubscription obj).1 = none) :
    lookup Subscription.ObjectMeta c.subscriptions (ObjectKeyFromObject obj.ObjectMeta) = none := by
  unfold Client.CreateSubscription at h
  dsimp only at h
  split at h
  · simp at h
  · split at h
    · simp at h
    · assumption

theorem UpdateChannel_sequences (c : Client) (obj : Channel) :
    (c.UpdateChannel obj).2.sequences = c.sequences := by
  unfold Client.UpdateChannel
  dsimp only
  split
  · rfl
  · split <;> rfl

theorem UpdateChannel_channels (c : Client) (obj : Channel) :
    (c.UpdateChannel obj).2.channels = if (c.UpdateChannel obj).1 = none then replace Channel.ObjectMeta c.channels obj else c.channels := by
  unfold Client.UpdateChannel
  dsimp only
  split
  · simp
  · split <;> simp

theorem UpdateChannel_subscriptions (c : Client) (obj : Channel) :
    (c.UpdateChannel obj).2.subscriptions = c.subscriptions := by
  unfold Client.UpdateChannel
  dsimp only
  split
  · rfl
  · split <;> rfl

theorem UpdateChannel_getFault (c : Client) (obj : Channel) :
    (c.UpdateChannel obj).2.getFault = c.getFault := by
  unfold Client.UpdateChannel
  dsimp only
  split
  · rfl
  · split <;> rfl

theorem UpdateChannel_createFault (c : Client) (obj : Channel) :
    (c.UpdateChannel obj).2.createFault = c.createFault := by
  unfold Client.UpdateChannel
  dsimp only
  split
  · rfl
  · split <;> rfl

theorem UpdateChannel_updateFault (c : Client) (obj : Channel) :
    (c.UpdateChannel obj).2.updateFault = c.updateFault := by
  unfold Client.UpdateChannel
  dsimp only
  split
  · rfl
  · split <;> rfl

theorem UpdateChannel_ok (c : Client) (obj : Channel) (h : (c.UpdateChannel obj).1 = none) :
    ∃ old, lookup Channel.ObjectMeta c.channels (ObjectKeyFromObject obj.ObjectMeta) = some old := by
  unfold Client.UpdateChannel at h
  dsimp only at h
  split at h
  · simp at h
  · split at h
    · simp at h
    · rename_i old hl
      exact ⟨old, hl⟩

theorem UpdateSubscription_sequences (c : Client) (obj : Subscription) :
    (c.UpdateSubscription obj).2.sequences = c.sequences := by
  unfold Client.UpdateSubscription
  dsimp only
  split
  · rfl
  · split <;> rfl

theorem UpdateSubscription_channels (c : Client) (obj : Subscription) :
    (c.UpdateSubscription obj).2.channels = c.channels := by
  unfold Client.UpdateSubscription
  dsimp only
  split
  · rfl
  · split <;> rfl

theorem UpdateSubscription_subscriptions (c : Client) (obj : Subscription) :
    (c.UpdateSubscription obj).2.subscriptions = if (c.UpdateSubscription obj).1 = none then replace Subscription.ObjectMeta c.subscriptions obj else c.subscriptions := by
  unfold Client.UpdateSubscription
  dsimp only
  split
  · simp
  · split <;> simp

theorem UpdateSubscription_getFault (c : Client) (obj : Subscription) :
    (c.UpdateSubscription obj).2.getFault = c.getFault := by
  unfold Client.UpdateSubscription
  dsimp only
  split
  · rfl
  · split <;> rfl

theorem UpdateSubscription_createFault (c : Client) (obj : Subscription) :
    (c.UpdateSubscription obj).2.createFault = c.createFault := by
  unfold Client.UpdateSubscription
  dsimp only
  split
  · rfl
  · split <;> rfl

theorem UpdateSubscription_updateFault (c : Client) (obj : Subscription) :
    (c.UpdateSubscription obj).2.updateFault = c.updateFault := by
  unfold Client.UpdateSubscription
  dsimp only
  split
  · rfl
  · split <;> rfl

theorem UpdateSubscription_ok (c : Client) (obj : Subscription) (h : (c.UpdateSubscription obj).1 = none) :
    ∃ old, lookup Subscription.ObjectMeta c.subscriptions (ObjectKeyFromObject obj.ObjectMeta) = some old := by
  unfold Client.UpdateSubscription at h
  dsimp only at h
  split at h
  · simp at h
  · split at h
    · simp at h
    · rename_i old hl
      exact ⟨old, hl⟩

theorem UpdateSequence_sequences (c : Client) (obj : Sequence) :
    (c.UpdateSequence obj).2.sequences = if (c.UpdateSequence obj).1 = none then replace Sequence.ObjectMeta c.sequences obj else c.sequences := by
  unfold Client.UpdateSequence
  dsimp only
  split
  · simp
  · split <;> simp

theorem UpdateSequence_channels (c : Client) (obj : Sequence) :
    (c.UpdateSequence obj).2.channels = c.channels := by
  unfold Client.UpdateSequence
  dsimp only
  split
  · rfl
  · split <;> rfl

theorem UpdateSequence_subscriptions (c : Client) (obj : Sequence) :
    (c.UpdateSequence obj).2.subscriptions = c.subscriptions := by
  unfold Client.UpdateSequence
  dsimp only
  split
  · rfl
  · split <;> rfl

theorem UpdateSequence_getFault (c : Client) (obj : Sequence) :
    (c.UpdateSequence obj).2.getFault = c.getFault := by
  unfold Client.UpdateSequence
  dsimp only
  split
  · rfl
  · split <;> rfl

theorem UpdateSequence_createFault (c : Client) (obj : Sequence) :
    (c.UpdateSequence obj).2.createFault = c.createFault := by
  unfold Client.UpdateSequence
  dsimp only
  split
  · rfl
  · split <;> rfl

theorem UpdateSequence_updateFault (c : Client) (obj : Sequence) :
    (c.UpdateSequence obj).2.updateFault = c.updateFault := by
  unfold Client.UpdateSequence
  dsimp only
  split
  · rfl
  · split <;> rfl

theorem UpdateSequence_ok (c : Client) (obj : Sequence) (h : (c.UpdateSequence obj).1 = none) :
    ∃ old, lookup Sequence.ObjectMeta c.sequences (ObjectKeyFromObject obj.ObjectMeta) = some old := by
  unfold Client.UpdateSequence at h
  dsimp only at h
  split at h
  · simp at h
  · split at h
    · simp at h
    · rename_i old hl
      exact ⟨old, hl⟩

/-! ### Convergence of one child -/

theorem lookup_append_self {α : Type} (m : α → ObjectMeta) (l : List α) (o : α)
    (h : lookup m l (ObjectKeyFromObject (m o)) = none) :
    lookup m (l ++ [o]) (ObjectKeyFromObject (m o)) = some o := by
  rw [lookup_append, h]
  simp

theorem lookup_append_other {α : Type} (m : α → ObjectMeta) (l : List α) (o : α) (k : ObjectKey)
    (hk : k ≠ ObjectKeyFromObject (m o)) : lookup m (l ++ [o]) k = lookup m l k := by
  rw [lookup_append]
  cases lookup m l k with
  | some x => rfl
  | none => simp [Ne.symm hk]

theorem readChannel_congr_lookup {r t : Client} (hf : t.getFault = r.getFault) (k : ObjectKey)
    (hl : lookup Channel.ObjectMeta t.channels k = lookup Channel.ObjectMeta r.channels k) :
    t.readChannel k = r.readChannel k := by
  unfold Client.readChannel
  rw [hf, hl]

theorem readSubscription_congr_lookup {r t : Client} (hf : t.getFault = r.getFault)
    (k : ObjectKey)
    (hl : lookup Subscription.ObjectMeta t.subscriptions k =
      lookup Subscription.ObjectMeta r.subscriptions k) :
    t.readSubscription k = r.readSubscription k := by
  unfold Client.readSubscription
  rw [hf, hl]

/-- A converged channel: `reconcileChannel` reads it and writes nothing. -/
theorem reconcileChannel_noop (r : Client) (channel : Channel) (h : ChannelConverged r channel) :
    reconcileChannel r channel =
      (none, r.record (Op.get ResourceKind.channel (ObjectKeyFromObject channel.ObjectMeta))) := by
  obtain ⟨obs, hread, hp, ha⟩ := h
  rw [reconcileChannel_cases, hread]
  simp only [hp, ha, and_self, if_true]

/-- After a successful `reconcileChannel` the channel is converged. -/
theorem reconcileChannel_post (r : Client) (channel : Channel)
    (h : (reconcileChannel r channel).1 = none) :
    ChannelConverged (reconcileChannel r channel).2 channel := by
  rw [reconcileChannel_cases] at h ⊢
  cases hread : r.readChannel (ObjectKeyFromObject channel.ObjectMeta) with
  | error err =>
    rw [hread] at h
    simp only at h ⊢
    by_cases hnf : IsNotFound err = true
    · rw [if_pos hnf] at h ⊢
      obtain ⟨hf, _⟩ := readChannel_notFound hread hnf
      refine ⟨channel, ?_, rfl, rfl⟩
      unfold Client.readChannel
      rw [CreateChannel_getFault, CreateChannel_channels, if_pos h, record_getFault, hf,
        record_channels]
      have hl := CreateChannel_ok _ _ h
      rw [record_channels] at hl
      simp only [lookup_append_self Channel.ObjectMeta r.channels channel hl]
    · rw [if_neg hnf] at h
      simp at h
  | ok obs =>
    rw [hread] at h
    simp only at h ⊢
    obtain ⟨hf, hl⟩ := readChannel_ok hread
    by_cases hc : channel.Spec.Provisioner = obs.Spec.Provisioner ∧
        channel.Spec.Arguments = obs.Spec.Arguments
    · rw [if_pos hc]
      exact ⟨obs, by rw [← hread]; exact readChannel_congr rfl rfl _, hc.1, hc.2⟩
    · rw [if_neg hc] at h ⊢
      have hkey : ObjectKeyFromObject obs.ObjectMeta = ObjectKeyFromObject channel.ObjectMeta :=
        lookup_key Channel.ObjectMeta r.channels _ obs hl
      refine ⟨{ obs with Spec := channel.Spec }, ?_, rfl, rfl⟩
      unfold Client.readChannel
      rw [UpdateChannel_getFault, UpdateChannel_channels, if_pos h, record_getFault, hf,
        record_channels, lookup_replace]
      simp only [hkey, if_true, hl, Option.map_some']

/-- `reconcileChannel` leaves what is stored under the other names as it is. -/
theorem reconcileChannel_frame (r : Client) (channel : Channel) (k : ObjectKey)
    (hk : k ≠ ObjectKeyFromObject channel.ObjectMeta) :
    (reconcileChannel r channel).2.readChannel k = r.readChannel k := by
  rw [reconcileChannel_cases]
  cases hread : r.readChannel (ObjectKeyFromObject channel.ObjectMeta) with
  | error err =>
    simp only
    by_cases hnf : IsNotFound err = true
    · rw [if_pos hnf]
      apply readChannel_congr_lookup (by rw [CreateChannel_getFault, record_getFault])
      rw [CreateChannel_channels, record_channels]
      split
      · rw [lookup_append_other Channel.ObjectMeta r.channels channel k hk]
      · rfl
    · rw [if_neg hnf]
      exact readChannel_congr rfl rfl _
  | ok obs =>
    simp only
    obtain ⟨hf, hl⟩ := readChannel_ok hread
    have hkey : ObjectKeyFromObject obs.ObjectMeta = ObjectKeyFromObject channel.ObjectMeta :=
      lookup_key Channel.ObjectMeta r.channels _ obs hl
    split
    · exact readChannel_congr rfl rfl _
    · apply readChannel_congr_lookup (by rw [UpdateChannel_getFault, record_getFault])
      rw [UpdateChannel_channels, record_channels]
      split
      · rw [lookup_replace]
        simp only [hkey, if_neg hk]
      · rfl

theorem reconcileChannel_others (r : Client) (channel : Channel) :
    (reconcileChannel r channel).2.sequences = r.sequences ∧
      (reconcileChannel r channel).2.subscriptions = r.subscriptions ∧
      (reconcileChannel r channel).2.getFault = r.getFault ∧
      (reconcileChannel r channel).2.createFault = r.createFault ∧
      (reconcileChannel r channel).2.updateFault = r.updateFault := by
  rw [reconcileChannel_cases]
  cases hread : r.readChannel (ObjectKeyFromObject channel.ObjectMeta) with
  | error err =>
    simp only
    split
    · simp only [CreateChannel_sequences, CreateChannel_subscriptions, CreateChannel_getFault,
        CreateChannel_createFault, CreateChannel_updateFault, record_sequences,
        record_subscriptions, record_getFault, record_createFault, record_updateFault, and_self]
    · exact ⟨rfl, rfl, rfl, rfl, rfl⟩
  | ok obs =>
    simp only
    split
    · exact ⟨rfl, rfl, rfl, rfl, rfl⟩
    · simp only [UpdateChannel_sequences, UpdateChannel_subscriptions, UpdateChannel_getFault,
        UpdateChannel_createFault, UpdateChannel_updateFault, record_sequences,
        record_subscriptions, record_getFault, record_createFault, record_updateFault, and_self]

/-- A converged subscription: `reconcileSubscription` reads it and writes nothing. -/
theorem reconcileSubscription_noop (r : Client) (subscription : Subscription) (h : SubscriptionConverged r subscription) :
    reconcileSubscription r subscription =
      (none, r.record (Op.get ResourceKind.subscription (ObjectKeyFromObject subscription.ObjectMeta))) := by
  obtain ⟨obs, hread, hp, ha, hr⟩ := h
  rw [reconcileSubscription_cases, hread]
  simp only [hp, ha, hr, and_self, if_true]

/-- After a successful `reconcileSubscription` the subscription is converged. -/
theorem reconcileSubscription_post (r : Client) (subscription : Subscription)
    (h : (reconcileSubscription r subscription).1 = none) :
    SubscriptionConverged (reconcileSubscription r subscription).2 subscription := by
  rw [reconcileSubscription_cases] at h ⊢
  cases hread : r.readSubscription (ObjectKeyFromObject subscription.ObjectMeta) with
  | error err =>
    rw [hread] at h
    simp only at h ⊢
    by_cases hnf : IsNotFound err = true
    · rw [if_pos hnf] at h ⊢
      obtain ⟨hf, _⟩ := readSubscription_notFound hread hnf
      refine ⟨subscription, ?_, rfl, rfl, rfl⟩
      unfold Client.readSubscription
      rw [CreateSubscription_getFault, CreateSubscription_subscriptions, if_pos h, record_getFault, hf,
        record_subscriptions]
      have hl := CreateSubscription_ok _ _ h
      rw [record_subscriptions] at hl
      simp only [lookup_append_self Subscription.ObjectMeta r.subscriptions subscription hl]
    · rw [if_neg hnf] at h
      simp at h
  | ok obs =>
    rw [hread] at h
    simp only at h ⊢
    obtain ⟨hf, hl⟩ := readSubscription_ok hread
    by_cases hc : subscription.Spec.Channel = obs.Spec.Channel ∧
        subscription.Spec.Subscriber = obs.Spec.Subscriber ∧
        subscription.Spec.Reply = obs.Spec.Reply
    · rw [if_pos hc]
      exact ⟨obs, by rw [← hread]; exact readSubscription_congr rfl rfl _, hc.1, hc.2.1, hc.2.2⟩
    · rw [if_neg hc] at h ⊢
      have hkey : ObjectKeyFromObject obs.ObjectMeta = ObjectKeyFromObject subscription.ObjectMeta :=
        lookup_key Subscription.ObjectMeta r.subscriptions _ obs hl
      refine ⟨{ obs with Spec := subscription.Spec }, ?_, rfl, rfl, rfl⟩
      unfold Client.readSubscription
      rw [UpdateSubscription_getFault, UpdateSubscription_subscriptions, if_pos h, record_getFault, hf,
        record_subscriptions, lookup_replace]
      simp only [hkey, if_true, hl, Option.map_some']

/-- `reconcileSubscription` leaves what is stored under the other names as it is. -/
theorem reconcileSubscription_frame (r : Client) (subscription : Subscription) (k : ObjectKey)
    (hk : k ≠ ObjectKeyFromObject subscription.ObjectMeta) :
    (reconcileSubscription r subscription).2.readSubscription k = r.readSubscription k := by
  rw [reconcileSubscription_cases]
  cases hread : r.readSubscription (ObjectKeyFromObject subscription.ObjectMeta) with
  | error err =>
    simp only
    by_cases hnf : IsNotFound err = true
    · rw [if_pos hnf]
      apply readSubscription_congr_lookup (by rw [CreateSubscription_getFault, record_getFault])
      rw [CreateSubscription_subscriptions, record_subscriptions]
      split
      · rw [lookup_append_other Subscription.ObjectMeta r.subscriptions subscription k hk]
      · rfl
    · rw [if_neg hnf]
      exact readSubscription_congr rfl rfl _
  | ok obs =>
    simp only
    obtain ⟨hf, hl⟩ := readSubscription_ok hread
    have hkey : ObjectKeyFromObject obs.ObjectMeta = ObjectKeyFromObject subscription.ObjectMeta :=
      lookup_key Subscription.ObjectMeta r.subscriptions _ obs hl
    split
    · exact readSubscription_congr rfl rfl _
    · apply readSubscription_congr_lookup (by rw [UpdateSubscription_getFault, record_getFault])
      rw [UpdateSubscription_subscriptions, record_subscriptions]
      split
      · rw [lookup_replace]
        simp only [hkey, if_neg hk]
      · rfl

theorem reconcileSubscription_others (r : Client) (subscription : Subscription) :
    (reconcileSubscription r subscription).2.sequences = r.sequences ∧
      (reconcileSubscription r subscription).2.channels = r.channels ∧
      (reconcileSubscription r subscription).2.getFault = r.getFault ∧
      (reconcileSubscription r subscription).2.createFault = r.createFault ∧
      (reconcileSubscription r subscription).2.updateFault = r.updateFault := by
  rw [reconcileSubscription_cases]
  cases hread : r.readSubscription (ObjectKeyFromObject subscription.ObjectMeta) with
  | error err =>
    simp only
    split
    · simp only [CreateSubscription_sequences, CreateSubscription_channels, CreateSubscription_getFault,
        CreateSubscription_createFault, CreateSubscription_updateFault, record_sequences,
        record_channels, record_getFault, record_createFault, record_updateFault, and_self]
    · exact ⟨rfl, rfl, rfl, rfl, rfl⟩
  | ok obs =>
    simp only
    split
    · exact ⟨rfl, rfl, rfl, rfl, rfl⟩
    · simp only [UpdateSubscription_sequences, UpdateSubscription_channels, UpdateSubscription_getFault,
        UpdateSubscription_createFault, UpdateSubscription_updateFault, record_sequences,
        record_channels, record_getFault, record_createFault, record_updateFault, and_self]

/-! ### Names of the children -/

theorem digitChar_value (d : Nat) (hd : d < 10) : (Nat.digitChar d).toNat - 48 = d := by
  interval_cases d <;> rfl

theorem digitsValue_cons (a : Nat) (c : Char) (cs : List Char) :
    digitsValue a (c :: cs) = digitsValue (10 * a + (c.toNat - 48)) cs := rfl

theorem toDigitsCore_succ (fuel n : Nat) (acc : List Char) :
    Nat.toDigitsCore 10 (fuel + 1) n acc =
      if n / 10 = 0 then Nat.digitChar (n % 10) :: acc
      else Nat.toDigitsCore 10 fuel (n / 10) (Nat.digitChar (n % 10) :: acc) := by
  rw [Nat.toDigitsCore]

theorem digitsValue_toDigitsCore (fuel : Nat) : ∀ (n : Nat) (acc : List Char), n < fuel →
    digitsValue 0 (Nat.toDigitsCore 10 fuel n acc) = digitsValue n acc := by
  induction fuel with
  | zero => intro n acc h; omega
  | succ fuel ih =>
    intro n acc h
    have hd := digitChar_value (n % 10) (Nat.mod_lt n (by norm_num))
    rw [toDigitsCore_succ]
    generalize Nat.digitChar (n % 10) = d at hd ⊢
    by_cases h0 : n / 10 = 0
    · rw [if_pos h0, digitsValue_cons, hd]
      have : 10 * 0 + n % 10 = n := by omega
      rw [this]
    · have hlt : n / 10 < fuel := by omega
      rw [if_neg h0, ih (n / 10) (d :: acc) hlt, digitsValue_cons, hd]
      have : 10 * (n / 10) + n % 10 = n := by omega
      rw [this]

/-- The decimal rendering of an index determines the index. -/
theorem toString_nat_injective (i j : Nat) (h : toString i = toString j) : i = j := by
  have h1 : (Nat.toDigits 10 i) = (Nat.toDigits 10 j) := by
    have := congrArg String.data h
    simpa [toString, Nat.repr, List.asString] using this
  have hi := digitsValue_toDigitsCore (i + 1) i [] (Nat.lt_succ_self i)
  have hj := digitsValue_toDigitsCore (j + 1) j [] (Nat.lt_succ_self j)
  unfold Nat.toDigits at h1
  rw [h1] at hi
  exact hi.symm.trans hj

/-- Two steps of one Sequence have different child names. -/
theorem stepName_injective (name : String) (i j : Nat) (h : stepName name i = stepName name j) :
    i = j := by
  unfold stepName at h
  have := congrArg String.data h
  simp only [String.data_append, List.append_cancel_left_eq] at this
  exact toString_nat_injective i j (String.ext this)

/-! ### Convergence of one step and of the loop -/

theorem stepKey_ne (sequence : Sequence) (i j : Nat) (h : j ≠ i) :
    stepKey sequence j ≠ stepKey sequence i := by
  intro he
  apply h
  have := congrArg ObjectKey.Name he
  exact stepName_injective _ _ _ this

theorem stepChannel_key (sequence : Sequence) (i : Nat) :
    ObjectKeyFromObject (stepChannel sequence i).ObjectMeta = stepKey sequence i := rfl

theorem stepSubscription_key (sequence : Sequence) (i : Nat) :
    ObjectKeyFromObject (stepSubscription sequence i).ObjectMeta = stepKey sequence i := rfl

/-- A step leaves the Sequences and the refusals of the store as they are. -/
theorem reconcileStep_others (r : Client) (sequence : Sequence) (i : Nat) :
    (reconcileStep r sequence i).2.sequences = r.sequences ∧
      (reconcileStep r sequence i).2.getFault = r.getFault ∧
      (reconcileStep r sequence i).2.createFault = r.createFault ∧
      (reconcileStep r sequence i).2.updateFault = r.updateFault := by
  by_cases hi : i < sequence.Spec.Steps.length
  · rw [reconcileStep_eq r sequence i hi]
    have h1 := reconcileChannel_others r (stepChannel sequence i)
    cases hc : reconcileChannel r (stepChannel sequence i) with
    | mk e r1 =>
      rw [hc] at h1
      cases e with
      | some err => exact ⟨h1.1, h1.2.2.1, h1.2.2.2.1, h1.2.2.2.2⟩
      | none =>
        simp only
        have h2 := reconcileSubscription_others r1 (stepSubscription sequence i)
        exact ⟨h2.1.trans h1.1, h2.2.2.1.trans h1.2.2.1, h2.2.2.2.1.trans h1.2.2.2.1,
          h2.2.2.2.2.trans h1.2.2.2.2⟩
  · unfold reconcileStep
    rw [List.getElem?_eq_none (Nat.le_of_not_lt hi)]
    exact ⟨rfl, rfl, rfl, rfl⟩

/-- A step leaves the children stored under the other names as they are. -/
theorem reconcileStep_frame (r : Client) (sequence : Sequence) (i : Nat) (k : ObjectKey)
    (hk : k ≠ stepKey sequence i) :
    (reconcileStep r sequence i).2.readChannel k = r.readChannel k ∧
      (reconcileStep r sequence i).2.readSubscription k = r.readSubscription k := by
  by_cases hi : i < sequence.Spec.Steps.length
  · rw [reconcileStep_eq r sequence i hi]
    have h1 := reconcileChannel_others r (stepChannel sequence i)
    have f1 := reconcileChannel_frame r (stepChannel sequence i) k hk
    cases hc : reconcileChannel r (stepChannel sequence i) with
    | mk e r1 =>
      rw [hc] at h1 f1
      have hs1 : r1.readSubscription k = r.readSubscription k :=
        readSubscription_congr h1.2.2.1 h1.2.1 k
      cases e with
      | some err => exact ⟨f1, hs1⟩
      | none =>
        simp only
        have h2 := reconcileSubscription_others r1 (stepSubscription sequence i)
        have f2 := reconcileSubscription_frame r1 (stepSubscription sequence i) k hk
        exact ⟨(readChannel_congr h2.2.2.1 h2.2.1 k).trans f1, f2.trans hs1⟩
  · unfold reconcileStep
    rw [List.getElem?_eq_none (Nat.le_of_not_lt hi)]
    exact ⟨rfl, rfl⟩

/-- After a successful step both its children are converged. -/
theorem reconcileStep_post (r : Client) (sequence : Sequence) (i : Nat)
    (hi : i < sequence.Spec.Steps.length) (h : (reconcileStep r sequence i).1 = none) :
    StepConverged (reconcileStep r sequence i).2 sequence i := by
  rw [reconcileStep_eq r sequence i hi] at h ⊢
  have p1 := reconcileChannel_post r (stepChannel sequence i)
  cases hc : reconcileChannel r (stepChannel sequence i) with
  | mk e r1 =>
    rw [hc] at h p1
    cases e with
    | some err => simp at h
    | none =>
      simp only at h ⊢
      have h2 := reconcileSubscription_others r1 (stepSubscription sequence i)
      refine ⟨?_, reconcileSubscription_post r1 _ h⟩
      obtain ⟨obs, hr, hp⟩ := p1 rfl
      exact ⟨obs, (readChannel_congr h2.2.2.1 h2.2.1 _).trans hr, hp⟩

/-- A converged step only reads. -/
theorem reconcileStep_noop (r : Client) (sequence : Sequence) (i : Nat)
    (hi : i < sequence.Spec.Steps.length) (h : StepConverged r sequence i) :
    (reconcileStep r sequence i).1 = none ∧ SameStore r (reconcileStep r sequence i).2 := by
  rw [reconcileStep_eq r sequence i hi, reconcileChannel_noop r _ h.1]
  simp only
  have hs : SubscriptionConverged
      (r.record
        (Op.get ResourceKind.channel (ObjectKeyFromObject (stepChannel sequence i).ObjectMeta)))
      (stepSubscription sequence i) := by
    obtain ⟨obs, hr, hp⟩ := h.2
    exact ⟨obs, (readSubscription_congr rfl rfl _).trans hr, hp⟩
  rw [reconcileSubscription_noop _ _ hs]
  exact ⟨rfl, (SameStore.record_get r _ _).trans (SameStore.record_get _ _ _)⟩

theorem StepConverged_congr {r t : Client} (sequence : Sequence) (j : Nat)
    (hc : t.readChannel (stepKey sequence j) = r.readChannel (stepKey sequence j))
    (hs : t.readSubscription (stepKey sequence j) = r.readSubscription (stepKey sequence j))
    (h : StepConverged r sequence j) : StepConverged t sequence j := by
  obtain ⟨⟨c, hcr, hcp⟩, ⟨s, hsr, hsp⟩⟩ := h
  rw [stepChannel_key] at hcr
  rw [stepSubscription_key] at hsr
  exact ⟨⟨c, by rw [stepChannel_key, hc, hcr], hcp⟩,
    ⟨s, by rw [stepSubscription_key, hs, hsr], hsp⟩⟩

theorem StepConverged_of_SameStore {r t : Client} (sequence : Sequence) (j : Nat)
    (hst : SameStore r t) (h : StepConverged r sequence j) : StepConverged t sequence j :=
  StepConverged_congr sequence j (readChannel_congr hst.getFault hst.channels _)
    (readSubscription_congr hst.getFault hst.subscriptions _) h

/-- The loop leaves the Sequences and the refusals of the store as they are. -/
theorem provisionSteps_others (sequence : Sequence) (n : Nat) : ∀ (r : Client) (k : Nat),
    (provisionSteps r sequence n k).2.sequences = r.sequences ∧
      (provisionSteps r sequence n k).2.getFault = r.getFault ∧
      (provisionSteps r sequence n k).2.createFault = r.createFault ∧
      (provisionSteps r sequence n k).2.updateFault = r.updateFault := by
  induction n with
  | zero => intro r k; exact ⟨rfl, rfl, rfl, rfl⟩
  | succ n ih =>
    intro r k
    unfold provisionSteps
    have h1 := reconcileStep_others r sequence k
    cases hc : reconcileStep r sequence k with
    | mk e r1 =>
      rw [hc] at h1
      cases e with
      | some err => exact h1
      | none =>
        simp only
        have h2 := ih r1 (k + 1)
        exact ⟨h2.1.trans h1.1, h2.2.1.trans h1.2.1, h2.2.2.1.trans h1.2.2.1,
          h2.2.2.2.trans h1.2.2.2⟩

/-- The loop from step `k` on leaves the children of the steps before `k` as they are. -/
theorem provisionSteps_frame (sequence : Sequence) (n : Nat) : ∀ (r : Client) (k j : Nat),
    j < k →
    (provisionSteps r sequence n k).2.readChannel (stepKey sequence j) =
        r.readChannel (stepKey sequence j) ∧
      (provisionSteps r sequence n k).2.readSubscription (stepKey sequence j) =
        r.readSubscription (stepKey sequence j) := by
  induction n with
  | zero => intro r k j _; exact ⟨rfl, rfl⟩
  | succ n ih =>
    intro r k j hj
    unfold provisionSteps
    have f1 := reconcileStep_frame r sequence k (stepKey sequence j)
      (stepKey_ne sequence k j (Nat.ne_of_lt hj))
    cases hc : reconcileStep r sequence k with
    | mk e r1 =>
      rw [hc] at f1
      cases e with
      | some err => exact f1
      | none =>
        simp only
        have f2 := ih r1 (k + 1) j (Nat.lt_succ_of_lt hj)
        exact ⟨f2.1.trans f1.1, f2.2.trans f1.2⟩

/-- After a successful loop every step it ran is converged. -/
theorem provisionSteps_post (sequence : Sequence) (n : Nat) : ∀ (r : Client) (k : Nat),
    k + n ≤ sequence.Spec.Steps.length → (provisionSteps r sequence n k).1 = none →
    ∀ j, k ≤ j → j < k + n → StepConverged (provisionSteps r sequence n k).2 sequence j := by
  induction n with
  | zero => intro r k _ _ j h1 h2; omega
  | succ n ih =>
    intro r k hk h j h1 h2
    unfold provisionSteps at h ⊢
    have p1 := reconcileStep_post r sequence k (by omega)
    cases hc : reconcileStep r sequence k with
    | mk e r1 =>
      rw [hc] at h p1
      cases e with
      | some err => simp at h
      | none =>
        simp only at h ⊢
        by_cases hjk : j = k
        · subst hjk
          have f := provisionSteps_frame sequence n r1 (j + 1) j (Nat.lt_succ_self j)
          exact StepConverged_congr sequence j f.1 f.2 (p1 rfl)
        · exact ih r1 (k + 1) (by omega) h j (by omega) (by omega)

/-- A loop over converged steps only reads. -/
theorem provisionSteps_noop (sequence : Sequence) (n : Nat) : ∀ (r : Client) (k : Nat),
    k + n ≤ sequence.Spec.Steps.length →
    (∀ j, k ≤ j → j < k + n → StepConverged r sequence j) →
    (provisionSteps r sequence n k).1 = none ∧ SameStore r (provisionSteps r sequence n k).2 := by
  induction n with
  | zero => intro r k _ _; exact ⟨rfl, SameStore.refl r⟩
  | succ n ih =>
    intro r k hk h
    unfold provisionSteps
    have p1 := reconcileStep_noop r sequence k (by omega) (h k (Nat.le_refl k) (by omega))
    cases hc : reconcileStep r sequence k with
    | mk e r1 =>
      rw [hc] at p1
      obtain ⟨he, hst⟩ := p1
      simp only at he
      subst he
      simp only
      have h2 := ih r1 (k + 1) (by omega)
        (fun j hj1 hj2 => StepConverged_of_SameStore sequence j hst (h j (by omega) (by omega)))
      exact ⟨h2.1, hst.trans h2.2⟩

/-! ### Claims on `Reconcile` and `reconcile` -/

/-- C7: when the store answers not-found for the key, `Reconcile` returns nil and issues nothing
but the read; when the read of the Sequence fails with another error, `Reconcile` returns that
error and likewise issues nothing but the read.  In both cases the store is left as it was. -/
theorem C7_sequence_not_fetched (r : Client) (request : ObjectKey) (now : Nat)
    (err : StoreError) (h : r.readSequence request = Except.error err) :
    (Reconcile r request now).1 = (if err = StoreError.notFound then none else some err) ∧
      (Reconcile r request now).2.log = r.log ++ [Op.get ResourceKind.sequence request] ∧
      writes (Reconcile r request now).2.log = writes r.log ∧
      SameStore r (Reconcile r request now).2 := by
  have hrun : Reconcile r request now =
      (if err = StoreError.notFound then none else some err,
        r.record (Op.get ResourceKind.sequence request)) := by
    unfold Reconcile Client.GetSequence
    rw [h]
    cases err <;> simp [IsNotFound]
  rw [hrun]
  exact ⟨rfl, rfl, (SameStore.record_get r _ _).log, SameStore.record_get r _ _⟩

/-- Witness of C7: a Sequence that is not stored, and a store that refuses the read. -/
theorem C7_sequence_not_fetched_witness :
    ((Reconcile {} { Namespace := "ns", Name := "s" } 0).1 = none ∧
        (Reconcile {} { Namespace := "ns", Name := "s" } 0).2.log =
          [Op.get ResourceKind.sequence { Namespace := "ns", Name := "s" }]) ∧
      ((Reconcile unreadableClient { Namespace := "ns", Name := "s" } 0).1 =
          some (StoreError.other "connection refused") ∧
        (Reconcile unreadableClient { Namespace := "ns", Name := "s" } 0).2.log =
          [Op.get ResourceKind.sequence { Namespace := "ns", Name := "s" }]) :=
  ⟨⟨(C7_sequence_not_fetched {} { Namespace := "ns", Name := "s" } 0 StoreError.notFound rfl).1,
      (C7_sequence_not_fetched {} { Namespace := "ns", Name := "s" } 0 StoreError.notFound
        rfl).2.1⟩,
    ⟨(C7_sequence_not_fetched unreadableClient { Namespace := "ns", Name := "s" } 0
        (StoreError.other "connection refused") rfl).1,
      (C7_sequence_not_fetched unreadableClient { Namespace := "ns", Name := "s" } 0
        (StoreError.other "connection refused") rfl).2.1⟩⟩

/-- The loop of `reconcile` runs on the Sequence with its conditions initialised, which the
steps do not look at. -/
theorem provisionSteps_initialized (r : Client) (sequence : Sequence) (now n k : Nat) :
    provisionSteps r { sequence with Status := sequence.Status.InitializeConditions now } n k =
      provisionSteps r sequence n k :=
  provisionSteps_congr sequence
    { sequence with Status := sequence.Status.InitializeConditions now } rfl rfl rfl rfl n r k

/-- C9: for a Sequence that is not being deleted, if the steps before step `i` converge and
step `i` fails with `err`, then `reconcile` returns `err`; it leaves the store as step `i` left
it, so nothing is attempted for a later step; the children of the steps before `i` are still
converged in that store; the Provisioned condition is False with reason NotProvisioned and a
message that names `i` and the error; and the finalizers are the ones the Sequence had. -/
theorem C9_first_failing_step (r : Client) (sequence : Sequence) (now i : Nat) (err : StoreError)
    (hnd : sequence.ObjectMeta.DeletionTimestamp = none)
    (hi : i < sequence.Spec.Steps.length)
    (hbefore : (provisionSteps r sequence i 0).1 = none)
    (hfail : (reconcileStep (provisionSteps r sequence i 0).2 sequence i).1 = some err) :
    (reconcile r sequence now).1 = some err ∧
      (reconcile r sequence now).2.2 =
        (reconcileStep (provisionSteps r sequence i 0).2 sequence i).2 ∧
      (∀ j, j < i → StepConverged (reconcile r sequence now).2.2 sequence j) ∧
      Holds (reconcile r sequence now).2.1.Status.Conditions "Provisioned" ConditionStatus.False
        "NotProvisioned"
        ("error while provisioning step " ++ toString i ++ ": " ++ err.Error) ∧
      (reconcile r sequence now).2.1.ObjectMeta.Finalizers = sequence.ObjectMeta.Finalizers := by
  have hloop : provisionSteps r sequence sequence.Spec.Steps.length 0 =
      (some (i, err), (reconcileStep (provisionSteps r sequence i 0).2 sequence i).2) :=
    provisionSteps_first_failure sequence r _ _ i _ err hi (Prod.ext hbefore rfl)
      (Prod.ext hfail rfl)
  have hrun : reconcile r sequence now =
      (some err,
        { sequence with
          Status :=
            (sequence.Status.InitializeConditions now).MarkNotProvisioned now "NotProvisioned"
              ("error while provisioning step " ++ toString i ++ ": " ++ err.Error) },
        (reconcileStep (provisionSteps r sequence i 0).2 sequence i).2) := by
    unfold reconcile
    simp only [hnd, ne_eq, not_true_eq_false, if_false, provisionSteps_initialized, hloop]
  rw [hrun]
  refine ⟨rfl, rfl, ?_, ?_, rfl⟩
  · intro j hj
    have hconv := provisionSteps_post sequence i r 0 (by omega) hbefore j (Nat.zero_le j)
      (by omega)
    have f := reconcileStep_frame (provisionSteps r sequence i 0).2 sequence i
      (stepKey sequence j) (stepKey_ne sequence i j (Nat.ne_of_lt hj))
    exact StepConverged_congr sequence j f.1 f.2 hconv
  · simp only [SequenceStatus.MarkNotProvisioned, SequenceConditionProvisioned]
    rw [MarkFalse_eq _ _ _ _ _ (Or.inl rfl)]
    exact Holds_SetCondition_other _ _ _ _ _ _ _ (show "Provisioned" ≠ "Ready" by decide)
      (Holds_SetCondition_same _ _ _ _ _ _)

/-- Witness of C9: the store refuses the create of the subscription of step 1 of
`demoSequence`. -/
theorem C9_first_failing_step_witness :
    (reconcile quotaClient demoSequence 0).1 = some (StoreError.other "quota exceeded") ∧
      Holds (reconcile quotaClient demoSequence 0).2.1.Status.Conditions "Provisioned"
        ConditionStatus.False "NotProvisioned"
        "error while provisioning step 1: quota exceeded" ∧
      (reconcile quotaClient demoSequence 0).2.1.ObjectMeta.Finalizers = [] :=
  have h := C9_first_failing_step quotaClient demoSequence 0 1
    (StoreError.other "quota exceeded") rfl (by decide) (by decide) (by decide)
  ⟨h.1, h.2.2.2.1, h.2.2.2.2⟩

/-- C10: for a Sequence that is not being deleted and whose steps all converge, `reconcile`
returns nil, leaves the Provisioned condition True, and leaves the token of the controller in
the finalizers of the Sequence. -/
theorem C10_all_steps_converge (r : Client) (sequence : Sequence) (now : Nat)
    (hnd : sequence.ObjectMeta.DeletionTimestamp = none)
    (hall : (provisionSteps r sequence sequence.Spec.Steps.length 0).1 = none) :
    (reconcile r sequence now).1 = none ∧
      Holds (reconcile r sequence now).2.1.Status.Conditions "Provisioned" ConditionStatus.True
        "" "" ∧
      finalizerName ∈ (reconcile r sequence now).2.1.ObjectMeta.Finalizers ∧
      (reconcile r sequence now).2.2 =
        (provisionSteps r sequence sequence.Spec.Steps.length 0).2 := by
  have hrun : reconcile r sequence now =
      (none,
        addFinalizer
          { sequence with
            Status := (sequence.Status.InitializeConditions now).MarkProvisioned now },
        (provisionSteps r sequence sequence.Spec.Steps.length 0).2) := by
    unfold reconcile
    simp only [hnd, ne_eq, not_true_eq_false, if_false, provisionSteps_initialized]
    cases hp : provisionSteps r sequence sequence.Spec.Steps.length 0 with
    | mk e r1 =>
      rw [hp] at hall
      simp only at hall
      subst hall
      rfl
  rw [hrun]
  refine ⟨rfl, ?_, ?_, rfl⟩
  · simp only [addFinalizer, SequenceStatus.MarkProvisioned, SequenceConditionProvisioned]
    rw [MarkTrue_eq]
    split
    · exact Holds_SetCondition_other _ _ _ _ _ _ _ (show "Provisioned" ≠ "Ready" by decide)
        (Holds_SetCondition_same _ _ _ _ _ _)
    · exact Holds_SetCondition_same _ _ _ _ _ _
  · simp only [addFinalizer]
    rw [mem_setList]
    simp

/-- Witness of C10: `demoSequence` in a store that holds nothing else. -/
theorem C10_all_steps_converge_witness :
    (reconcile demoClient demoSequence 0).1 = none ∧
      Holds (reconcile demoClient demoSequence 0).2.1.Status.Conditions "Provisioned"
        ConditionStatus.True "" "" ∧
      finalizerName ∈ (reconcile demoClient demoSequence 0).2.1.ObjectMeta.Finalizers :=
  have h := C10_all_steps_converge demoClient demoSequence 0 rfl (by decide)
  ⟨h.1, h.2.1, h.2.2.1⟩

/-! ### The status publisher -/

/-- What `updateStatus` does once the fresh copy is read: nothing more when the fresh copy
already has the finalizers and the status of the Sequence in memory, else one update. -/
theorem updateStatus_eq (r : Client) (sequence fresh : Sequence) (now : Nat)
    (hread : r.readSequence (ObjectKeyFromObject sequence.ObjectMeta) = Except.ok fresh) :
    updateStatus r sequence now =
      if statusTarget r sequence fresh now = fresh then
        (Except.ok fresh,
          (r.record (Op.get ResourceKind.sequence (ObjectKeyFromObject sequence.ObjectMeta))).record
            (Op.get ResourceKind.channel (stepKey sequence 0)))
      else
        match ((r.record
            (Op.get ResourceKind.sequence (ObjectKeyFromObject sequence.ObjectMeta))).record
            (Op.get ResourceKind.channel (stepKey sequence 0))).UpdateSequence
            (statusTarget r sequence fresh now) with
        | (some err, r3) => (Except.error err, r3)
        | (none, r3) => (Except.ok (statusTarget r sequence fresh now), r3) := by
  have hkey : ({ Namespace := sequence.ObjectMeta.Namespace, Name := sequence.ObjectMeta.Name } :
      ObjectKey) = ObjectKeyFromObject sequence.ObjectMeta := rfl
  have hhost : (match
      ((r.record (Op.get ResourceKind.sequence (ObjectKeyFromObject sequence.ObjectMeta))).GetChannel
        { Namespace := sequence.ObjectMeta.Namespace,
          Name := stepName sequence.ObjectMeta.Name 0 }).1 with
      | Except.ok ch => ch
      | Except.error _ => ({} : Channel)).Status.Address.Hostname =
      firstChannelHostname r sequence := by
    unfold firstChannelHostname Client.GetChannel
    have : (r.record
        (Op.get ResourceKind.sequence (ObjectKeyFromObject sequence.ObjectMeta))).readChannel
        { Namespace := sequence.ObjectMeta.Namespace,
          Name := stepName sequence.ObjectMeta.Name 0 } =
        r.readChannel (stepKey sequence 0) := readChannel_congr rfl rfl _
    simp only [this]
    cases r.readChannel (stepKey sequence 0) <;> rfl
  unfold updateStatus Client.GetSequence
  simp only [hkey, hread, hhost]
  unfold statusTarget
  generalize sequence.Status.SetAddress now (firstChannelHostname r sequence) = st
  by_cases hf : fresh.ObjectMeta.Finalizers = sequence.ObjectMeta.Finalizers
  · by_cases hs : fresh.Status = st
    · have ht : ({ fresh with
          ObjectMeta := { fresh.ObjectMeta with Finalizers := sequence.ObjectMeta.Finalizers },
          Status := st } : Sequence) = fresh := by
        rw [← hf, ← hs]
      simp only [hf, hs, ne_eq, not_true_eq_false, if_false, ht, if_true]
      rfl
    · have ht : ({ fresh with
          ObjectMeta := { fresh.ObjectMeta with Finalizers := sequence.ObjectMeta.Finalizers },
          Status := st } : Sequence) ≠ fresh := by
        intro he
        exact hs (congrArg Sequence.Status he).symm
      have he : ({ fresh with Status := st } : Sequence) =
          { fresh with
            ObjectMeta := { fresh.ObjectMeta with Finalizers := sequence.ObjectMeta.Finalizers },
            Status := st } := by
        rw [← hf]
      simp only [hf, hs, ne_eq, not_true_eq_false, not_false_eq_true, if_false, if_true, ht, he]
      rfl
  · have ht : ({ fresh with
        ObjectMeta := { fresh.ObjectMeta with Finalizers := sequence.ObjectMeta.Finalizers },
        Status := st } : Sequence) ≠ fresh := by
      intro he
      exact hf (congrArg (fun s => s.ObjectMeta.Finalizers) he).symm
    by_cases hs : fresh.Status = st
    · have he : ({ fresh with
          ObjectMeta :=
            { fresh.ObjectMeta with Finalizers := sequence.ObjectMeta.Finalizers } } : Sequence) =
          { fresh with
            ObjectMeta := { fresh.ObjectMeta with Finalizers := sequence.ObjectMeta.Finalizers },
            Status := st } := by
        rw [← hs]
      simp only [hf, hs, ne_eq, not_true_eq_false, not_false_eq_true, if_false, if_true, ht, he]
      rfl
    · simp only [hf, hs, ne_eq, not_false_eq_true, if_true, ht, if_false]
      rfl

/-! ### Repeating the status computation -/

theorem InitializeCondition_noop (now : Nat) (t : String) (conds : List Condition)
    (h : Present conds t) : seqCondSet.InitializeCondition now t conds = conds := by
  obtain ⟨c, hc⟩ := h
  unfold ConditionSet.InitializeCondition
  rw [hc]

theorem Present_InitializeCondition (now : Nat) (t u : String) (conds : List Condition)
    (h : Present conds u ∨ u = t) : Present (seqCondSet.InitializeCondition now t conds) u := by
  unfold ConditionSet.InitializeCondition
  cases hg : seqCondSet.GetCondition conds t with
  | none => exact Present_SetCondition now conds _ u h
  | some c =>
    rcases h with h | h
    · exact h
    · subst h
      exact ⟨c, hg⟩

theorem Present_InitializeConditions (now : Nat) (conds : List Condition) :
    Present (seqCondSet.InitializeConditions now conds) "Provisioned" ∧
      Present (seqCondSet.InitializeConditions now conds) "Addressable" ∧
      Present (seqCondSet.InitializeConditions now conds) "Ready" := by
  rw [InitializeConditions_eq]
  refine ⟨?_, ?_, ?_⟩
  · exact Present_InitializeCondition _ _ _ _ (Or.inl (Present_InitializeCondition _ _ _ _
      (Or.inl (Present_InitializeCondition _ _ _ _ (Or.inr rfl)))))
  · exact Present_InitializeCondition _ _ _ _ (Or.inl (Present_InitializeCondition _ _ _ _
      (Or.inr rfl)))
  · exact Present_InitializeCondition _ _ _ _ (Or.inr rfl)

theorem InitializeConditions_noop (now : Nat) (conds : List Condition)
    (hp : Present conds "Provisioned") (ha : Present conds "Addressable")
    (hr : Present conds "Ready") : seqCondSet.InitializeConditions now conds = conds := by
  rw [InitializeConditions_eq, InitializeCondition_noop now "Provisioned" conds hp,
    InitializeCondition_noop now "Addressable" conds ha,
    InitializeCondition_noop now "Ready" conds hr]

theorem Present_MarkTrue (now : Nat) (t u : String) (conds : List Condition)
    (h : Present conds u) : Present (seqCondSet.MarkTrue now t conds) u := by
  rw [MarkTrue_eq]
  split
  · exact Present_SetCondition _ _ _ _ (Or.inl (Present_SetCondition _ _ _ _ (Or.inl h)))
  · exact Present_SetCondition _ _ _ _ (Or.inl h)

/-- After `MarkTrue` of a declared condition, that condition is True. -/
theorem Holds_MarkTrue_same (now : Nat) (t : String) (conds : List Condition)
    (ht : t ≠ "Ready") : Holds (seqCondSet.MarkTrue now t conds) t ConditionStatus.True "" "" := by
  rw [MarkTrue_eq]
  split
  · exact Holds_SetCondition_other _ _ _ _ _ _ _ ht (Holds_SetCondition_same _ _ _ _ _ _)
  · exact Holds_SetCondition_same _ _ _ _ _ _

/-- `MarkTrue` of one declared condition leaves the other declared condition as it is. -/
theorem Holds_MarkTrue_other (now : Nat) (t u : String) (conds : List Condition)
    (st : ConditionStatus) (reason message : String) (hut : u ≠ t) (hur : u ≠ "Ready")
    (h : Holds conds u st reason message) :
    Holds (seqCondSet.MarkTrue now t conds) u st reason message := by
  rw [MarkTrue_eq]
  split
  · exact Holds_SetCondition_other _ _ _ _ _ _ _ hur
      (Holds_SetCondition_other _ _ _ _ _ _ _ hut h)
  · exact Holds_SetCondition_other _ _ _ _ _ _ _ hut h

/-- `MarkTrue` changes nothing when the condition is True already and `Ready` is True whenever
both declared conditions are. -/
theorem MarkTrue_noop (now : Nat) (t : String) (conds : List Condition)
    (ht : Holds conds t ConditionStatus.True "" "")
    (hr : IsTrue (seqCondSet.GetCondition conds "Provisioned") = true →
      IsTrue (seqCondSet.GetCondition conds "Addressable") = true →
      Holds conds "Ready" ConditionStatus.True "" "") :
    seqCondSet.MarkTrue now t conds = conds := by
  rw [MarkTrue_eq, SetCondition_noop_of_Holds now conds t ConditionStatus.True "" "" ht]
  split
  · rename_i h
    exact SetCondition_noop_of_Holds now conds "Ready" ConditionStatus.True "" "" (hr h.1 h.2)
  · rfl

/-- `MarkFalse` of a declared condition changes nothing when the condition and `Ready` are
False already, with the reason and message. -/
theorem MarkFalse_noop (now : Nat) (t reason message : String) (conds : List Condition)
    (hdecl : t = "Provisioned" ∨ t = "Addressable")
    (ht : Holds conds t ConditionStatus.False reason message)
    (hr : Holds conds "Ready" ConditionStatus.False reason message) :
    seqCondSet.MarkFalse now t reason message conds = conds := by
  rw [MarkFalse_eq now t reason message conds hdecl,
    SetCondition_noop_of_Holds now conds t ConditionStatus.False reason message ht,
    SetCondition_noop_of_Holds now conds "Ready" ConditionStatus.False reason message hr]

theorem Holds_MarkFalse (now : Nat) (t reason message : String) (conds : List Condition)
    (hdecl : t = "Provisioned" ∨ t = "Addressable") :
    Holds (seqCondSet.MarkFalse now t reason message conds) t ConditionStatus.False reason
        message ∧
      Holds (seqCondSet.MarkFalse now t reason message conds) "Ready" ConditionStatus.False
        reason message := by
  have htr : t ≠ "Ready" := by rcases hdecl with rfl | rfl <;> decide
  rw [MarkFalse_eq now t reason message conds hdecl]
  exact ⟨Holds_SetCondition_other _ _ _ _ _ _ _ htr (Holds_SetCondition_same _ _ _ _ _ _),
    Holds_SetCondition_same _ _ _ _ _ _⟩

theorem Holds_MarkFalse_other (now : Nat) (t u reason message : String) (conds : List Condition)
    (st : ConditionStatus) (r m : String) (hdecl : t = "Provisioned" ∨ t = "Addressable")
    (hut : u ≠ t) (hur : u ≠ "Ready") (h : Holds conds u st r m) :
    Holds (seqCondSet.MarkFalse now t reason message conds) u st r m := by
  rw [MarkFalse_eq now t reason message conds hdecl]
  exact Holds_SetCondition_other _ _ _ _ _ _ _ hur (Holds_SetCondition_other _ _ _ _ _ _ _ hut h)

theorem Present_MarkFalse (now : Nat) (t u reason message : String) (conds : List Condition)
    (hdecl : t = "Provisioned" ∨ t = "Addressable") (h : Present conds u) :
    Present (seqCondSet.MarkFalse now t reason message conds) u := by
  rw [MarkFalse_eq now t reason message conds hdecl]
  exact Present_SetCondition _ _ _ _ (Or.inl (Present_SetCondition _ _ _ _ (Or.inl h)))

/-- Once Provisioned is True, marking Addressable True makes `Ready` True. -/
theorem Holds_Ready_of_MarkTrue_Addressable (now : Nat) (conds : List Condition)
    (hp : Holds conds "Provisioned" ConditionStatus.True "" "") :
    Holds (seqCondSet.MarkTrue now "Addressable" conds) "Ready" ConditionStatus.True "" "" := by
  rw [MarkTrue_eq]
  have h1 : Holds
      (seqCondSet.SetCondition now { Typ := "Addressable", Status := ConditionStatus.True } conds)
      "Provisioned" ConditionStatus.True "" "" :=
    Holds_SetCondition_other _ _ _ _ _ _ _ (by decide) hp
  have h2 : Holds
      (seqCondSet.SetCondition now { Typ := "Addressable", Status := ConditionStatus.True } conds)
      "Addressable" ConditionStatus.True "" "" :=
    Holds_SetCondition_same _ _ _ _ _ _
  rw [if_pos ⟨IsTrue_of_Holds h1, IsTrue_of_Holds h2⟩]
  exact Holds_SetCondition_same _ _ _ _ _ _

/-- The conditions that a run on a Sequence with an address leaves are left as they are by a
second run. -/
theorem conditions_repeat_addressed (now now2 : Nat) (conds : List Condition) :
    seqCondSet.MarkTrue now2 "Addressable"
        (seqCondSet.MarkTrue now2 "Provisioned"
          (seqCondSet.InitializeConditions now2
            (seqCondSet.MarkTrue now "Addressable"
              (seqCondSet.MarkTrue now "Provisioned"
                (seqCondSet.InitializeConditions now conds))))) =
      seqCondSet.MarkTrue now "Addressable"
        (seqCondSet.MarkTrue now "Provisioned" (seqCondSet.InitializeConditions now conds)) := by
  have hp2 := Holds_MarkTrue_same now "Provisioned" (seqCondSet.InitializeConditions now conds)
    (by decide)
  generalize seqCondSet.MarkTrue now "Provisioned" (seqCondSet.InitializeConditions now conds) =
    c2 at hp2 ⊢
  have hp := Holds_MarkTrue_other now "Addressable" "Provisioned" c2 _ _ _ (by decide)
    (by decide) hp2
  have ha := Holds_MarkTrue_same now "Addressable" c2 (by decide)
  have hr := Holds_Ready_of_MarkTrue_Addressable now c2 hp2
  generalize seqCondSet.MarkTrue now "Addressable" c2 = c3 at hp ha hr ⊢
  rw [InitializeConditions_noop now2 c3 (Holds_Present hp) (Holds_Present ha) (Holds_Present hr),
    MarkTrue_noop now2 "Provisioned" c3 hp (fun _ _ => hr),
    MarkTrue_noop now2 "Addressable" c3 ha (fun _ _ => hr)]

/-- The conditions that a run on a Sequence without an address leaves are left as they are by a
second run. -/
theorem conditions_repeat_unaddressed (now now2 : Nat) (reason message : String)
    (conds : List Condition) :
    seqCondSet.MarkFalse now2 "Addressable" reason message
        (seqCondSet.MarkTrue now2 "Provisioned"
          (seqCondSet.InitializeConditions now2
            (seqCondSet.MarkFalse now "Addressable" reason message
              (seqCondSet.MarkTrue now "Provisioned"
                (seqCondSet.InitializeConditions now conds))))) =
      seqCondSet.MarkFalse now "Addressable" reason message
        (seqCondSet.MarkTrue now "Provisioned" (seqCondSet.InitializeConditions now conds)) := by
  have hp2 := Holds_MarkTrue_same now "Provisioned" (seqCondSet.InitializeConditions now conds)
    (by decide)
  generalize seqCondSet.MarkTrue now "Provisioned" (seqCondSet.InitializeConditions now conds) =
    c2 at hp2 ⊢
  have hp := Holds_MarkFalse_other now "Addressable" "Provisioned" reason message c2 _ _ _
    (Or.inr rfl) (by decide) (by decide) hp2
  have har := Holds_MarkFalse now "Addressable" reason message c2 (Or.inr rfl)
  generalize seqCondSet.MarkFalse now "Addressable" reason message c2 = c3 at hp har ⊢
  have hna := not_IsTrue_of_Holds_False har.1
  rw [InitializeConditions_noop now2 c3 (Holds_Present hp) (Holds_Present har.1)
      (Holds_Present har.2),
    MarkTrue_noop now2 "Provisioned" c3 hp (fun _ h => by rw [hna] at h; exact absurd h (by decide)),
    MarkFalse_noop now2 "Addressable" reason message c3 (Or.inr rfl) har.1 har.2]

/-- The conditions that a run on a deleted Sequence with an address leaves are left as they are
by a second run. -/
theorem conditions_repeat_deleted_addressed (now now2 : Nat) (conds : List Condition) :
    seqCondSet.MarkTrue now2 "Addressable"
        (seqCondSet.InitializeConditions now2
          (seqCondSet.MarkTrue now "Addressable" (seqCondSet.InitializeConditions now conds))) =
      seqCondSet.MarkTrue now "Addressable" (seqCondSet.InitializeConditions now conds) := by
  obtain ⟨pp, _, pr⟩ := Present_InitializeConditions now conds
  generalize seqCondSet.InitializeConditions now conds = c1 at pp pr ⊢
  have ha := Holds_MarkTrue_same now "Addressable" c1 (by decide)
  have pp3 := Present_MarkTrue now "Addressable" "Provisioned" c1 pp
  have pr3 := Present_MarkTrue now "Addressable" "Ready" c1 pr
  have hr : IsTrue (seqCondSet.GetCondition (seqCondSet.MarkTrue now "Addressable" c1)
        "Provisioned") = true →
      IsTrue (seqCondSet.GetCondition (seqCondSet.MarkTrue now "Addressable" c1)
        "Addressable") = true →
      Holds (seqCondSet.MarkTrue now "Addressable" c1) "Ready" ConditionStatus.True "" "" := by
    intro h1 _
    rw [MarkTrue_eq] at h1 ⊢
    have h2 : Holds
        (seqCondSet.SetCondition now { Typ := "Addressable", Status := ConditionStatus.True } c1)
        "Addressable" ConditionStatus.True "" "" :=
      Holds_SetCondition_same _ _ _ _ _ _
    by_cases hc : IsTrue
        (seqCondSet.GetCondition
          (seqCondSet.SetCondition now { Typ := "Addressable", Status := ConditionStatus.True }
            c1) "Provisioned") = true
    · rw [if_pos ⟨hc, IsTrue_of_Holds h2⟩]
      exact Holds_SetCondition_same _ _ _ _ _ _
    · rw [if_neg (fun h => hc h.1)] at h1
      exact absurd h1 hc
  generalize seqCondSet.MarkTrue now "Addressable" c1 = c3 at ha pp3 pr3 hr ⊢
  rw [InitializeConditions_noop now2 c3 pp3 (Holds_Present ha) pr3,
    MarkTrue_noop now2 "Addressable" c3 ha hr]

/-- The conditions that a run on a deleted Sequence without an address leaves are left as they
are by a second run. -/
theorem conditions_repeat_deleted_unaddressed (now now2 : Nat) (reason message : String)
    (conds : List Condition) :
    seqCondSet.MarkFalse now2 "Addressable" reason message
        (seqCondSet.InitializeConditions now2
          (seqCondSet.MarkFalse now "Addressable" reason message
            (seqCondSet.InitializeConditions now conds))) =
      seqCondSet.MarkFalse now "Addressable" reason message
        (seqCondSet.InitializeConditions now conds) := by
  obtain ⟨pp, _, _⟩ := Present_InitializeConditions now conds
  generalize seqCondSet.InitializeConditions now conds = c1 at pp ⊢
  have har := Holds_MarkFalse now "Addressable" reason message c1 (Or.inr rfl)
  have pp3 := Present_MarkFalse now "Addressable" "Provisioned" reason message c1 (Or.inr rfl) pp
  generalize seqCondSet.MarkFalse now "Addressable" reason message c1 = c3 at har pp3 ⊢
  rw [InitializeConditions_noop now2 c3 pp3 (Holds_Present har.1) (Holds_Present har.2),
    MarkFalse_noop now2 "Addressable" reason message c3 (Or.inr rfl) har.1 har.2]

theorem SetAddress_empty (ss : SequenceStatus) (now : Nat) :
    ss.SetAddress now "" =
      { Address := { Hostname := "" },
        Conditions :=
          seqCondSet.MarkFalse now "Addressable" "emptyHostname" "hostname is the empty string"
            ss.Conditions } := by
  unfold SequenceStatus.SetAddress
  rw [if_neg (not_not.mpr rfl)]
  rfl

theorem SetAddress_nonempty (ss : SequenceStatus) (now : Nat) (hostname : String)
    (hh : hostname ≠ "") :
    ss.SetAddress now hostname =
      { Address := { Hostname := hostname },
        Conditions := seqCondSet.MarkTrue now "Addressable" ss.Conditions } := by
  unfold SequenceStatus.SetAddress
  rw [if_pos hh]
  rfl

theorem MarkProvisioned_eq (ss : SequenceStatus) (now : Nat) :
    ss.MarkProvisioned now =
      { Address := ss.Address,
        Conditions := seqCondSet.MarkTrue now "Provisioned" ss.Conditions } := rfl

theorem SequenceStatus_InitializeConditions_eq (ss : SequenceStatus) (now : Nat) :
    ss.InitializeConditions now =
      { Address := ss.Address,
        Conditions := seqCondSet.InitializeConditions now ss.Conditions } := rfl

/-- The status that a run on a Sequence that is not deleted leaves is left as it is by a
second run that reads the same hostname. -/
theorem status_repeat (st : SequenceStatus) (now now2 : Nat) (hostname : String) :
    ((((((st.InitializeConditions now).MarkProvisioned now).SetAddress now
        hostname).InitializeConditions now2).MarkProvisioned now2).SetAddress now2 hostname) =
      ((st.InitializeConditions now).MarkProvisioned now).SetAddress now hostname := by
  by_cases hh : hostname = ""
  · subst hh
    simp only [SetAddress_empty, MarkProvisioned_eq, SequenceStatus_InitializeConditions_eq,
      conditions_repeat_unaddressed]
  · simp only [SetAddress_nonempty _ _ _ hh, MarkProvisioned_eq,
      SequenceStatus_InitializeConditions_eq, conditions_repeat_addressed]

/-- The status that a run on a deleted Sequence leaves is left as it is by a second run that
reads the same hostname. -/
theorem status_repeat_deleted (st : SequenceStatus) (now now2 : Nat) (hostname : String) :
    ((((st.InitializeConditions now).SetAddress now hostname).InitializeConditions
        now2).SetAddress now2 hostname) =
      (st.InitializeConditions now).SetAddress now hostname := by
  by_cases hh : hostname = ""
  · subst hh
    simp only [SetAddress_empty, SequenceStatus_InitializeConditions_eq,
      conditions_repeat_deleted_unaddressed]
  · simp only [SetAddress_nonempty _ _ _ hh, SequenceStatus_InitializeConditions_eq,
      conditions_repeat_deleted_addressed]

/-! ### Finalizers, repeated -/

/-- The list of a set depends on the members only. -/
theorem setList_congr (l m : List String) (h : ∀ x, x ∈ l ↔ x ∈ m) : setList l = setList m := by
  unfold setList
  apply List.eq_of_perm_of_sorted (r := strLE)
  · refine ((List.perm_insertionSort strLE l.dedup).trans ?_).trans
      (List.perm_insertionSort strLE m.dedup).symm
    rw [List.perm_ext_iff_of_nodup (List.nodup_dedup l) (List.nodup_dedup m)]
    intro x
    rw [List.mem_dedup, List.mem_dedup]
    exact h x
  · exact List.sorted_insertionSort strLE l.dedup
  · exact List.sorted_insertionSort strLE m.dedup

/-- Adding the token again changes nothing. -/
theorem addFinalizer_repeat (l : List String) :
    setList (setList (l ++ [finalizerName]) ++ [finalizerName]) =
      setList (l ++ [finalizerName]) := by
  apply setList_congr
  intro x
  simp only [List.mem_append, mem_setList, List.mem_singleton]
  tauto

/-- Removing the token again changes nothing. -/
theorem removeFinalizer_repeat (l : List String) :
    setList ((setList (l.filter (fun f => decide (f ≠ finalizerName)))).filter
        (fun f => decide (f ≠ finalizerName))) =
      setList (l.filter (fun f => decide (f ≠ finalizerName))) := by
  apply setList_congr
  intro x
  simp only [List.mem_filter, mem_setList]
  tauto

/-! ### One run of `Reconcile` -/

theorem Reconcile_of_read (r : Client) (request : ObjectKey) (now : Nat) (sequence : Sequence)
    (hread : r.readSequence request = Except.ok sequence) :
    Reconcile r request now =
      match updateStatus
          (reconcile (r.record (Op.get ResourceKind.sequence request)) sequence now).2.2
          (reconcile (r.record (Op.get ResourceKind.sequence request)) sequence now).2.1 now with
      | (Except.error updateStatusErr, r3) => (some updateStatusErr, r3)
      | (Except.ok _, r3) =>
        ((reconcile (r.record (Op.get ResourceKind.sequence request)) sequence now).1, r3) := by
  unfold Reconcile Client.GetSequence
  rw [hread]

theorem Reconcile_of_error (r : Client) (request : ObjectKey) (now : Nat) (err : StoreError)
    (hread : r.readSequence request = Except.error err) :
    Reconcile r request now =
      (if err = StoreError.notFound then none else some err,
        r.record (Op.get ResourceKind.sequence request)) := by
  unfold Reconcile Client.GetSequence
  rw [hread]
  cases err <;> simp [IsNotFound]

theorem reconcile_deleted (r : Client) (sequence : Sequence) (now : Nat)
    (hdel : sequence.ObjectMeta.DeletionTimestamp ≠ none) :
    reconcile r sequence now =
      (none,
        removeFinalizer { sequence with Status := sequence.Status.InitializeConditions now },
        r) := by
  unfold reconcile
  simp only [if_pos hdel]

theorem reconcile_converged (r : Client) (sequence : Sequence) (now : Nat)
    (hnd : sequence.ObjectMeta.DeletionTimestamp = none)
    (hall : (provisionSteps r sequence sequence.Spec.Steps.length 0).1 = none) :
    reconcile r sequence now =
      (none,
        addFinalizer
          { sequence with
            Status := (sequence.Status.InitializeConditions now).MarkProvisioned now },
        (provisionSteps r sequence sequence.Spec.Steps.length 0).2) := by
  unfold reconcile
  simp only [hnd, ne_eq, not_true_eq_false, if_false, provisionSteps_initialized]
  cases hp : provisionSteps r sequence sequence.Spec.Steps.length 0 with
  | mk e r1 =>
    rw [hp] at hall
    simp only at hall
    subst hall
    rfl

theorem reconcile_failed (r : Client) (sequence : Sequence) (now : Nat)
    (hnd : sequence.ObjectMeta.DeletionTimestamp = none)
    (hsome : (provisionSteps r sequence sequence.Spec.Steps.length 0).1 ≠ none) :
    (reconcile r sequence now).1 ≠ none := by
  unfold reconcile
  simp only [hnd, ne_eq, not_true_eq_false, if_false, provisionSteps_initialized]
  cases hp : provisionSteps r sequence sequence.Spec.Steps.length 0 with
  | mk e r1 =>
    rw [hp] at hsome
    cases e with
    | none => exact absurd rfl hsome
    | some ie => simp

theorem firstChannelHostname_congr {r t : Client} (s u : Sequence)
    (h : t.readChannel (stepKey u 0) = r.readChannel (stepKey s 0)) :
    firstChannelHostname t u = firstChannelHostname r s := by
  unfold firstChannelHostname
  rw [h]

theorem UpdateSequence_read (c : Client) (obj old : Sequence)
    (hold : c.readSequence (ObjectKeyFromObject obj.ObjectMeta) = Except.ok old)
    (hok : (c.UpdateSequence obj).1 = none) :
    (c.UpdateSequence obj).2.readSequence (ObjectKeyFromObject obj.ObjectMeta) = Except.ok obj := by
  obtain ⟨hf, hl⟩ := readSequence_ok hold
  unfold Client.readSequence
  rw [UpdateSequence_getFault, hf, UpdateSequence_sequences, if_pos hok, lookup_replace, hl]
  simp

/-- A successful `updateStatus` leaves the object it wanted stored, and leaves the children and
the refusals of the store as they are. -/
theorem updateStatus_post (r : Client) (sequence fresh : Sequence) (now : Nat)
    (hread : r.readSequence (ObjectKeyFromObject sequence.ObjectMeta) = Except.ok fresh)
    (hok : ∀ err, (updateStatus r sequence now).1 ≠ Except.error err) :
    (updateStatus r sequence now).2.readSequence (ObjectKeyFromObject sequence.ObjectMeta) =
        Except.ok (statusTarget r sequence fresh now) ∧
      (updateStatus r sequence now).2.channels = r.channels ∧
      (updateStatus r sequence now).2.subscriptions = r.subscriptions ∧
      (updateStatus r sequence now).2.getFault = r.getFault ∧
      (updateStatus r sequence now).2.createFault = r.createFault ∧
      (updateStatus r sequence now).2.updateFault = r.updateFault := by
  have hkey : ObjectKeyFromObject fresh.ObjectMeta = ObjectKeyFromObject sequence.ObjectMeta :=
    lookup_key Sequence.ObjectMeta r.sequences _ fresh (readSequence_ok hread).2
  have hkt : ObjectKeyFromObject (statusTarget r sequence fresh now).ObjectMeta =
      ObjectKeyFromObject sequence.ObjectMeta := hkey
  rw [updateStatus_eq r sequence fresh now hread] at hok ⊢
  by_cases ht : statusTarget r sequence fresh now = fresh
  · rw [if_pos ht]
    refine ⟨?_, rfl, rfl, rfl, rfl, rfl⟩
    rw [ht, ← hread]
    exact readSequence_congr rfl rfl _
  · rw [if_neg ht] at hok ⊢
    have hread2 : ((r.record
        (Op.get ResourceKind.sequence (ObjectKeyFromObject sequence.ObjectMeta))).record
        (Op.get ResourceKind.channel (stepKey sequence 0))).readSequence
        (ObjectKeyFromObject (statusTarget r sequence fresh now).ObjectMeta) =
        Except.ok fresh := by
      rw [hkt, ← hread]
      exact readSequence_congr rfl rfl _
    have hup := UpdateSequence_read _ (statusTarget r sequence fresh now) fresh hread2
    have hch := UpdateSequence_channels
      ((r.record (Op.get ResourceKind.sequence (ObjectKeyFromObject sequence.ObjectMeta))).record
        (Op.get ResourceKind.channel (stepKey sequence 0))) (statusTarget r sequence fresh now)
    have hsu := UpdateSequence_subscriptions
      ((r.record (Op.get ResourceKind.sequence (ObjectKeyFromObject sequence.ObjectMeta))).record
        (Op.get ResourceKind.channel (stepKey sequence 0))) (statusTarget r sequence fresh now)
    have hgf := UpdateSequence_getFault
      ((r.record (Op.get ResourceKind.sequence (ObjectKeyFromObject sequence.ObjectMeta))).record
        (Op.get ResourceKind.channel (stepKey sequence 0))) (statusTarget r sequence fresh now)
    have hcf := UpdateSequence_createFault
      ((r.record (Op.get ResourceKind.sequence (ObjectKeyFromObject sequence.ObjectMeta))).record
        (Op.get ResourceKind.channel (stepKey sequence 0))) (statusTarget r sequence fresh now)
    have huf := UpdateSequence_updateFault
      ((r.record (Op.get ResourceKind.sequence (ObjectKeyFromObject sequence.ObjectMeta))).record
        (Op.get ResourceKind.channel (stepKey sequence 0))) (statusTarget r sequence fresh now)
    cases hu : ((r.record
        (Op.get ResourceKind.sequence (ObjectKeyFromObject sequence.ObjectMeta))).record
        (Op.get ResourceKind.channel (stepKey sequence 0))).UpdateSequence
        (statusTarget r sequence fresh now) with
    | mk e r3 =>
      rw [hu] at hok hup hch hsu hgf hcf huf
      cases e with
      | some err => exact absurd rfl (hok err)
      | none =>
        simp only at hup hch hsu hgf hcf huf ⊢
        rw [hkt] at hup
        exact ⟨hup trivial, hch, hsu, hgf, hcf, huf⟩

/-- When the stored copy already has the finalizers and the status that `updateStatus` wants,
`updateStatus` only reads. -/
theorem updateStatus_noop (r : Client) (sequence fresh : Sequence) (now : Nat)
    (hread : r.readSequence (ObjectKeyFromObject sequence.ObjectMeta) = Except.ok fresh)
    (ht : statusTarget r sequence fresh now = fresh) :
    (updateStatus r sequence now).1 = Except.ok fresh ∧
      SameStore r (updateStatus r sequence now).2 := by
  rw [updateStatus_eq r sequence fresh now hread, if_pos ht]
  exact ⟨rfl, (SameStore.record_get r _ _).trans (SameStore.record_get _ _ _)⟩

/-! ### A run on a settled store -/

theorem statusTarget_fixed (r : Client) (sequence fresh : Sequence) (now : Nat)
    (hfin : sequence.ObjectMeta.Finalizers = fresh.ObjectMeta.Finalizers)
    (hst : sequence.Status.SetAddress now (firstChannelHostname r sequence) = fresh.Status) :
    statusTarget r sequence fresh now = fresh := by
  unfold statusTarget
  rw [hfin, hst]

/-- A run on a Sequence that is not deleted, whose steps are converged in the store and whose
stored finalizers and status are the ones the run computes, returns nil and writes nothing. -/
theorem Reconcile_settled (r : Client) (request : ObjectKey) (now : Nat) (s : Sequence)
    (hread : r.readSequence request = Except.ok s)
    (hnd : s.ObjectMeta.DeletionTimestamp = none)
    (hconv : ∀ j, j < s.Spec.Steps.length → StepConverged r s j)
    (hfin : setList (s.ObjectMeta.Finalizers ++ [finalizerName]) = s.ObjectMeta.Finalizers)
    (hst : ((s.Status.InitializeConditions now).MarkProvisioned now).SetAddress now
      (firstChannelHostname r s) = s.Status) :
    (Reconcile r request now).1 = none ∧ SameStore r (Reconcile r request now).2 := by
  have hkey : ObjectKeyFromObject s.ObjectMeta = request :=
    lookup_key Sequence.ObjectMeta r.sequences _ s (readSequence_ok hread).2
  have h0 := SameStore.record_get r ResourceKind.sequence request
  have hloop := provisionSteps_noop s s.Spec.Steps.length
    (r.record (Op.get ResourceKind.sequence request)) 0 (by omega)
    (fun j _ hj => StepConverged_of_SameStore s j h0 (hconv j (by omega)))
  have hrec := reconcile_converged (r.record (Op.get ResourceKind.sequence request)) s now hnd
    hloop.1
  have hB := h0.trans hloop.2
  rw [Reconcile_of_read r request now s hread, hrec]
  simp only
  generalize (provisionSteps (r.record (Op.get ResourceKind.sequence request)) s
    s.Spec.Steps.length 0).2 = rB at hB
  have hreadB : rB.readSequence
      (ObjectKeyFromObject
        (addFinalizer
          { s with
            Status := (s.Status.InitializeConditions now).MarkProvisioned now }).ObjectMeta) =
      Except.ok s := by
    rw [← hread, ← hkey]
    exact readSequence_congr hB.getFault hB.sequences _
  have hhost : firstChannelHostname rB
      (addFinalizer
        { s with Status := (s.Status.InitializeConditions now).MarkProvisioned now }) =
      firstChannelHostname r s :=
    firstChannelHostname_congr s _ (readChannel_congr hB.getFault hB.channels _)
  have ht := statusTarget_fixed rB
    (addFinalizer { s with Status := (s.Status.InitializeConditions now).MarkProvisioned now })
    s now hfin (by rw [hhost]; exact hst)
  have hu := updateStatus_noop rB _ s now hreadB ht
  cases hup : updateStatus rB
      (addFinalizer { s with Status := (s.Status.InitializeConditions now).MarkProvisioned now })
      now with
  | mk res r3 =>
    rw [hup] at hu
    obtain ⟨hres, hsame⟩ := hu
    simp only at hres hsame
    subst hres
    exact ⟨rfl, hB.trans hsame⟩

/-- A run on a deleted Sequence whose stored finalizers and status are the ones the run
computes returns nil and writes nothing. -/
theorem Reconcile_settled_deleted (r : Client) (request : ObjectKey) (now : Nat) (s : Sequence)
    (hread : r.readSequence request = Except.ok s)
    (hdel : s.ObjectMeta.DeletionTimestamp ≠ none)
    (hfin : setList (s.ObjectMeta.Finalizers.filter (fun f => decide (f ≠ finalizerName))) =
      s.ObjectMeta.Finalizers)
    (hst : (s.Status.InitializeConditions now).SetAddress now (firstChannelHostname r s) =
      s.Status) :
    (Reconcile r request now).1 = none ∧ SameStore r (Reconcile r request now).2 := by
  have hkey : ObjectKeyFromObject s.ObjectMeta = request :=
    lookup_key Sequence.ObjectMeta r.sequences _ s (readSequence_ok hread).2
  have hB := SameStore.record_get r ResourceKind.sequence request
  rw [Reconcile_of_read r request now s hread,
    reconcile_deleted (r.record (Op.get ResourceKind.sequence request)) s now hdel]
  simp only
  generalize r.record (Op.get ResourceKind.sequence request) = rB at hB
  have hreadB : rB.readSequence
      (ObjectKeyFromObject
        (removeFinalizer
          { s with Status := s.Status.InitializeConditions now }).ObjectMeta) =
      Except.ok s := by
    rw [← hread, ← hkey]
    exact readSequence_congr hB.getFault hB.sequences _
  have hhost : firstChannelHostname rB
      (removeFinalizer { s with Status := s.Status.InitializeConditions now }) =
      firstChannelHostname r s :=
    firstChannelHostname_congr s _ (readChannel_congr hB.getFault hB.channels _)
  have ht := statusTarget_fixed rB
    (removeFinalizer { s with Status := s.Status.InitializeConditions now })
    s now hfin (by rw [hhost]; exact hst)
  have hu := updateStatus_noop rB _ s now hreadB ht
  cases hup : updateStatus rB
      (removeFinalizer { s with Status := s.Status.InitializeConditions now }) now with
  | mk res r3 =>
    rw [hup] at hu
    obtain ⟨hres, hsame⟩ := hu
    simp only at hres hsame
    subst hres
    exact ⟨rfl, hB.trans hsame⟩

/-! ### A successful run settles the store -/

/-- The error of `Reconcile` is nil only when `updateStatus` succeeds and `reconcile` returns
nil. -/
theorem Reconcile_ok_parts (r : Client) (request : ObjectKey) (now : Nat) (sequence : Sequence)
    (hread : r.readSequence request = Except.ok sequence)
    (hok : (Reconcile r request now).1 = none) :
    (reconcile (r.record (Op.get ResourceKind.sequence request)) sequence now).1 = none ∧
      (∀ err, (updateStatus
          (reconcile (r.record (Op.get ResourceKind.sequence request)) sequence now).2.2
          (reconcile (r.record (Op.get ResourceKind.sequence request)) sequence now).2.1
          now).1 ≠ Except.error err) ∧
      (Reconcile r request now).2 =
        (updateStatus
          (reconcile (r.record (Op.get ResourceKind.sequence request)) sequence now).2.2
          (reconcile (r.record (Op.get ResourceKind.sequence request)) sequence now).2.1
          now).2 := by
  rw [Reconcile_of_read r request now sequence hread] at hok ⊢
  cases hup : updateStatus
      (reconcile (r.record (Op.get ResourceKind.sequence request)) sequence now).2.2
      (reconcile (r.record (Op.get ResourceKind.sequence request)) sequence now).2.1 now with
  | mk res r3 =>
    rw [hup] at hok
    cases res with
    | error e => simp at hok
    | ok x =>
      simp only at hok
      exact ⟨hok, fun err h => Except.noConfusion h, rfl⟩

/-- After a successful run on a deleted Sequence, the store holds the Sequence with the
finalizers and the status that a next run computes again. -/
theorem Reconcile_settles_deleted (r : Client) (request : ObjectKey) (now : Nat) (s : Sequence)
    (hread : r.readSequence request = Except.ok s)
    (hdel : s.ObjectMeta.DeletionTimestamp ≠ none)
    (hok : (Reconcile r request now).1 = none) :
    ∃ s1, (Reconcile r request now).2.readSequence request = Except.ok s1 ∧
      s1.ObjectMeta.DeletionTimestamp ≠ none ∧
      s1.ObjectMeta.Finalizers =
        setList (s.ObjectMeta.Finalizers.filter (fun f => decide (f ≠ finalizerName))) ∧
      ∀ now2, (s1.Status.InitializeConditions now2).SetAddress now2
        (firstChannelHostname (Reconcile r request now).2 s1) = s1.Status := by
  have hkey : ObjectKeyFromObject s.ObjectMeta = request :=
    lookup_key Sequence.ObjectMeta r.sequences _ s (readSequence_ok hread).2
  subst hkey
  obtain ⟨_, hup, hr1⟩ := Reconcile_ok_parts r _ now s hread hok
  rw [hr1]
  rw [reconcile_deleted _ s now hdel] at hup ⊢
  simp only at hup ⊢
  have hreadA : (r.record
      (Op.get ResourceKind.sequence (ObjectKeyFromObject s.ObjectMeta))).readSequence
      (ObjectKeyFromObject
        (removeFinalizer { s with Status := s.Status.InitializeConditions now }).ObjectMeta) =
      Except.ok s :=
    (readSequence_congr rfl rfl _).trans hread
  obtain ⟨hrd, hch, _, hgf, _, _⟩ := updateStatus_post _ _ s now hreadA hup
  refine ⟨statusTarget
    (r.record (Op.get ResourceKind.sequence (ObjectKeyFromObject s.ObjectMeta)))
    (removeFinalizer { s with Status := s.Status.InitializeConditions now }) s now,
    hrd, hdel, rfl, ?_⟩
  intro now2
  have hhost : firstChannelHostname
      (updateStatus
        (r.record (Op.get ResourceKind.sequence (ObjectKeyFromObject s.ObjectMeta)))
        (removeFinalizer { s with Status := s.Status.InitializeConditions now }) now).2
      (statusTarget
        (r.record (Op.get ResourceKind.sequence (ObjectKeyFromObject s.ObjectMeta)))
        (removeFinalizer { s with Status := s.Status.InitializeConditions now }) s now) =
      firstChannelHostname
        (r.record (Op.get ResourceKind.sequence (ObjectKeyFromObject s.ObjectMeta)))
        (removeFinalizer { s with Status := s.Status.InitializeConditions now }) :=
    firstChannelHostname_congr _ _ (readChannel_congr hgf hch _)
  rw [hhost]
  exact status_repeat_deleted s.Status now now2 _

/-- After a successful run on a Sequence that is not deleted, the store holds the Sequence with
the finalizers and the status that a next run computes again, and every step is converged. -/
theorem Reconcile_settles (r : Client) (request : ObjectKey) (now : Nat) (s : Sequence)
    (hread : r.readSequence request = Except.ok s)
    (hnd : s.ObjectMeta.DeletionTimestamp = none)
    (hok : (Reconcile r request now).1 = none) :
    ∃ s1, (Reconcile r request now).2.readSequence request = Except.ok s1 ∧
      s1.ObjectMeta.DeletionTimestamp = none ∧
      s1.ObjectMeta.Finalizers = setList (s.ObjectMeta.Finalizers ++ [finalizerName]) ∧
      (∀ j, j < s1.Spec.Steps.length → StepConverged (Reconcile r request now).2 s1 j) ∧
      ∀ now2, ((s1.Status.InitializeConditions now2).MarkProvisioned now2).SetAddress now2
        (firstChannelHostname (Reconcile r request now).2 s1) = s1.Status := by
  have hkey : ObjectKeyFromObject s.ObjectMeta = request :=
    lookup_key Sequence.ObjectMeta r.sequences _ s (readSequence_ok hread).2
  subst hkey
  obtain ⟨hrec, hup, hr1⟩ := Reconcile_ok_parts r _ now s hread hok
  have hall : (provisionSteps
      (r.record (Op.get ResourceKind.sequence (ObjectKeyFromObject s.ObjectMeta))) s
      s.Spec.Steps.length 0).1 = none := by
    by_contra hne
    exact reconcile_failed _ s now hnd hne hrec
  rw [hr1]
  rw [reconcile_converged _ s now hnd hall] at hup ⊢
  simp only at hup ⊢
  have hoth := provisionSteps_others s s.Spec.Steps.length
    (r.record (Op.get ResourceKind.sequence (ObjectKeyFromObject s.ObjectMeta))) 0
  have hconv := provisionSteps_post s s.Spec.Steps.length
    (r.record (Op.get ResourceKind.sequence (ObjectKeyFromObject s.ObjectMeta))) 0 (by omega)
    hall
  generalize (provisionSteps
    (r.record (Op.get ResourceKind.sequence (ObjectKeyFromObject s.ObjectMeta))) s
    s.Spec.Steps.length 0).2 = rA at hup hoth hconv ⊢
  have hreadA : rA.readSequence
      (ObjectKeyFromObject
        (addFinalizer
          { s with
            Status := (s.Status.InitializeConditions now).MarkProvisioned now }).ObjectMeta) =
      Except.ok s :=
    (readSequence_congr hoth.2.1 hoth.1 _).trans hread
  obtain ⟨hrd, hch, hsu, hgf, _, _⟩ := updateStatus_post _ _ s now hreadA hup
  refine ⟨statusTarget rA
    (addFinalizer { s with Status := (s.Status.InitializeConditions now).MarkProvisioned now })
    s now, hrd, hnd, rfl, ?_, ?_⟩
  · intro j hj
    exact StepConverged_congr s j (readChannel_congr hgf hch _)
      (readSubscription_congr hgf hsu _) (hconv j (Nat.zero_le j) (by simpa using hj))
  · intro now2
    have hhost : firstChannelHostname
        (updateStatus rA
          (addFinalizer
            { s with Status := (s.Status.InitializeConditions now).MarkProvisioned now }) now).2
        (statusTarget rA
          (addFinalizer
            { s with Status := (s.Status.InitializeConditions now).MarkProvisioned now }) s
          now) =
        firstChannelHostname rA
          (addFinalizer
            { s with Status := (s.Status.InitializeConditions now).MarkProvisioned now }) :=
      firstChannelHostname_congr _ _ (readChannel_congr hgf hch _)
    rw [hhost]
    exact status_repeat s.Status now now2 _

theorem UpdateSequence_succeeds (c : Client) (obj old : Sequence)
    (hf : c.updateFault ResourceKind.sequence (ObjectKeyFromObject obj.ObjectMeta) = none)
    (hold : c.readSequence (ObjectKeyFromObject obj.ObjectMeta) = Except.ok old) :
    (c.UpdateSequence obj).1 = none := by
  unfold Client.UpdateSequence
  simp only [hf, (readSequence_ok hold).2]

/-- When the stored copy differs from what `updateStatus` wants and the store accepts the
update, `updateStatus` issues two reads and one update, and the store then holds what it
wanted. -/
theorem updateStatus_writes (r : Client) (sequence fresh : Sequence) (now : Nat)
    (hread : r.readSequence (ObjectKeyFromObject sequence.ObjectMeta) = Except.ok fresh)
    (hne : statusTarget r sequence fresh now ≠ fresh)
    (hupd : r.updateFault ResourceKind.sequence (ObjectKeyFromObject sequence.ObjectMeta) =
      none) :
    (updateStatus r sequence now).1 = Except.ok (statusTarget r sequence fresh now) ∧
      (updateStatus r sequence now).2.readSequence (ObjectKeyFromObject sequence.ObjectMeta) =
        Except.ok (statusTarget r sequence fresh now) ∧
      (updateStatus r sequence now).2.log =
        r.log ++ [Op.get ResourceKind.sequence (ObjectKeyFromObject sequence.ObjectMeta),
          Op.get ResourceKind.channel (stepKey sequence 0),
          Op.updateSequence (statusTarget r sequence fresh now)] ∧
      (updateStatus r sequence now).2.channels = r.channels ∧
      (updateStatus r sequence now).2.subscriptions = r.subscriptions := by
  have hkey : ObjectKeyFromObject fresh.ObjectMeta = ObjectKeyFromObject sequence.ObjectMeta :=
    lookup_key Sequence.ObjectMeta r.sequences _ fresh (readSequence_ok hread).2
  have hkt : ObjectKeyFromObject (statusTarget r sequence fresh now).ObjectMeta =
      ObjectKeyFromObject sequence.ObjectMeta := hkey
  rw [updateStatus_eq r sequence fresh now hread, if_neg hne]
  have hc : ∀ c : Client, c.readSequence (ObjectKeyFromObject sequence.ObjectMeta) =
        Except.ok fresh →
      c.updateFault ResourceKind.sequence (ObjectKeyFromObject sequence.ObjectMeta) = none →
      (c.UpdateSequence (statusTarget r sequence fresh now)).1 = none ∧
        (c.UpdateSequence (statusTarget r sequence fresh now)).2.readSequence
          (ObjectKeyFromObject sequence.ObjectMeta) =
          Except.ok (statusTarget r sequence fresh now) := by
    intro c h1 h2
    rw [← hkt] at h1 h2 ⊢
    have hs := UpdateSequence_succeeds c _ fresh h2 h1
    exact ⟨hs, UpdateSequence_read c _ fresh h1 hs⟩
  have h := hc
    ((r.record (Op.get ResourceKind.sequence (ObjectKeyFromObject sequence.ObjectMeta))).record
      (Op.get ResourceKind.channel (stepKey sequence 0)))
    ((readSequence_congr rfl rfl _).trans hread) hupd
  have hlog := UpdateSequence_log
    ((r.record (Op.get ResourceKind.sequence (ObjectKeyFromObject sequence.ObjectMeta))).record
      (Op.get ResourceKind.channel (stepKey sequence 0))) (statusTarget r sequence fresh now)
  have hch := UpdateSequence_channels
    ((r.record (Op.get ResourceKind.sequence (ObjectKeyFromObject sequence.ObjectMeta))).record
      (Op.get ResourceKind.channel (stepKey sequence 0))) (statusTarget r sequence fresh now)
  have hsu := UpdateSequence_subscriptions
    ((r.record (Op.get ResourceKind.sequence (ObjectKeyFromObject sequence.ObjectMeta))).record
      (Op.get ResourceKind.channel (stepKey sequence 0))) (statusTarget r sequence fresh now)
  cases hu : ((r.record
      (Op.get ResourceKind.sequence (ObjectKeyFromObject sequence.ObjectMeta))).record
      (Op.get ResourceKind.channel (stepKey sequence 0))).UpdateSequence
      (statusTarget r sequence fresh now) with
  | mk e r3 =>
    rw [hu] at h hlog hch hsu
    obtain ⟨he, hrd⟩ := h
    simp only at he hrd hlog hch hsu
    subst he
    simp only
    refine ⟨trivial, hrd, ?_, hch, hsu⟩
    rw [hlog]
    simp only [record_log, List.append_assoc, List.cons_append, List.nil_append]

/-! ### Claims on repeated runs and on deletion -/

/-- C6: when a run of `Reconcile` returns nil, a second run for the same key on the store that
the first run left returns nil as well and issues no create and no update: the writes in the
log are those of the first run, and the store holds what it held. -/
theorem C6_second_run_writes_nothing (r : Client) (request : ObjectKey) (now now2 : Nat)
    (hok : (Reconcile r request now).1 = none) :
    (Reconcile (Reconcile r request now).2 request now2).1 = none ∧
      writes (Reconcile (Reconcile r request now).2 request now2).2.log =
        writes (Reconcile r request now).2.log ∧
      SameStore (Reconcile r request now).2
        (Reconcile (Reconcile r request now).2 request now2).2 := by
  suffices h : (Reconcile (Reconcile r request now).2 request now2).1 = none ∧
      SameStore (Reconcile r request now).2
        (Reconcile (Reconcile r request now).2 request now2).2 from ⟨h.1, h.2.log, h.2⟩
  cases hread : r.readSequence request with
  | error err =>
    have h1 := Reconcile_of_error r request now err hread
    rw [h1] at hok ⊢
    simp only at hok ⊢
    have hread2 : (r.record (Op.get ResourceKind.sequence request)).readSequence request =
        Except.error err := (readSequence_congr rfl rfl _).trans hread
    rw [Reconcile_of_error _ request now2 err hread2]
    exact ⟨hok, SameStore.record_get _ _ _⟩
  | ok s =>
    by_cases hnd : s.ObjectMeta.DeletionTimestamp = none
    · obtain ⟨s1, hr1, hnd1, hfin1, hconv1, hst1⟩ := Reconcile_settles r request now s hread hnd hok
      refine Reconcile_settled _ request now2 s1 hr1 hnd1 hconv1 ?_ (hst1 now2)
      rw [hfin1]
      exact addFinalizer_repeat _
    · obtain ⟨s1, hr1, hd1, hfin1, hst1⟩ :=
        Reconcile_settles_deleted r request now s hread hnd hok
      refine Reconcile_settled_deleted _ request now2 s1 hr1 hd1 ?_ (hst1 now2)
      rw [hfin1]
      exact removeFinalizer_repeat _

/-- Witness of C6: two runs on `demoSequence`, starting from a store that holds nothing else. -/
theorem C6_second_run_writes_nothing_witness :
    (Reconcile demoClient { Namespace := "ns", Name := "s" } 5).1 = none ∧
      (writes (Reconcile demoClient { Namespace := "ns", Name := "s" } 5).2.log).length = 5 ∧
      writes
          (Reconcile (Reconcile demoClient { Namespace := "ns", Name := "s" } 5).2
            { Namespace := "ns", Name := "s" } 7).2.log =
        writes (Reconcile demoClient { Namespace := "ns", Name := "s" } 5).2.log :=
  ⟨by decide, by decide,
    (C6_second_run_writes_nothing demoClient { Namespace := "ns", Name := "s" } 5 7
      (by decide)).2.1⟩

/-- C8: for a stored Sequence whose deletion timestamp is set and whose finalizers contain the
token of the controller, in a store that accepts the update of the Sequence, `Reconcile`
returns nil; the Sequence stored afterwards has the finalizers it had, as a sorted set, without
the token; the calls issued are three reads and the update of the Sequence, none of them a
create or update of a channel or subscription, whatever the steps of the Sequence. -/
theorem C8_deleted_sequence (r : Client) (request : ObjectKey) (now : Nat) (sequence : Sequence)
    (hread : r.readSequence request = Except.ok sequence)
    (hdel : sequence.ObjectMeta.DeletionTimestamp ≠ none)
    (htok : finalizerName ∈ sequence.ObjectMeta.Finalizers)
    (hupd : r.updateFault ResourceKind.sequence request = none) :
    (Reconcile r request now).1 = none ∧
      (∃ stored, (Reconcile r request now).2.readSequence request = Except.ok stored ∧
        finalizerName ∉ stored.ObjectMeta.Finalizers ∧
        (∀ f, f ≠ finalizerName →
          (f ∈ stored.ObjectMeta.Finalizers ↔ f ∈ sequence.ObjectMeta.Finalizers)) ∧
        (Reconcile r request now).2.log =
          r.log ++ [Op.get ResourceKind.sequence request, Op.get ResourceKind.sequence request,
            Op.get ResourceKind.channel (stepKey sequence 0), Op.updateSequence stored]) ∧
      (∀ op ∈ (Reconcile r request now).2.log, op ∈ r.log ∨ op.isChildWrite = false) ∧
      (Reconcile r request now).2.channels = r.channels ∧
      (Reconcile r request now).2.subscriptions = r.subscriptions := by
  have hkey : ObjectKeyFromObject sequence.ObjectMeta = request :=
    lookup_key Sequence.ObjectMeta r.sequences _ sequence (readSequence_ok hread).2
  subst hkey
  have hreadA : (r.record
      (Op.get ResourceKind.sequence (ObjectKeyFromObject sequence.ObjectMeta))).readSequence
      (ObjectKeyFromObject
        (removeFinalizer
          { sequence with Status := sequence.Status.InitializeConditions now }).ObjectMeta) =
      Except.ok sequence :=
    (readSequence_congr rfl rfl _).trans hread
  have hnotin : finalizerName ∉
      (removeFinalizer
        { sequence with
          Status := sequence.Status.InitializeConditions now }).ObjectMeta.Finalizers := by
    simp [removeFinalizer, mem_setList]
  have hne : statusTarget
      (r.record (Op.get ResourceKind.sequence (ObjectKeyFromObject sequence.ObjectMeta)))
      (removeFinalizer { sequence with Status := sequence.Status.InitializeConditions now })
      sequence now ≠ sequence := by
    intro he
    apply hnotin
    have := congrArg (fun s => s.ObjectMeta.Finalizers) he
    simp only [statusTarget] at this
    rw [this]
    exact htok
  obtain ⟨hres, hrd, hlog, hch, hsu⟩ := updateStatus_writes
    (r.record (Op.get ResourceKind.sequence (ObjectKeyFromObject sequence.ObjectMeta)))
    (removeFinalizer { sequence with Status := sequence.Status.InitializeConditions now })
    sequence now hreadA hne hupd
  rw [Reconcile_of_read r _ now sequence hread, reconcile_deleted _ sequence now hdel]
  simp only
  cases hu : updateStatus
      (r.record (Op.get ResourceKind.sequence (ObjectKeyFromObject sequence.ObjectMeta)))
      (removeFinalizer { sequence with Status := sequence.Status.InitializeConditions now })
      now with
  | mk res r3 =>
    rw [hu] at hres hrd hlog hch hsu
    simp only at hres hrd hlog hch hsu
    subst hres
    simp only
    have hlog2 : r3.log =
        r.log ++ [Op.get ResourceKind.sequence (ObjectKeyFromObject sequence.ObjectMeta),
          Op.get ResourceKind.sequence (ObjectKeyFromObject sequence.ObjectMeta),
          Op.get ResourceKind.channel (stepKey sequence 0),
          Op.updateSequence
            (statusTarget
              (r.record
                (Op.get ResourceKind.sequence (ObjectKeyFromObject sequence.ObjectMeta)))
              (removeFinalizer
                { sequence with Status := sequence.Status.InitializeConditions now })
              sequence now)] := by
      rw [hlog]
      simp only [record_log, List.append_assoc, List.cons_append, List.nil_append]
      rfl
    refine ⟨trivial, ⟨_, hrd, hnotin, ?_, hlog2⟩, ?_, hch, hsu⟩
    · intro f hf
      simp [statusTarget, removeFinalizer, mem_setList, hf]
    · intro op hop
      rw [hlog2] at hop
      rcases List.mem_append.1 hop with h | h
      · exact Or.inl h
      · right
        simp only [List.mem_cons, List.mem_singleton, List.not_mem_nil, or_false] at h
        rcases h with rfl | rfl | rfl | rfl <;> rfl

/-- Witness of C8: `deletedSequence`, which has two steps, in a store that holds nothing else. -/
theorem C8_deleted_sequence_witness :
    (Reconcile { sequences := [deletedSequence] } { Namespace := "ns", Name := "s" } 0).1 =
        none ∧
      (Reconcile { sequences := [deletedSequence] }
          { Namespace := "ns", Name := "s" } 0).2.sequences.map
          (fun s => s.ObjectMeta.Finalizers) = [["other-controller"]] ∧
      (Reconcile { sequences := [deletedSequence] }
          { Namespace := "ns", Name := "s" } 0).2.channels = [] :=
  ⟨(C8_deleted_sequence { sequences := [deletedSequence] } { Namespace := "ns", Name := "s" } 0
      deletedSequence rfl (by decide) (by decide) rfl).1,
    by decide,
    (C8_deleted_sequence { sequences := [deletedSequence] } { Namespace := "ns", Name := "s" } 0
      deletedSequence rfl (by decide) (by decide) rfl).2.2.2.1⟩

/-! ### Claims on the finalizers -/

theorem nodup_setList (l : List String) : (setList l).Nodup :=
  (List.perm_insertionSort strLE l.dedup).nodup_iff.2 (List.nodup_dedup l)

theorem sorted_setList (l : List String) : (setList l).Sorted strLE :=
  List.sorted_insertionSort strLE l.dedup

/-- A sorted list without duplicates is the list of its set. -/
theorem setList_fixed (l : List String) (hs : l.Sorted strLE) (hn : l.Nodup) : setList l = l := by
  unfold setList
  rw [hn.dedup]
  exact List.Sorted.insertionSort_eq hs

/-- C12 (as amended): when the finalizers already contain the token, `addFinalizer` leaves
their members as they are, and leaves the list itself as it is when it is sorted and without
duplicates; when the finalizers do not contain the token, `removeFinalizer` leaves their
members as they are, and leaves the list itself as it is when it is sorted and without
duplicates. -/
theorem C12_finalizer_noop (seq : Sequence) :
    (finalizerName ∈ seq.ObjectMeta.Finalizers →
        (∀ f, f ∈ (addFinalizer seq).ObjectMeta.Finalizers ↔ f ∈ seq.ObjectMeta.Finalizers) ∧
          (seq.ObjectMeta.Finalizers.Sorted strLE → seq.ObjectMeta.Finalizers.Nodup →
            addFinalizer seq = seq)) ∧
      (finalizerName ∉ seq.ObjectMeta.Finalizers →
        (∀ f, f ∈ (removeFinalizer seq).ObjectMeta.Finalizers ↔
            f ∈ seq.ObjectMeta.Finalizers) ∧
          (seq.ObjectMeta.Finalizers.Sorted strLE → seq.ObjectMeta.Finalizers.Nodup →
            removeFinalizer seq = seq)) := by
  constructor
  · intro htok
    have hset : setList (seq.ObjectMeta.Finalizers ++ [finalizerName]) =
        setList seq.ObjectMeta.Finalizers := by
      apply setList_congr
      intro x
      simp only [List.mem_append, List.mem_singleton]
      constructor
      · rintro (h | rfl)
        · exact h
        · exact htok
      · exact Or.inl
    refine ⟨?_, ?_⟩
    · intro f
      simp only [addFinalizer, hset, mem_setList]
    · intro hs hn
      simp only [addFinalizer, hset, setList_fixed _ hs hn]
  · intro htok
    have hfilter : seq.ObjectMeta.Finalizers.filter (fun f => decide (f ≠ finalizerName)) =
        seq.ObjectMeta.Finalizers := by
      rw [List.filter_eq_self]
      intro a ha
      have : a ≠ finalizerName := fun h => htok (h ▸ ha)
      simpa using this
    refine ⟨?_, ?_⟩
    · intro f
      simp only [removeFinalizer, hfilter, mem_setList]
    · intro hs hn
      simp only [removeFinalizer, hfilter, setList_fixed _ hs hn]

/-- Witness of C12: finalizers that are sorted and hold the token; finalizers that are sorted
and do not hold it. -/
theorem C12_finalizer_noop_witness :
    addFinalizer finalizedSequence = finalizedSequence ∧
      removeFinalizer demoSequence = demoSequence :=
  ⟨((C12_finalizer_noop finalizedSequence).1 (by decide)).2 (by decide) (by decide),
    ((C12_finalizer_noop demoSequence).2 (by decide)).2 (by decide) (by decide)⟩

/-- C12 (counterexample): finalizers that hold the token out of order are reordered by
`addFinalizer`, and finalizers out of order that do not hold the token are reordered by
`removeFinalizer`: the list is not left unchanged. -/
theorem C12_list_reordered :
    finalizerName ∈ unsortedSequence.ObjectMeta.Finalizers ∧
      unsortedSequence.ObjectMeta.Finalizers = ["sequence-controller", "a"] ∧
      (addFinalizer unsortedSequence).ObjectMeta.Finalizers = ["a", "sequence-controller"] ∧
      finalizerName ∉ foreignSequence.ObjectMeta.Finalizers ∧
      foreignSequence.ObjectMeta.Finalizers = ["b", "a"] ∧
      (removeFinalizer foreignSequence).ObjectMeta.Finalizers = ["a", "b"] := by
  decide

/-- C13: the finalizers that `addFinalizer` leaves are the members of the list it found and the
token; the finalizers that `removeFinalizer` leaves are the members of the list it found other
than the token; both lists are without duplicates, whatever the list found. -/
theorem C13_finalizer_set (seq : Sequence) :
    (∀ f, f ∈ (addFinalizer seq).ObjectMeta.Finalizers ↔
        f ∈ seq.ObjectMeta.Finalizers ∨ f = finalizerName) ∧
      (∀ f, f ∈ (removeFinalizer seq).ObjectMeta.Finalizers ↔
        f ∈ seq.ObjectMeta.Finalizers ∧ f ≠ finalizerName) ∧
      (addFinalizer seq).ObjectMeta.Finalizers.Nodup ∧
      (removeFinalizer seq).ObjectMeta.Finalizers.Nodup := by
  refine ⟨?_, ?_, nodup_setList _, nodup_setList _⟩
  · intro f
    simp only [addFinalizer, mem_setList, List.mem_append, List.mem_singleton]
  · intro f
    simp only [removeFinalizer, mem_setList, List.mem_filter, decide_eq_true_eq]

/-! ### Claims on the conditions -/

theorem statusOf_SetCondition_same (now : Nat) (new : Condition) (conds : List Condition) :
    statusOf (seqCondSet.SetCondition now new conds) new.Typ = some new.Status := by
  unfold statusOf
  rw [GetCondition_SetCondition_same]
  rfl

theorem statusOf_SetCondition_other (now : Nat) (new : Condition) (conds : List Condition)
    (t : String) (ht : t ≠ new.Typ) :
    statusOf (seqCondSet.SetCondition now new conds) t = statusOf conds t := by
  unfold statusOf
  rw [GetCondition_SetCondition_other seqCondSet now new conds t ht]

theorem IsTrue_iff_statusOf (conds : List Condition) (t : String) :
    IsTrue (seqCondSet.GetCondition conds t) = true ↔
      statusOf conds t = some ConditionStatus.True := by
  unfold statusOf IsTrue
  cases seqCondSet.GetCondition conds t with
  | none => simp
  | some c => simp

/-- The method `IsReady` answers true exactly when both declared conditions are stored True. -/
theorem IsReady_iff (ss : SequenceStatus) :
    ss.IsReady = true ↔
      statusOf ss.Conditions "Provisioned" = some ConditionStatus.True ∧
        statusOf ss.Conditions "Addressable" = some ConditionStatus.True := by
  unfold SequenceStatus.IsReady ConditionSet.IsHappy
  rw [seqCondSet_dependents]
  simp only [List.all_cons, List.all_nil, Bool.and_true, Bool.and_eq_true, IsTrue_iff_statusOf]

theorem statusOf_of_Holds {conds : List Condition} {t : String} {st : ConditionStatus}
    {reason message : String} (h : Holds conds t st reason message) :
    statusOf conds t = some st := by
  obtain ⟨ts, hts⟩ := h
  unfold statusOf
  rw [hts]
  rfl

theorem IsReady_false_of_Addressable_False (ss : SequenceStatus) {reason message : String}
    (h : Holds ss.Conditions "Addressable" ConditionStatus.False reason message) :
    ss.IsReady = false := by
  cases hr : ss.IsReady with
  | false => rfl
  | true =>
    have h2 := ((IsReady_iff ss).mp hr).2
    rw [statusOf_of_Holds h] at h2
    exact absurd h2 (by decide)

/-- The stored statuses after `MarkTrue` of Provisioned. -/
theorem statusOf_MarkTrue_Provisioned (now : Nat) (conds : List Condition) :
    statusOf (seqCondSet.MarkTrue now "Provisioned" conds) "Provisioned" =
        some ConditionStatus.True ∧
      statusOf (seqCondSet.MarkTrue now "Provisioned" conds) "Addressable" =
        statusOf conds "Addressable" ∧
      statusOf (seqCondSet.MarkTrue now "Provisioned" conds) "Ready" =
        if statusOf conds "Addressable" = some ConditionStatus.True then
          some ConditionStatus.True
        else statusOf conds "Ready" := by
  rw [MarkTrue_eq]
  have hp := statusOf_SetCondition_same now
    { Typ := "Provisioned", Status := ConditionStatus.True } conds
  have ha := statusOf_SetCondition_other now
    { Typ := "Provisioned", Status := ConditionStatus.True } conds "Addressable" (by decide)
  have hr := statusOf_SetCondition_other now
    { Typ := "Provisioned", Status := ConditionStatus.True } conds "Ready" (by decide)
  simp only [IsTrue_iff_statusOf, hp, ha, true_and]
  by_cases hA : statusOf conds "Addressable" = some ConditionStatus.True
  · rw [if_pos hA, if_pos hA]
    refine ⟨?_, ?_, ?_⟩
    · rw [statusOf_SetCondition_other _ _ _ _ (by decide)]
      exact hp
    · rw [statusOf_SetCondition_other _ _ _ _ (by decide)]
      exact ha
    · exact statusOf_SetCondition_same now { Typ := "Ready", Status := ConditionStatus.True } _
  · rw [if_neg hA, if_neg hA]
    exact ⟨hp, ha, hr⟩

/-- The stored statuses after `MarkTrue` of Addressable. -/
theorem statusOf_MarkTrue_Addressable (now : Nat) (conds : List Condition) :
    statusOf (seqCondSet.MarkTrue now "Addressable" conds) "Addressable" =
        some ConditionStatus.True ∧
      statusOf (seqCondSet.MarkTrue now "Addressable" conds) "Provisioned" =
        statusOf conds "Provisioned" ∧
      statusOf (seqCondSet.MarkTrue now "Addressable" conds) "Ready" =
        if statusOf conds "Provisioned" = some ConditionStatus.True then
          some ConditionStatus.True
        else statusOf conds "Ready" := by
  rw [MarkTrue_eq]
  have ha := statusOf_SetCondition_same now
    { Typ := "Addressable", Status := ConditionStatus.True } conds
  have hp := statusOf_SetCondition_other now
    { Typ := "Addressable", Status := ConditionStatus.True } conds "Provisioned" (by decide)
  have hr := statusOf_SetCondition_other now
    { Typ := "Addressable", Status := ConditionStatus.True } conds "Ready" (by decide)
  simp only [IsTrue_iff_statusOf, hp, ha, and_true]
  by_cases hP : statusOf conds "Provisioned" = some ConditionStatus.True
  · rw [if_pos hP, if_pos hP]
    refine ⟨?_, ?_, ?_⟩
    · rw [statusOf_SetCondition_other _ _ _ _ (by decide)]
      exact ha
    · rw [statusOf_SetCondition_other _ _ _ _ (by decide)]
      exact hp
    · exact statusOf_SetCondition_same now { Typ := "Ready", Status := ConditionStatus.True } _
  · rw [if_neg hP, if_neg hP]
    exact ⟨ha, hp, hr⟩

/-- The stored statuses after `MarkFalse` of a declared condition. -/
theorem statusOf_MarkFalse (now : Nat) (t reason message : String) (conds : List Condition)
    (hdecl : t = "Provisioned" ∨ t = "Addressable") :
    statusOf (seqCondSet.MarkFalse now t reason message conds) t = some ConditionStatus.False ∧
      statusOf (seqCondSet.MarkFalse now t reason message conds) "Ready" =
        some ConditionStatus.False ∧
      ∀ u, u ≠ t → u ≠ "Ready" →
        statusOf (seqCondSet.MarkFalse now t reason message conds) u = statusOf conds u := by
  have h := Holds_MarkFalse now t reason message conds hdecl
  refine ⟨statusOf_of_Holds h.1, statusOf_of_Holds h.2, ?_⟩
  intro u hut hur
  rw [MarkFalse_eq now t reason message conds hdecl,
    statusOf_SetCondition_other _ _ _ _ hur, statusOf_SetCondition_other _ _ _ _ hut]

/-- The stored statuses after the step of `InitializeConditions` for one type. -/
theorem statusOf_InitializeCondition (now : Nat) (t u : String) (conds : List Condition) :
    statusOf (seqCondSet.InitializeCondition now t conds) u =
      if u = t ∧ statusOf conds t = none then some ConditionStatus.Unknown
      else statusOf conds u := by
  unfold ConditionSet.InitializeCondition
  cases hg : seqCondSet.GetCondition conds t with
  | none =>
    have hn : statusOf conds t = none := by unfold statusOf; rw [hg]; rfl
    by_cases hut : u = t
    · subst hut
      rw [if_pos ⟨rfl, hn⟩]
      exact statusOf_SetCondition_same now { Typ := u, Status := ConditionStatus.Unknown } conds
    · rw [if_neg (fun h => hut h.1)]
      exact statusOf_SetCondition_other _ _ _ _ hut
  | some c =>
    have hn : statusOf conds t ≠ none := by unfold statusOf; rw [hg]; simp
    rw [if_neg (fun h => hn h.2)]

theorem ReadyDerived_nil : ReadyDerived [] := by
  unfold ReadyDerived
  decide

theorem ReadyDerived_MarkTrue_Provisioned (now : Nat) (conds : List Condition)
    (h : ReadyDerived conds) : ReadyDerived (seqCondSet.MarkTrue now "Provisioned" conds) := by
  obtain ⟨hp, ha, hr⟩ := statusOf_MarkTrue_Provisioned now conds
  unfold ReadyDerived at h ⊢
  rw [hp, ha, hr]
  generalize statusOf conds "Provisioned" = p at h
  generalize statusOf conds "Addressable" = a at h ⊢
  generalize statusOf conds "Ready" = r at h ⊢
  by_cases hA : a = some ConditionStatus.True
  · subst hA
    simp
  · simp only [if_neg hA]
    constructor
    · constructor
      · intro hR
        exact absurd (h.1.1 hR).2 hA
      · intro hh
        exact absurd hh.2 hA
    · intro hf
      rcases hf with hf | hf
      · simp at hf
      · exact h.2 (Or.inr hf)

theorem ReadyDerived_MarkTrue_Addressable (now : Nat) (conds : List Condition)
    (h : ReadyDerived conds) : ReadyDerived (seqCondSet.MarkTrue now "Addressable" conds) := by
  obtain ⟨ha, hp, hr⟩ := statusOf_MarkTrue_Addressable now conds
  unfold ReadyDerived at h ⊢
  rw [hp, ha, hr]
  generalize statusOf conds "Provisioned" = p at h ⊢
  generalize statusOf conds "Addressable" = a at h
  generalize statusOf conds "Ready" = r at h ⊢
  by_cases hP : p = some ConditionStatus.True
  · subst hP
    simp
  · simp only [if_neg hP]
    constructor
    · constructor
      · intro hR
        exact absurd (h.1.1 hR).1 hP
      · intro hh
        exact absurd hh.1 hP
    · intro hf
      rcases hf with hf | hf
      · exact h.2 (Or.inl hf)
      · simp at hf

theorem ReadyDerived_MarkFalse (now : Nat) (t reason message : String) (conds : List Condition)
    (hdecl : t = "Provisioned" ∨ t = "Addressable") :
    ReadyDerived (seqCondSet.MarkFalse now t reason message conds) := by
  obtain ⟨ht, hr, _⟩ := statusOf_MarkFalse now t reason message conds hdecl
  unfold ReadyDerived
  rw [hr]
  constructor
  · constructor
    · intro h
      simp at h
    · intro h
      rcases hdecl with rfl | rfl
      · rw [ht] at h
        simp at h
      · rw [ht] at h
        simp at h
  · intro _
    rfl

theorem ReadyDerived_InitializeConditions (now : Nat) (conds : List Condition)
    (h : ReadyDerived conds) : ReadyDerived (seqCondSet.InitializeConditions now conds) := by
  unfold ReadyDerived at h ⊢
  rw [InitializeConditions_eq]
  simp only [statusOf_InitializeCondition]
  generalize statusOf conds "Provisioned" = p at h ⊢
  generalize statusOf conds "Addressable" = a at h ⊢
  generalize statusOf conds "Ready" = r at h ⊢
  have e1 : ("Ready" = "Addressable") = False := by decide
  have e2 : ("Ready" = "Provisioned") = False := by decide
  have e3 : ("Addressable" = "Provisioned") = False := by decide
  have e4 : ("Provisioned" = "Addressable") = False := by decide
  have e5 : ("Provisioned" = "Ready") = False := by decide
  have e6 : ("Addressable" = "Ready") = False := by decide
  simp only [e1, e2, e3, e4, e5, e6, false_and, if_false, true_and]
  cases p <;> cases a <;> cases r <;> simp_all

/-- Every status that the methods of `SequenceStatus` produce from the zero value stores
`Ready` as derived from the declared conditions. -/
theorem ReadyDerived_of_Reachable (ss : SequenceStatus) (h : Reachable ss) :
    ReadyDerived ss.Conditions := by
  induction h with
  | zero => exact ReadyDerived_nil
  | initializeConditions ss now _ ih => exact ReadyDerived_InitializeConditions now _ ih
  | markProvisioned ss now _ ih => exact ReadyDerived_MarkTrue_Provisioned now _ ih
  | markNotProvisioned ss now reason message _ _ =>
    exact ReadyDerived_MarkFalse now "Provisioned" reason message _ (Or.inl rfl)
  | setAddress ss now hostname _ ih =>
    by_cases hh : hostname = ""
    · subst hh
      rw [SetAddress_empty]
      exact ReadyDerived_MarkFalse now "Addressable" _ _ _ (Or.inr rfl)
    · rw [SetAddress_nonempty _ _ _ hh]
      exact ReadyDerived_MarkTrue_Addressable now _ ih

/-- C16: `SetAddress` stores the hostname it is given; for the empty hostname Addressable is then
False with reason emptyHostname, and so is `Ready`, and `IsReady` is false; for another hostname
Addressable is then True.  It is a total function of the status and the hostname. -/
theorem C16_SetAddress (ss : SequenceStatus) (now : Nat) (hostname : String) :
    (ss.SetAddress now hostname).Address.Hostname = hostname ∧
      (hostname = "" →
        Holds (ss.SetAddress now hostname).Conditions "Addressable" ConditionStatus.False
            "emptyHostname" "hostname is the empty string" ∧
          Holds (ss.SetAddress now hostname).Conditions "Ready" ConditionStatus.False
            "emptyHostname" "hostname is the empty string" ∧
          (ss.SetAddress now hostname).IsReady = false) ∧
      (hostname ≠ "" →
        Holds (ss.SetAddress now hostname).Conditions "Addressable" ConditionStatus.True
          "" "") := by
  refine ⟨?_, ?_, ?_⟩
  · by_cases hh : hostname = ""
    · subst hh
      rw [SetAddress_empty]
    · rw [SetAddress_nonempty _ _ _ hh]
  · intro hh
    subst hh
    rw [SetAddress_empty]
    have h := Holds_MarkFalse now "Addressable" "emptyHostname" "hostname is the empty string"
      ss.Conditions (Or.inr rfl)
    exact ⟨h.1, h.2, IsReady_false_of_Addressable_False _ h.1⟩
  · intro hh
    rw [SetAddress_nonempty _ _ _ hh]
    exact Holds_MarkTrue_same now "Addressable" ss.Conditions (by decide)

/-- Witness of C16: the two cases of the test of `SetAddress`, on the zero status. -/
theorem C16_SetAddress_witness :
    (statusOf (({} : SequenceStatus).SetAddress 0 "").Conditions "Addressable" =
        some ConditionStatus.False ∧
      (({} : SequenceStatus).SetAddress 0 "").IsReady = false) ∧
      statusOf (({} : SequenceStatus).SetAddress 0 "test-domain").Conditions "Addressable" =
        some ConditionStatus.True :=
  ⟨⟨statusOf_of_Holds ((C16_SetAddress {} 0 "").2.1 rfl).1,
      ((C16_SetAddress {} 0 "").2.1 rfl).2.2⟩,
    statusOf_of_Holds ((C16_SetAddress {} 0 "test-domain").2.2 (by decide))⟩

/-- C17 (as amended): for every status, `IsReady` returns true if and only if Provisioned and
Addressable are both stored True.  For every status that the methods of `SequenceStatus`
produce from the zero value, `Ready` is stored True if and only if Provisioned and Addressable
are both stored True, and `Ready` is stored False if one of them is stored False. -/
theorem C17_ready_derivation (ss : SequenceStatus) :
    (ss.IsReady = true ↔
        statusOf ss.Conditions "Provisioned" = some ConditionStatus.True ∧
          statusOf ss.Conditions "Addressable" = some ConditionStatus.True) ∧
      (Reachable ss →
        (statusOf ss.Conditions "Ready" = some ConditionStatus.True ↔
            statusOf ss.Conditions "Provisioned" = some ConditionStatus.True ∧
              statusOf ss.Conditions "Addressable" = some ConditionStatus.True) ∧
          (statusOf ss.Conditions "Provisioned" = some ConditionStatus.False ∨
              statusOf ss.Conditions "Addressable" = some ConditionStatus.False →
            statusOf ss.Conditions "Ready" = some ConditionStatus.False)) :=
  ⟨IsReady_iff ss, fun h => ReadyDerived_of_Reachable ss h⟩

/-- Witness of C17: the two cases of the test of `IsReady`, and the stored `Ready` in them. -/
theorem C17_ready_derivation_witness :
    (((({} : SequenceStatus).MarkProvisioned 0).SetAddress 0 "foo.bar").IsReady = true ∧
        statusOf ((({} : SequenceStatus).MarkProvisioned 0).SetAddress 0 "foo.bar").Conditions
          "Ready" = some ConditionStatus.True) ∧
      (((({} : SequenceStatus).MarkNotProvisioned 0 "NotProvisioned" "testing").SetAddress 0
          "foo.bar").IsReady = false ∧
        statusOf ((({} : SequenceStatus).MarkNotProvisioned 0 "NotProvisioned"
          "testing").SetAddress 0 "foo.bar").Conditions "Ready" = some ConditionStatus.False) := by
  have h1 := C17_ready_derivation
    ((({} : SequenceStatus).MarkProvisioned 0).SetAddress 0 "foo.bar")
  have h2 := C17_ready_derivation
    ((({} : SequenceStatus).MarkNotProvisioned 0 "NotProvisioned" "testing").SetAddress 0
      "foo.bar")
  have r1 := h1.2
    (Reachable.setAddress _ 0 "foo.bar" (Reachable.markProvisioned _ 0 Reachable.zero))
  have r2 := h2.2
    (Reachable.setAddress _ 0 "foo.bar"
      (Reachable.markNotProvisioned _ 0 "NotProvisioned" "testing" Reachable.zero))
  refine ⟨⟨h1.1.mpr (by decide), r1.1.mpr (by decide)⟩, ?_, r2.2 (Or.inl (by decide))⟩
  cases hr : ((({} : SequenceStatus).MarkNotProvisioned 0 "NotProvisioned" "testing").SetAddress
    0 "foo.bar").IsReady with
  | false => rfl
  | true => exact absurd (h2.1.mp hr).1 (by decide)

/-- C17 (counterexample): the case "one false" of the test of `InitializeConditions`: after
`InitializeConditions` on a status that holds Provisioned False and nothing else, the
conditions are Addressable Unknown, Provisioned False and `Ready` Unknown: `Ready` is not False
although Provisioned is.  And the case of the test of `SetAddress` with a hostname: on the zero
status the conditions are then Addressable True and nothing else: Provisioned is not True and
not False, and no `Ready` condition is stored, Unknown or other. -/
theorem C17_stored_ready_not_derived :
    (typesAndStatuses (oneFalseStatus.InitializeConditions 0).Conditions =
          [("Addressable", ConditionStatus.Unknown), ("Provisioned", ConditionStatus.False),
            ("Ready", ConditionStatus.Unknown)] ∧
        statusOf (oneFalseStatus.InitializeConditions 0).Conditions "Provisioned" =
          some ConditionStatus.False ∧
        statusOf (oneFalseStatus.InitializeConditions 0).Conditions "Ready" =
          some ConditionStatus.Unknown) ∧
      (typesAndStatuses (({} : SequenceStatus).SetAddress 0 "test-domain").Conditions =
          [("Addressable", ConditionStatus.True)] ∧
        (({} : SequenceStatus).SetAddress 0 "test-domain").GetCondition "Ready" = none) := by
  decide

/-! ### Claim on the immutable fields -/

/-- C18: `CheckImmutableFields` returns no error for a nil Sequence as the original, the error
"The provided original was not a Sequence" for an original of another type, and otherwise no
error exactly when the Spec of the original equals the current Spec; a Spec that differs, as one
with a step added or removed does, is rejected with "Immutable fields changed (-old +new)" on
the path "spec", the report of `cmp.Diff` being the details. -/
theorem C18_CheckImmutableFields (Diff : SequenceSpec → SequenceSpec → String)
    (hDiff : ∀ a b, Diff a b = "" ↔ a = b) (current : Sequence) :
    current.CheckImmutableFields Diff (Immutable.sequence none) = none ∧
      current.CheckImmutableFields Diff Immutable.other =
        some { Message := "The provided original was not a Sequence", Paths := [],
               Details := "" } ∧
      (∀ original : Sequence,
        (current.CheckImmutableFields Diff (Immutable.sequence (some original)) = none ↔
          original.Spec = current.Spec) ∧
        (original.Spec ≠ current.Spec →
          current.CheckImmutableFields Diff (Immutable.sequence (some original)) =
            some { Message := "Immutable fields changed (-old +new)", Paths := ["spec"],
                   Details := Diff original.Spec current.Spec }) ∧
        (original.Spec.Steps.length ≠ current.Spec.Steps.length →
          current.CheckImmutableFields Diff (Immutable.sequence (some original)) =
            some { Message := "Immutable fields changed (-old +new)", Paths := ["spec"],
                   Details := Diff original.Spec current.Spec })) := by
  refine ⟨rfl, rfl, ?_⟩
  intro original
  have hne : original.Spec ≠ current.Spec →
      current.CheckImmutableFields Diff (Immutable.sequence (some original)) =
        some { Message := "Immutable fields changed (-old +new)", Paths := ["spec"],
               Details := Diff original.Spec current.Spec } := by
    intro h
    have hd : Diff original.Spec current.Spec ≠ "" := fun hd => h ((hDiff _ _).mp hd)
    simp only [Sequence.CheckImmutableFields]
    rw [if_pos hd]
  refine ⟨?_, hne, ?_⟩
  · constructor
    · intro h
      by_contra hn
      rw [hne hn] at h
      exact Option.noConfusion h
    · intro h
      have hd : ¬ Diff original.Spec current.Spec ≠ "" := not_not.mpr ((hDiff _ _).mpr h)
      simp only [Sequence.CheckImmutableFields]
      rw [if_neg hd]
  · intro hlen
    exact hne (fun h => hlen (by rw [h]))

/-- Witness of C18: against `demoSequence`, a Sequence with one more step is refused in both
directions, and `demoSequence` itself is accepted. -/
theorem C18_CheckImmutableFields_witness :
    longerSequence.CheckImmutableFields plainDiff (Immutable.sequence (some demoSequence)) =
        some { Message := "Immutable fields changed (-old +new)", Paths := ["spec"],
               Details := "spec differs" } ∧
      demoSequence.CheckImmutableFields plainDiff (Immutable.sequence (some longerSequence)) =
        some { Message := "Immutable fields changed (-old +new)", Paths := ["spec"],
               Details := "spec differs" } ∧
      demoSequence.CheckImmutableFields plainDiff (Immutable.sequence (some demoSequence)) =
        none := by
  have hD : ∀ a b, plainDiff a b = "" ↔ a = b := by
    intro a b
    unfold plainDiff
    by_cases h : a = b
    · simp [h]
    · simp only [if_neg h, h, iff_false]
      decide
  exact ⟨((C18_CheckImmutableFields plainDiff hD longerSequence).2.2 demoSequence).2.2
      (by decide),
    ((C18_CheckImmutableFields plainDiff hD demoSequence).2.2 longerSequence).2.2 (by decide),
    ((C18_CheckImmutableFields plainDiff hD demoSequence).2.2 demoSequence).1.mpr rfl⟩

/-! ### Claims on the write of the status -/

theorem updateStatus_of_error (r : Client) (sequence : Sequence) (now : Nat) (err : StoreError)
    (hread : r.readSequence (ObjectKeyFromObject sequence.ObjectMeta) = Except.error err) :
    updateStatus r sequence now =
      (Except.error err,
        r.record (Op.get ResourceKind.sequence (ObjectKeyFromObject sequence.ObjectMeta))) := by
  have hkey : ({ Namespace := sequence.ObjectMeta.Namespace, Name := sequence.ObjectMeta.Name } :
      ObjectKey) = ObjectKeyFromObject sequence.ObjectMeta := rfl
  unfold updateStatus Client.GetSequence
  simp only [hkey, hread]

theorem statusTarget_eq_iff (r : Client) (sequence fresh : Sequence) (now : Nat) :
    statusTarget r sequence fresh now = fresh ↔
      fresh.ObjectMeta.Finalizers = sequence.ObjectMeta.Finalizers ∧
        fresh.Status = sequence.Status.SetAddress now (firstChannelHostname r sequence) := by
  unfold statusTarget
  constructor
  · intro h
    constructor
    · have := congrArg (fun s : Sequence => s.ObjectMeta.Finalizers) h
      exact this.symm
    · have := congrArg (fun s : Sequence => s.Status) h
      exact this.symm
  · rintro ⟨hf, hs⟩
    rw [← hf, ← hs]

theorem updateStatus_log (r : Client) (sequence fresh : Sequence) (now : Nat)
    (hread : r.readSequence (ObjectKeyFromObject sequence.ObjectMeta) = Except.ok fresh) :
    (updateStatus r sequence now).2.log =
      r.log ++ [Op.get ResourceKind.sequence (ObjectKeyFromObject sequence.ObjectMeta),
        Op.get ResourceKind.channel (stepKey sequence 0)] ++
        (if statusTarget r sequence fresh now = fresh then []
          else [Op.updateSequence (statusTarget r sequence fresh now)]) := by
  rw [updateStatus_eq r sequence fresh now hread]
  by_cases h : statusTarget r sequence fresh now = fresh
  · rw [if_pos h, if_pos h]
    simp [Client.record]
  · rw [if_neg h, if_neg h]
    have hl := UpdateSequence_log ((r.record
      (Op.get ResourceKind.sequence (ObjectKeyFromObject sequence.ObjectMeta))).record
      (Op.get ResourceKind.channel (stepKey sequence 0))) (statusTarget r sequence fresh now)
    rcases hu : ((r.record
      (Op.get ResourceKind.sequence (ObjectKeyFromObject sequence.ObjectMeta))).record
      (Op.get ResourceKind.channel (stepKey sequence 0))).UpdateSequence
      (statusTarget r sequence fresh now) with ⟨e, r3⟩
    rw [hu] at hl
    cases e <;> simpa [Client.record] using hl

/-- C14: `updateStatus` reads the Sequence and, when that read succeeds, the channel of step 0,
and then issues one update of the Sequence or none: none when the finalizers and the status of
the fresh copy equal the finalizers in memory and the status in memory (with the address set),
one otherwise.  The object of the update is the fresh copy with the finalizers and the status
replaced: its Spec, type and other metadata are those of the fresh copy.  When the read of the
Sequence fails nothing is written. -/
theorem C14_status_written_once (r : Client) (sequence : Sequence) (now : Nat) :
    (∀ err, r.readSequence (ObjectKeyFromObject sequence.ObjectMeta) = Except.error err →
      (updateStatus r sequence now).2.log =
        r.log ++ [Op.get ResourceKind.sequence (ObjectKeyFromObject sequence.ObjectMeta)]) ∧
    (∀ fresh, r.readSequence (ObjectKeyFromObject sequence.ObjectMeta) = Except.ok fresh →
      (fresh.ObjectMeta.Finalizers = sequence.ObjectMeta.Finalizers ∧
          fresh.Status = sequence.Status.SetAddress now (firstChannelHostname r sequence) →
        (updateStatus r sequence now).2.log =
          r.log ++ [Op.get ResourceKind.sequence (ObjectKeyFromObject sequence.ObjectMeta),
            Op.get ResourceKind.channel (stepKey sequence 0)]) ∧
      (¬ (fresh.ObjectMeta.Finalizers = sequence.ObjectMeta.Finalizers ∧
          fresh.Status = sequence.Status.SetAddress now (firstChannelHostname r sequence)) →
        (updateStatus r sequence now).2.log =
          r.log ++ [Op.get ResourceKind.sequence (ObjectKeyFromObject sequence.ObjectMeta),
            Op.get ResourceKind.channel (stepKey sequence 0),
            Op.updateSequence
              { fresh with
                ObjectMeta :=
                  { fresh.ObjectMeta with Finalizers := sequence.ObjectMeta.Finalizers },
                Status :=
                  sequence.Status.SetAddress now (firstChannelHostname r sequence) }])) ∧
    (∃ new, (updateStatus r sequence now).2.log = r.log ++ new ∧ (writes new).length ≤ 1 ∧
      ∀ op ∈ writes new, ∃ obj fresh,
        r.readSequence (ObjectKeyFromObject sequence.ObjectMeta) = Except.ok fresh ∧
          op = Op.updateSequence obj ∧ obj.Spec = fresh.Spec ∧ obj.TypeMeta = fresh.TypeMeta ∧
          obj.ObjectMeta =
            { fresh.ObjectMeta with Finalizers := sequence.ObjectMeta.Finalizers }) := by
  refine ⟨?_, ?_, ?_⟩
  · intro err hread
    rw [updateStatus_of_error r sequence now err hread]
    rfl
  · intro fresh hread
    have hl := updateStatus_log r sequence fresh now hread
    constructor
    · intro h
      rw [hl, if_pos ((statusTarget_eq_iff r sequence fresh now).mpr h), List.append_nil]
    · intro h
      rw [hl, if_neg (fun ht => h ((statusTarget_eq_iff r sequence fresh now).mp ht))]
      simp [statusTarget]
  · cases hread : r.readSequence (ObjectKeyFromObject sequence.ObjectMeta) with
    | error err =>
      refine ⟨_, by rw [updateStatus_of_error r sequence now err hread]; rfl, ?_, ?_⟩
      · simp [Eventing.writes, Op.isWrite]
      · intro op hop
        simp [Eventing.writes, Op.isWrite] at hop
    | ok fresh =>
      have hl := updateStatus_log r sequence fresh now hread
      rw [List.append_assoc] at hl
      refine ⟨_, hl, ?_, ?_⟩
      · by_cases h : statusTarget r sequence fresh now = fresh
        · simp [if_pos h, Eventing.writes, Op.isWrite]
        · simp [if_neg h, Eventing.writes, Op.isWrite]
      · intro op hop
        by_cases h : statusTarget r sequence fresh now = fresh
        · simp [if_pos h, Eventing.writes, Op.isWrite] at hop
        · simp only [if_neg h, Eventing.writes, Op.isWrite, List.filter, List.cons_append,
            List.nil_append, List.mem_singleton] at hop
          exact ⟨statusTarget r sequence fresh now, fresh, rfl, hop, rfl, rfl, rfl⟩
/-- Witness of C14: `demoSequence` in memory and in the store, no channel of step 0: the status
in memory gets Addressable False, so one update is issued, of the fresh copy with that status. -/
theorem C14_status_written_once_witness :
    (updateStatus demoClient demoSequence 0).2.log =
      [Op.get ResourceKind.sequence { Namespace := "ns", Name := "s" },
        Op.get ResourceKind.channel { Namespace := "ns", Name := "s-step-0" },
        Op.updateSequence
          { demoSequence with Status := demoSequence.Status.SetAddress 0 "" }] :=
  ((C14_status_written_once demoClient demoSequence 0).2.1 demoSequence rfl).2 (by decide)

theorem updateStatus_ok_eq (r : Client) (sequence fresh s1 : Sequence) (now : Nat)
    (hread : r.readSequence (ObjectKeyFromObject sequence.ObjectMeta) = Except.ok fresh)
    (hs1 : (updateStatus r sequence now).1 = Except.ok s1) :
    s1 = statusTarget r sequence fresh now := by
  rw [updateStatus_eq r sequence fresh now hread] at hs1
  by_cases h : statusTarget r sequence fresh now = fresh
  · rw [if_pos h] at hs1
    rw [h]
    exact (Except.ok.inj hs1).symm
  · rw [if_neg h] at hs1
    rcases hu : ((r.record
      (Op.get ResourceKind.sequence (ObjectKeyFromObject sequence.ObjectMeta))).record
      (Op.get ResourceKind.channel (stepKey sequence 0))).UpdateSequence
      (statusTarget r sequence fresh now) with ⟨e, r3⟩
    rw [hu] at hs1
    cases e with
    | none => exact (Except.ok.inj hs1).symm
    | some e => exact Except.noConfusion hs1

theorem updateStatus_succeeds (r : Client) (sequence fresh : Sequence) (now : Nat)
    (hread : r.readSequence (ObjectKeyFromObject sequence.ObjectMeta) = Except.ok fresh)
    (hupd : r.updateFault ResourceKind.sequence (ObjectKeyFromObject sequence.ObjectMeta) =
      none) :
    (updateStatus r sequence now).1 = Except.ok (statusTarget r sequence fresh now) := by
  by_cases h : statusTarget r sequence fresh now = fresh
  · rw [updateStatus_eq r sequence fresh now hread, if_pos h, h]
  · exact (updateStatus_writes r sequence fresh now hread h hupd).1

theorem SetAddress_hostname (ss : SequenceStatus) (now : Nat) (hostname : String) :
    (ss.SetAddress now hostname).Address.Hostname = hostname := by
  by_cases hh : hostname = ""
  · subst hh
    rw [SetAddress_empty]
  · rw [SetAddress_nonempty _ _ _ hh]

theorem stepName_zero (name : String) : stepName name 0 = name ++ "-step-0" := by
  unfold stepName
  rw [String.append_assoc]
  rfl

/-- C15: `updateStatus` reads the channel named after the Sequence with the suffix -step-0, in
the namespace of the Sequence.  When it succeeds, the Sequence it returns is the one stored, and
its status hostname is the hostname of that channel if the channel was read, and empty if the
read failed, whatever the error; whenever the hostname is empty, Addressable is False with
reason emptyHostname.  The answer of the read of the channel does not decide whether
`updateStatus` succeeds: it does whenever the Sequence is read and its update is not refused. -/
theorem C15_address_of_first_channel (r : Client) (sequence fresh : Sequence) (now : Nat)
    (hread : r.readSequence (ObjectKeyFromObject sequence.ObjectMeta) = Except.ok fresh) :
    stepKey sequence 0 =
        { Namespace := sequence.ObjectMeta.Namespace,
          Name := sequence.ObjectMeta.Name ++ "-step-0" } ∧
      (∀ s1, (updateStatus r sequence now).1 = Except.ok s1 →
        (updateStatus r sequence now).2.readSequence (ObjectKeyFromObject sequence.ObjectMeta) =
            Except.ok s1 ∧
          (∀ ch, r.readChannel (stepKey sequence 0) = Except.ok ch →
            s1.Status.Address.Hostname = ch.Status.Address.Hostname) ∧
          (∀ err, r.readChannel (stepKey sequence 0) = Except.error err →
            s1.Status.Address.Hostname = "") ∧
          (s1.Status.Address.Hostname = "" →
            Holds s1.Status.Conditions "Addressable" ConditionStatus.False "emptyHostname"
              "hostname is the empty string")) ∧
      (r.updateFault ResourceKind.sequence (ObjectKeyFromObject sequence.ObjectMeta) = none →
        ∃ s1, (updateStatus r sequence now).1 = Except.ok s1) := by
  refine ⟨?_, ?_, ?_⟩
  · unfold stepKey
    rw [stepName_zero]
  · intro s1 hs1
    have he := updateStatus_ok_eq r sequence fresh s1 now hread hs1
    have hok : ∀ err, (updateStatus r sequence now).1 ≠ Except.error err := by
      intro err h
      rw [hs1] at h
      exact Except.noConfusion h
    have hhost : s1.Status.Address.Hostname = firstChannelHostname r sequence := by
      rw [he]
      exact SetAddress_hostname sequence.Status now (firstChannelHostname r sequence)
    refine ⟨?_, ?_, ?_, ?_⟩
    · rw [he]
      exact (updateStatus_post r sequence fresh now hread hok).1
    · intro ch hch
      rw [hhost]
      unfold firstChannelHostname
      rw [hch]
    · intro err herr
      rw [hhost]
      unfold firstChannelHostname
      rw [herr]
    · intro hempty
      rw [hhost] at hempty
      rw [he]
      simp only [statusTarget]
      rw [hempty, SetAddress_empty]
      exact (Holds_MarkFalse now "Addressable" "emptyHostname" "hostname is the empty string"
        sequence.Status.Conditions (Or.inr rfl)).1
  · intro hupd
    exact ⟨_, updateStatus_succeeds r sequence fresh now hread hupd⟩

/-- Witness of C15: with the channel of step 0 of `demoSequence` stored with a hostname the
status gets that hostname; with no such channel it gets the empty hostname, and `updateStatus`
succeeds all the same. -/
theorem C15_address_of_first_channel_witness :
    (∃ s1, (updateStatus addressedClient demoSequence 0).1 = Except.ok s1 ∧
      s1.Status.Address.Hostname = "s-step-0.ns.svc.cluster.local") ∧
    (∃ s1, (updateStatus demoClient demoSequence 0).1 = Except.ok s1 ∧
      s1.Status.Address.Hostname = "") := by
  have h1 := C15_address_of_first_channel addressedClient demoSequence demoSequence 0 rfl
  have h2 := C15_address_of_first_channel demoClient demoSequence demoSequence 0 rfl
  obtain ⟨s1, hs1⟩ := h1.2.2 rfl
  obtain ⟨s2, hs2⟩ := h2.2.2 rfl
  exact ⟨⟨s1, hs1, (h1.2.1 s1 hs1).2.1 observedChannel rfl⟩,
    ⟨s2, hs2, (h2.2.1 s2 hs2).2.2.1 StoreError.notFound rfl⟩⟩

/-! ### Errors of a run -/

theorem reconcile_of_failure (r : Client) (sequence : Sequence) (now i : Nat) (err : StoreError)
    (rf : Client) (hnd : sequence.ObjectMeta.DeletionTimestamp = none)
    (hloop : provisionSteps r sequence sequence.Spec.Steps.length 0 = (some (i, err), rf)) :
    reconcile r sequence now =
      (some err,
        { sequence with
          Status :=
            (sequence.Status.InitializeConditions now).MarkNotProvisioned now "NotProvisioned"
              ("error while provisioning step " ++ toString i ++ ": " ++ err.Error) },
        rf) := by
  unfold reconcile
  simp only [hnd, ne_eq, not_true_eq_false, if_false, provisionSteps_initialized, hloop]

/-- The three ways `reconcile` ends. -/
theorem reconcile_cases (r : Client) (sequence : Sequence) (now : Nat) :
    (sequence.ObjectMeta.DeletionTimestamp ≠ none ∧
      reconcile r sequence now =
        (none, removeFinalizer { sequence with Status := sequence.Status.InitializeConditions now },
          r)) ∨
    (sequence.ObjectMeta.DeletionTimestamp = none ∧
      (provisionSteps r sequence sequence.Spec.Steps.length 0).1 = none ∧
      reconcile r sequence now =
        (none,
          addFinalizer
            { sequence with
              Status := (sequence.Status.InitializeConditions now).MarkProvisioned now },
          (provisionSteps r sequence sequence.Spec.Steps.length 0).2)) ∨
    (sequence.ObjectMeta.DeletionTimestamp = none ∧
      ∃ i err, (provisionSteps r sequence sequence.Spec.Steps.length 0).1 = some (i, err) ∧
        reconcile r sequence now =
          (some err,
            { sequence with
              Status :=
                (sequence.Status.InitializeConditions now).MarkNotProvisioned now
                  "NotProvisioned"
                  ("error while provisioning step " ++ toString i ++ ": " ++ err.Error) },
            (provisionSteps r sequence sequence.Spec.Steps.length 0).2)) := by
  by_cases hnd : sequence.ObjectMeta.DeletionTimestamp = none
  · cases hp : (provisionSteps r sequence sequence.Spec.Steps.length 0).1 with
    | none => exact Or.inr (Or.inl ⟨hnd, rfl, reconcile_converged r sequence now hnd hp⟩)
    | some ie =>
      obtain ⟨i, err⟩ := ie
      exact Or.inr (Or.inr ⟨hnd, i, err, rfl,
        reconcile_of_failure r sequence now i err _ hnd (Prod.ext hp rfl)⟩)
  · exact Or.inl ⟨hnd, reconcile_deleted r sequence now hnd⟩

/-- The method `reconcile` leaves the Sequences of the store and what the store refuses as they
were, and the Sequence it returns has the key, the steps and the deletion timestamp of the one
it was given. -/
theorem reconcile_others (r : Client) (sequence : Sequence) (now : Nat) :
    (reconcile r sequence now).2.2.sequences = r.sequences ∧
      (reconcile r sequence now).2.2.getFault = r.getFault ∧
      (reconcile r sequence now).2.2.createFault = r.createFault ∧
      (reconcile r sequence now).2.2.updateFault = r.updateFault ∧
      ObjectKeyFromObject (reconcile r sequence now).2.1.ObjectMeta =
        ObjectKeyFromObject sequence.ObjectMeta ∧
      stepKey (reconcile r sequence now).2.1 0 = stepKey sequence 0 := by
  have hoth := provisionSteps_others sequence sequence.Spec.Steps.length r 0
  rcases reconcile_cases r sequence now with ⟨_, h⟩ | ⟨_, _, h⟩ | ⟨_, i, err, _, h⟩
  · rw [h]
    exact ⟨rfl, rfl, rfl, rfl, rfl, rfl⟩
  · rw [h]
    exact ⟨hoth.1, hoth.2.1, hoth.2.2.1, hoth.2.2.2, rfl, rfl⟩
  · rw [h]
    exact ⟨hoth.1, hoth.2.1, hoth.2.2.1, hoth.2.2.2, rfl, rfl⟩

/-- The calls of `reconcile` are reads and creates and updates of the children of the steps. -/
theorem reconcile_ops (r : Client) (sequence : Sequence) (now : Nat) (P : Op → Prop)
    (hget : ∀ kind key, P (Op.get kind key))
    (hcc : ∀ ch, P (Op.createChannel ch))
    (hcs : ∀ su, P (Op.createSubscription su))
    (huc : ∀ ch, P (Op.updateChannel ch))
    (hus : ∀ su, P (Op.updateSubscription su)) :
    ∃ new, (reconcile r sequence now).2.2.log = r.log ++ new ∧ ∀ op ∈ new, P op := by
  have hloop := provisionSteps_ops sequence P
    (fun r i => reconcileStep_ops r sequence i P hget (hcc _) (hcs _) (fun _ => huc _)
      (fun _ => hus _))
    sequence.Spec.Steps.length r 0
  rcases reconcile_cases r sequence now with ⟨_, h⟩ | ⟨_, _, h⟩ | ⟨_, i, err, _, h⟩
  · rw [h]
    exact ⟨[], by simp, by simp⟩
  · rw [h]
    exact hloop
  · rw [h]
    exact hloop

theorem Reconcile_store (r : Client) (request : ObjectKey) (now : Nat) (sequence : Sequence)
    (hread : r.readSequence request = Except.ok sequence) :
    (Reconcile r request now).2 = (statusCall r request sequence now).2 := by
  rw [Reconcile_of_read r request now sequence hread]
  unfold statusCall
  cases updateStatus
    (reconcile (r.record (Op.get ResourceKind.sequence request)) sequence now).2.2
    (reconcile (r.record (Op.get ResourceKind.sequence request)) sequence now).2.1 now with
  | mk res r3 => cases res <;> rfl

theorem Reconcile_of_status_error (r : Client) (request : ObjectKey) (now : Nat)
    (sequence : Sequence) (e : StoreError)
    (hread : r.readSequence request = Except.ok sequence)
    (he : (statusCall r request sequence now).1 = Except.error e) :
    (Reconcile r request now).1 = some e := by
  rw [Reconcile_of_read r request now sequence hread]
  unfold statusCall at he
  cases hu : updateStatus
    (reconcile (r.record (Op.get ResourceKind.sequence request)) sequence now).2.2
    (reconcile (r.record (Op.get ResourceKind.sequence request)) sequence now).2.1 now with
  | mk res r3 =>
    rw [hu] at he
    cases res with
    | error e2 =>
      simp only at he
      rw [Except.error.inj he]
    | ok s1 => exact Except.noConfusion he

theorem Reconcile_of_status_ok (r : Client) (request : ObjectKey) (now : Nat)
    (sequence s1 : Sequence)
    (hread : r.readSequence request = Except.ok sequence)
    (hs : (statusCall r request sequence now).1 = Except.ok s1) :
    (Reconcile r request now).1 =
      (reconcile (r.record (Op.get ResourceKind.sequence request)) sequence now).1 := by
  rw [Reconcile_of_read r request now sequence hread]
  unfold statusCall at hs
  cases hu : updateStatus
    (reconcile (r.record (Op.get ResourceKind.sequence request)) sequence now).2.2
    (reconcile (r.record (Op.get ResourceKind.sequence request)) sequence now).2.1 now with
  | mk res r3 =>
    rw [hu] at hs
    cases res with
    | error e2 => exact Except.noConfusion hs
    | ok s2 => rfl

/-- The read of the Sequence that `updateStatus` makes in a run answers the Sequence that the
run read first. -/
theorem statusCall_read (r : Client) (request : ObjectKey) (now : Nat) (sequence : Sequence)
    (hread : r.readSequence request = Except.ok sequence) :
    (reconcile (r.record (Op.get ResourceKind.sequence request)) sequence now).2.2.readSequence
        (ObjectKeyFromObject
          (reconcile (r.record (Op.get ResourceKind.sequence request)) sequence
            now).2.1.ObjectMeta) =
      Except.ok sequence := by
  have hkey : ObjectKeyFromObject sequence.ObjectMeta = request :=
    lookup_key Sequence.ObjectMeta r.sequences _ sequence (readSequence_ok hread).2
  have hoth := reconcile_others (r.record (Op.get ResourceKind.sequence request)) sequence now
  rw [hoth.2.2.2.2.1, hkey]
  exact (readSequence_congr hoth.2.1 hoth.1 _).trans hread

theorem UpdateSequence_refused (c : Client) (obj : Sequence) (e : StoreError)
    (hf : c.updateFault ResourceKind.sequence (ObjectKeyFromObject obj.ObjectMeta) = some e) :
    (c.UpdateSequence obj).1 = some e := by
  unfold Client.UpdateSequence
  simp only [hf]

theorem updateStatus_refused (r : Client) (sequence fresh : Sequence) (now : Nat)
    (e : StoreError)
    (hread : r.readSequence (ObjectKeyFromObject sequence.ObjectMeta) = Except.ok fresh)
    (hne : statusTarget r sequence fresh now ≠ fresh)
    (hupd : r.updateFault ResourceKind.sequence (ObjectKeyFromObject sequence.ObjectMeta) =
      some e) :
    (updateStatus r sequence now).1 = Except.error e := by
  have hkey : ObjectKeyFromObject fresh.ObjectMeta = ObjectKeyFromObject sequence.ObjectMeta :=
    lookup_key Sequence.ObjectMeta r.sequences _ fresh (readSequence_ok hread).2
  have hkt : ObjectKeyFromObject (statusTarget r sequence fresh now).ObjectMeta =
      ObjectKeyFromObject sequence.ObjectMeta := hkey
  rw [updateStatus_eq r sequence fresh now hread, if_neg hne]
  have h := UpdateSequence_refused
    ((r.record (Op.get ResourceKind.sequence (ObjectKeyFromObject sequence.ObjectMeta))).record
      (Op.get ResourceKind.channel (stepKey sequence 0))) (statusTarget r sequence fresh now) e
    (by rw [hkt]; exact hupd)
  cases hu : ((r.record
      (Op.get ResourceKind.sequence (ObjectKeyFromObject sequence.ObjectMeta))).record
      (Op.get ResourceKind.channel (stepKey sequence 0))).UpdateSequence
      (statusTarget r sequence fresh now) with
  | mk e2 r3 =>
    rw [hu] at h
    simp only at h
    subst h
    rfl

theorem Holds_SetAddress_other (ss : SequenceStatus) (now : Nat) (hostname u : String)
    (st : ConditionStatus) (reason message : String) (hua : u ≠ "Addressable")
    (hur : u ≠ "Ready") (h : Holds ss.Conditions u st reason message) :
    Holds (ss.SetAddress now hostname).Conditions u st reason message := by
  by_cases hh : hostname = ""
  · subst hh
    rw [SetAddress_empty]
    exact Holds_MarkFalse_other now "Addressable" u _ _ _ st reason message (Or.inr rfl) hua hur h
  · rw [SetAddress_nonempty _ _ _ hh]
    exact Holds_MarkTrue_other now "Addressable" u _ st reason message hua hur h

theorem CreateChannel_record (c : Client) (op : Op) (obj : Channel) :
    ((c.record op).CreateChannel obj).1 = (c.CreateChannel obj).1 := by
  unfold Client.CreateChannel
  simp only [record_createFault, record_channels]
  split
  · rfl
  · split <;> rfl

theorem UpdateChannel_record (c : Client) (op : Op) (obj : Channel) :
    ((c.record op).UpdateChannel obj).1 = (c.UpdateChannel obj).1 := by
  unfold Client.UpdateChannel
  simp only [record_updateFault, record_channels]
  split
  · rfl
  · split <;> rfl

theorem CreateSubscription_record (c : Client) (op : Op) (obj : Subscription) :
    ((c.record op).CreateSubscription obj).1 = (c.CreateSubscription obj).1 := by
  unfold Client.CreateSubscription
  simp only [record_createFault, record_subscriptions]
  split
  · rfl
  · split <;> rfl

theorem UpdateSubscription_record (c : Client) (op : Op) (obj : Subscription) :
    ((c.record op).UpdateSubscription obj).1 = (c.UpdateSubscription obj).1 := by
  unfold Client.UpdateSubscription
  simp only [record_updateFault, record_subscriptions]
  split
  · rfl
  · split <;> rfl

/-- A refused write of the channel is the error of `reconcileChannel`. -/
theorem reconcileChannel_refused (r : Client) (channel : Channel) (e : StoreError)
    (h : ChannelWriteRefused r channel e) : (reconcileChannel r channel).1 = some e := by
  rw [reconcileChannel_cases]
  rcases h with ⟨hread, hc⟩ | ⟨hnc, obs, hread, hu⟩
  · rw [hread]
    simp only [IsNotFound, if_true]
    rw [CreateChannel_record]
    exact hc
  · rw [hread]
    simp only
    have hne : ¬ (channel.Spec.Provisioner = obs.Spec.Provisioner ∧
        channel.Spec.Arguments = obs.Spec.Arguments) :=
      fun hh => hnc ⟨obs, hread, hh.1, hh.2⟩
    rw [if_neg hne, UpdateChannel_record]
    exact hu

/-- A refused write of the subscription is the error of `reconcileSubscription`. -/
theorem reconcileSubscription_refused (r : Client) (subscription : Subscription)
    (e : StoreError) (h : SubscriptionWriteRefused r subscription e) :
    (reconcileSubscription r subscription).1 = some e := by
  rw [reconcileSubscription_cases]
  rcases h with ⟨hread, hc⟩ | ⟨hnc, obs, hread, hu⟩
  · rw [hread]
    simp only [IsNotFound, if_true]
    rw [CreateSubscription_record]
    exact hc
  · rw [hread]
    simp only
    have hne : ¬ (subscription.Spec.Channel = obs.Spec.Channel ∧
        subscription.Spec.Subscriber = obs.Spec.Subscriber ∧
        subscription.Spec.Reply = obs.Spec.Reply) :=
      fun hh => hnc ⟨obs, hread, hh.1, hh.2.1, hh.2.2⟩
    rw [if_neg hne, UpdateSubscription_record]
    exact hu

/-- A refused write of a child of step `i` is the error of `reconcileStep`. -/
theorem reconcileStep_refused (r : Client) (sequence : Sequence) (i : Nat) (e : StoreError)
    (hi : i < sequence.Spec.Steps.length) (h : ChildWriteRefused r sequence i e) :
    (reconcileStep r sequence i).1 = some e := by
  rw [reconcileStep_eq r sequence i hi]
  rcases h with hc | ⟨hok, hs⟩
  · have h1 := reconcileChannel_refused r _ e hc
    cases hch : reconcileChannel r (stepChannel sequence i) with
    | mk res r1 =>
      rw [hch] at h1
      simp only at h1
      subst h1
      rfl
  · have h2 := reconcileSubscription_refused _ _ e hs
    cases hch : reconcileChannel r (stepChannel sequence i) with
    | mk res r1 =>
      rw [hch] at hok h2
      simp only at hok h2
      subst hok
      exact h2

/-- C11: in a run that read the Sequence, an error of `updateStatus` is what `Reconcile` returns;
an update of the Sequence that the store refuses, a conflict included, is returned as that
error.  When the steps before step `i` converge and step `i` fails with `err`, `Reconcile` does
not return nil: it returns `err` when `updateStatus` succeeds, and then the Sequence stored has
Provisioned False with reason NotProvisioned and a message that names `i` and the error; and
`updateStatus` does succeed when the store does not refuse the update of the Sequence.  A create
or an update of the channel or of the subscription of step `i` that the store refuses with `e`
makes step `i` fail with `e`, so all of this holds of it, with `e` as the error. -/
theorem C11_failed_write_is_returned (r : Client) (request : ObjectKey) (now : Nat)
    (sequence : Sequence) (hread : r.readSequence request = Except.ok sequence) :
    (∀ e, (statusCall r request sequence now).1 = Except.error e →
      (Reconcile r request now).1 = some e) ∧
    (∀ e obj, r.updateFault ResourceKind.sequence request = some e →
      Op.updateSequence obj ∈ (Reconcile r request now).2.log.drop r.log.length →
      (Reconcile r request now).1 = some e) ∧
    (∀ i err, sequence.ObjectMeta.DeletionTimestamp = none →
      i < sequence.Spec.Steps.length →
      (provisionSteps (r.record (Op.get ResourceKind.sequence request)) sequence i 0).1 = none →
      (reconcileStep
        (provisionSteps (r.record (Op.get ResourceKind.sequence request)) sequence i 0).2
        sequence i).1 = some err →
      (Reconcile r request now).1 ≠ none ∧
        (∀ s1, (statusCall r request sequence now).1 = Except.ok s1 →
          (Reconcile r request now).1 = some err ∧
            (Reconcile r request now).2.readSequence request = Except.ok s1 ∧
            Holds s1.Status.Conditions "Provisioned" ConditionStatus.False "NotProvisioned"
              ("error while provisioning step " ++ toString i ++ ": " ++ err.Error)) ∧
        (r.updateFault ResourceKind.sequence request = none →
          ∃ s1, (statusCall r request sequence now).1 = Except.ok s1)) ∧
    (∀ i e, sequence.ObjectMeta.DeletionTimestamp = none →
      i < sequence.Spec.Steps.length →
      (provisionSteps (r.record (Op.get ResourceKind.sequence request)) sequence i 0).1 = none →
      ChildWriteRefused
        (provisionSteps (r.record (Op.get ResourceKind.sequence request)) sequence i 0).2
        sequence i e →
      (reconcileStep
          (provisionSteps (r.record (Op.get ResourceKind.sequence request)) sequence i 0).2
          sequence i).1 = some e ∧
        (Reconcile r request now).1 ≠ none ∧
        (∀ s1, (statusCall r request sequence now).1 = Except.ok s1 →
          (Reconcile r request now).1 = some e ∧
            (Reconcile r request now).2.readSequence request = Except.ok s1 ∧
            Holds s1.Status.Conditions "Provisioned" ConditionStatus.False "NotProvisioned"
              ("error while provisioning step " ++ toString i ++ ": " ++ e.Error)) ∧
        (r.updateFault ResourceKind.sequence request = none →
          ∃ s1, (statusCall r request sequence now).1 = Except.ok s1)) := by
  have hkey : ObjectKeyFromObject sequence.ObjectMeta = request :=
    lookup_key Sequence.ObjectMeta r.sequences _ sequence (readSequence_ok hread).2
  have hreadB := statusCall_read r request now sequence hread
  have hoth := reconcile_others (r.record (Op.get ResourceKind.sequence request)) sequence now
  have hA : ∀ e, (statusCall r request sequence now).1 = Except.error e →
      (Reconcile r request now).1 = some e :=
    fun e he => Reconcile_of_status_error r request now sequence e hread he
  have hC : ∀ i err, sequence.ObjectMeta.DeletionTimestamp = none →
      i < sequence.Spec.Steps.length →
      (provisionSteps (r.record (Op.get ResourceKind.sequence request)) sequence i 0).1 = none →
      (reconcileStep
        (provisionSteps (r.record (Op.get ResourceKind.sequence request)) sequence i 0).2
        sequence i).1 = some err →
      (Reconcile r request now).1 ≠ none ∧
        (∀ s1, (statusCall r request sequence now).1 = Except.ok s1 →
          (Reconcile r request now).1 = some err ∧
            (Reconcile r request now).2.readSequence request = Except.ok s1 ∧
            Holds s1.Status.Conditions "Provisioned" ConditionStatus.False "NotProvisioned"
              ("error while provisioning step " ++ toString i ++ ": " ++ err.Error)) ∧
        (r.updateFault ResourceKind.sequence request = none →
          ∃ s1, (statusCall r request sequence now).1 = Except.ok s1) := by
    intro i err hnd hi hbefore hfail
    have hloop := provisionSteps_first_failure sequence
      (r.record (Op.get ResourceKind.sequence request)) _ _ i sequence.Spec.Steps.length err hi
      (Prod.ext hbefore rfl) (Prod.ext hfail rfl)
    have hrun := reconcile_of_failure (r.record (Op.get ResourceKind.sequence request)) sequence
      now i err _ hnd hloop
    have hprov : Holds
        (reconcile (r.record (Op.get ResourceKind.sequence request)) sequence
          now).2.1.Status.Conditions "Provisioned" ConditionStatus.False "NotProvisioned"
        ("error while provisioning step " ++ toString i ++ ": " ++ err.Error) := by
      rw [hrun]
      simp only [SequenceStatus.MarkNotProvisioned, SequenceConditionProvisioned]
      rw [MarkFalse_eq _ _ _ _ _ (Or.inl rfl)]
      exact Holds_SetCondition_other _ _ _ _ _ _ _ (show "Provisioned" ≠ "Ready" by decide)
        (Holds_SetCondition_same _ _ _ _ _ _)
    have hres : (reconcile (r.record (Op.get ResourceKind.sequence request)) sequence now).1 =
        some err := by rw [hrun]
    refine ⟨?_, ?_, ?_⟩
    · cases hs : (statusCall r request sequence now).1 with
      | error e =>
        rw [hA e hs]
        exact Option.noConfusion
      | ok s1 =>
        rw [Reconcile_of_status_ok r request now sequence s1 hread hs, hres]
        exact Option.noConfusion
    · intro s1 hs
      refine ⟨by rw [Reconcile_of_status_ok r request now sequence s1 hread hs, hres], ?_, ?_⟩
      · rw [Reconcile_store r request now sequence hread]
        unfold statusCall at hs ⊢
        have he := updateStatus_ok_eq _ _ sequence s1 now hreadB hs
        have hok : ∀ e2, (updateStatus
            (reconcile (r.record (Op.get ResourceKind.sequence request)) sequence now).2.2
            (reconcile (r.record (Op.get ResourceKind.sequence request)) sequence now).2.1
            now).1 ≠ Except.error e2 := by
          intro e2 h2
          rw [hs] at h2
          exact Except.noConfusion h2
        have hpost := (updateStatus_post _ _ sequence now hreadB hok).1
        rw [hoth.2.2.2.2.1, hkey] at hpost
        rw [hpost, he]
      · unfold statusCall at hs
        rw [updateStatus_ok_eq _ _ sequence s1 now hreadB hs]
        exact Holds_SetAddress_other _ now _ "Provisioned" _ _ _ (by decide) (by decide) hprov
    · intro hupd
      refine ⟨_, updateStatus_succeeds _ _ sequence now hreadB ?_⟩
      rw [hoth.2.2.2.1, hoth.2.2.2.2.1, hkey]
      exact hupd
  refine ⟨hA, ?_, hC, ?_⟩
  · intro e obj hupd hmem
    apply hA
    obtain ⟨new, hlog, hP⟩ := reconcile_ops (r.record (Op.get ResourceKind.sequence request))
      sequence now (fun op => ∀ o, op ≠ Op.updateSequence o)
      (fun _ _ _ h => Op.noConfusion h) (fun _ _ h => Op.noConfusion h)
      (fun _ _ h => Op.noConfusion h) (fun _ _ h => Op.noConfusion h)
      (fun _ _ h => Op.noConfusion h)
    have hupdB : (reconcile (r.record (Op.get ResourceKind.sequence request)) sequence
        now).2.2.updateFault ResourceKind.sequence
        (ObjectKeyFromObject
          (reconcile (r.record (Op.get ResourceKind.sequence request)) sequence
            now).2.1.ObjectMeta) = some e := by
      rw [hoth.2.2.2.1, hoth.2.2.2.2.1, hkey]
      exact hupd
    rw [Reconcile_store r request now sequence hread] at hmem
    unfold statusCall at hmem ⊢
    have hl := updateStatus_log _ _ sequence now hreadB
    by_cases hne : statusTarget
        (reconcile (r.record (Op.get ResourceKind.sequence request)) sequence now).2.2
        (reconcile (r.record (Op.get ResourceKind.sequence request)) sequence now).2.1
        sequence now = sequence
    · exfalso
      rw [hl, if_pos hne, hlog, record_log] at hmem
      simp only [List.append_assoc, List.drop_left, List.mem_append, List.mem_cons,
        List.mem_singleton, List.not_mem_nil, or_false] at hmem
      rcases hmem with h | h | h | h
      · exact Op.noConfusion h
      · exact hP _ h obj rfl
      · exact Op.noConfusion h
      · exact Op.noConfusion h
    · exact updateStatus_refused _ _ sequence now e hreadB hne hupdB
  · intro i e hnd hi hbefore hw
    have hfail := reconcileStep_refused _ sequence i e hi hw
    exact ⟨hfail, hC i e hnd hi hbefore hfail⟩

/-- Witness of C11: the store refuses the create of the subscription of step 1 of
`demoSequence`: step 1 fails with that error, the run returns it and stores Provisioned False;
and a store that refuses the update of the Sequence as a conflict: the run returns the
conflict. -/
theorem C11_failed_write_is_returned_witness :
    ((reconcileStep
          (provisionSteps (quotaClient.record
            (Op.get ResourceKind.sequence { Namespace := "ns", Name := "s" })) demoSequence 1 0).2
          demoSequence 1).1 = some (StoreError.other "quota exceeded") ∧
      (Reconcile quotaClient { Namespace := "ns", Name := "s" } 0).1 =
        some (StoreError.other "quota exceeded") ∧
      ∃ s1, (Reconcile quotaClient { Namespace := "ns", Name := "s" } 0).2.readSequence
          { Namespace := "ns", Name := "s" } = Except.ok s1 ∧
        Holds s1.Status.Conditions "Provisioned" ConditionStatus.False "NotProvisioned"
          "error while provisioning step 1: quota exceeded") ∧
      (Reconcile conflictClient { Namespace := "ns", Name := "s" } 0).1 =
        some StoreError.conflict := by
  have hw : ChildWriteRefused
      (provisionSteps (quotaClient.record
        (Op.get ResourceKind.sequence { Namespace := "ns", Name := "s" })) demoSequence 1 0).2
      demoSequence 1 (StoreError.other "quota exceeded") :=
    Or.inr ⟨rfl, Or.inl ⟨rfl, rfl⟩⟩
  have h := (C11_failed_write_is_returned quotaClient { Namespace := "ns", Name := "s" } 0
    demoSequence rfl).2.2.2 1 (StoreError.other "quota exceeded") rfl (by decide) (by decide) hw
  obtain ⟨s1, hs1⟩ := h.2.2.2 rfl
  have h2 := h.2.2.1 s1 hs1
  exact ⟨⟨h.1, h2.1, s1, h2.2.1, h2.2.2⟩,
    (C11_failed_write_is_returned conflictClient { Namespace := "ns", Name := "s" } 0
      demoSequence rfl).1 StoreError.conflict rfl⟩

/-! ### The number of calls of a run -/

theorem Issues.nil (r : Client) : Issues r r 0 0 0 :=
  ⟨[], by simp, by simp, by simp [Eventing.writes], by simp⟩

theorem Issues.of_log (r t : Client) (op : Op) (h : t.log = r.log ++ [op]) :
    Issues r t (if op.isWrite then 0 else 1) (if op.isWrite then 1 else 0) 1 := by
  refine ⟨[op], h, ?_, ?_, by simp⟩
  · cases hw : op.isWrite <;> simp [Eventing.writes, hw]
  · cases hw : op.isWrite <;> simp [Eventing.writes, hw]

theorem Issues.get (r : Client) (kind : ResourceKind) (key : ObjectKey) :
    Issues r (r.record (Op.get kind key)) 1 0 1 :=
  Issues.of_log r _ (Op.get kind key) rfl

theorem Issues.andThen {r t u : Client} {g w lo g2 w2 lo2 : Nat} (h1 : Issues r t g w lo)
    (h2 : Issues t u g2 w2 lo2) : Issues r u (g + g2) (w + w2) (lo + lo2) := by
  obtain ⟨n1, e1, a1, b1, c1⟩ := h1
  obtain ⟨n2, e2, a2, b2, c2⟩ := h2
  refine ⟨n1 ++ n2, by rw [e2, e1, List.append_assoc], ?_, ?_, ?_⟩
  · simp only [Eventing.writes, List.filter_append, List.length_append] at a1 a2 ⊢
    omega
  · simp only [Eventing.writes, List.filter_append, List.length_append] at b1 b2 ⊢
    omega
  · simp only [List.length_append]
    omega

theorem Issues.mono {r t : Client} {g w lo g2 w2 lo2 : Nat} (h : Issues r t g w lo)
    (hg : g ≤ g2) (hw : w ≤ w2) (hlo : lo2 ≤ lo) : Issues r t g2 w2 lo2 := by
  obtain ⟨n, e, a, b, c⟩ := h
  exact ⟨n, e, by omega, by omega, by omega⟩

theorem Issues.congr {r t u : Client} {g w lo : Nat} (h : Issues r t g w lo)
    (hl : u.log = t.log) : Issues r u g w lo := by
  obtain ⟨n, e, a, b, c⟩ := h
  exact ⟨n, hl.trans e, a, b, c⟩

/-- A read followed by one write. -/
theorem Issues.get_write (r t : Client) (kind : ResourceKind) (key : ObjectKey) (op : Op)
    (hw : op.isWrite = true) (h : t.log = (r.record (Op.get kind key)).log ++ [op]) :
    Issues r t 1 1 1 := by
  have h2 := Issues.of_log (r.record (Op.get kind key)) t op h
  rw [hw] at h2
  exact ((Issues.get r kind key).andThen h2).mono (by simp) (by simp) (by simp)

theorem reconcileChannel_count (r : Client) (channel : Channel) :
    Issues r (reconcileChannel r channel).2 1 1 1 := by
  rw [reconcileChannel_cases]
  cases h : r.readChannel (ObjectKeyFromObject channel.ObjectMeta) with
  | error err =>
    simp only
    split
    · exact Issues.get_write r _ _ _ (Op.createChannel channel) rfl (CreateChannel_log _ _)
    · exact (Issues.get r _ _).mono (by simp) (by simp) (by simp)
  | ok obs =>
    simp only
    split
    · exact (Issues.get r _ _).mono (by simp) (by simp) (by simp)
    · exact Issues.get_write r _ _ _ (Op.updateChannel _) rfl (UpdateChannel_log _ _)

theorem reconcileSubscription_count (r : Client) (subscription : Subscription) :
    Issues r (reconcileSubscription r subscription).2 1 1 1 := by
  rw [reconcileSubscription_cases]
  cases h : r.readSubscription (ObjectKeyFromObject subscription.ObjectMeta) with
  | error err =>
    simp only
    split
    · exact Issues.get_write r _ _ _ (Op.createSubscription subscription) rfl
        (CreateSubscription_log _ _)
    · exact (Issues.get r _ _).mono (by simp) (by simp) (by simp)
  | ok obs =>
    simp only
    split
    · exact (Issues.get r _ _).mono (by simp) (by simp) (by simp)
    · exact Issues.get_write r _ _ _ (Op.updateSubscription _) rfl (UpdateSubscription_log _ _)

/-- A step issues at most two reads and two writes, and at least two calls when it succeeds. -/
theorem reconcileStep_count (r : Client) (sequence : Sequence) (i : Nat) :
    Issues r (reconcileStep r sequence i).2 2 2
      (if (reconcileStep r sequence i).1 = none then 2 else 0) := by
  by_cases hi : i < sequence.Spec.Steps.length
  · rw [reconcileStep_eq r sequence i hi]
    have hc := reconcileChannel_count r (stepChannel sequence i)
    cases hch : reconcileChannel r (stepChannel sequence i) with
    | mk e r1 =>
      rw [hch] at hc
      cases e with
      | some err =>
        simp only
        exact hc.mono (by simp) (by simp) (by simp)
      | none =>
        simp only at hc ⊢
        have hs := reconcileSubscription_count r1 (stepSubscription sequence i)
        exact (hc.andThen hs).mono (by simp) (by simp) (by split <;> simp)
  · have hnone : sequence.Spec.Steps[i]? = none := List.getElem?_eq_none (by omega)
    unfold reconcileStep
    rw [hnone]
    exact (Issues.nil r).mono (by simp) (by simp) (by simp)

/-- The loop over `n` steps issues at most `2 * n` reads and `2 * n` writes, and at least
`2 * n` calls when no step fails. -/
theorem provisionSteps_count (sequence : Sequence) (n : Nat) : ∀ (r : Client) (k : Nat),
    Issues r (provisionSteps r sequence n k).2 (2 * n) (2 * n)
      (if (provisionSteps r sequence n k).1 = none then 2 * n else 0) := by
  induction n with
  | zero =>
    intro r k
    exact (Issues.nil r).mono (by simp) (by simp) (by simp [provisionSteps])
  | succ n ih =>
    intro r k
    unfold provisionSteps
    have hs := reconcileStep_count r sequence k
    cases hc : reconcileStep r sequence k with
    | mk e r1 =>
      rw [hc] at hs
      cases e with
      | some err =>
        simp only at hs ⊢
        exact hs.mono (by omega) (by omega) (by simp)
      | none =>
        simp only at hs ⊢
        have h2 := ih r1 (k + 1)
        refine (hs.andThen h2).mono (by omega) (by omega) ?_
        split
        · simp
          omega
        · simp

/-- The method `reconcile` on a Sequence with `N` steps issues at most `2 * N` reads and
`2 * N` writes, and at least `2 * N` calls when it returns nil for a Sequence that is not being
deleted. -/
theorem reconcile_count (r : Client) (sequence : Sequence) (now : Nat) :
    Issues r (reconcile r sequence now).2.2 (2 * sequence.Spec.Steps.length)
      (2 * sequence.Spec.Steps.length)
      (if sequence.ObjectMeta.DeletionTimestamp = none ∧ (reconcile r sequence now).1 = none
        then 2 * sequence.Spec.Steps.length else 0) := by
  have hloop := provisionSteps_count sequence sequence.Spec.Steps.length r 0
  rcases reconcile_cases r sequence now with ⟨hd, h⟩ | ⟨_, hn, h⟩ | ⟨_, i, err, _, h⟩
  · rw [h]
    simp only [hd, false_and, if_false]
    exact (Issues.nil r).mono (by simp) (by simp) (by simp)
  · rw [h]
    rw [if_pos hn] at hloop
    exact hloop.mono (by simp) (by simp) (by split <;> simp)
  · rw [h]
    simp only [and_false, if_false, reduceCtorEq]
    exact hloop.mono (by simp) (by simp) (by simp)

/-- The method `updateStatus` issues one read when the read of the Sequence fails. -/
theorem updateStatus_count_error (r : Client) (sequence : Sequence) (now : Nat)
    (err : StoreError)
    (hread : r.readSequence (ObjectKeyFromObject sequence.ObjectMeta) = Except.error err) :
    Issues r (updateStatus r sequence now).2 1 0 1 := by
  rw [updateStatus_of_error r sequence now err hread]
  exact Issues.get r _ _

/-- The method `updateStatus` issues two reads and at most one write when the read of the
Sequence succeeds. -/
theorem updateStatus_count (r : Client) (sequence fresh : Sequence) (now : Nat)
    (hread : r.readSequence (ObjectKeyFromObject sequence.ObjectMeta) = Except.ok fresh) :
    Issues r (updateStatus r sequence now).2 2 1 2 := by
  have hl := updateStatus_log r sequence fresh now hread
  have h2 : Issues r
      ((r.record (Op.get ResourceKind.sequence (ObjectKeyFromObject sequence.ObjectMeta))).record
        (Op.get ResourceKind.channel (stepKey sequence 0))) 2 0 2 :=
    (Issues.get r _ _).andThen (Issues.get _ _ _)
  by_cases ht : statusTarget r sequence fresh now = fresh
  · rw [if_pos ht, List.append_nil] at hl
    exact (h2.congr (by rw [hl]; simp [Client.record])).mono (by simp) (by simp) (by simp)
  · rw [if_neg ht] at hl
    have h3 := h2.andThen (Issues.of_log _ (updateStatus r sequence now).2
      (Op.updateSequence (statusTarget r sequence fresh now))
      (by rw [hl]; simp [Client.record]))
    obtain ⟨new, e, a, b, c⟩ := h3
    simp only [Op.isWrite, if_true] at a b c
    exact ⟨new, e, by omega, by omega, by omega⟩

/-- A run that read the Sequence issues at most `3 + 2 * N` reads and `1 + 2 * N` writes for
its `N` steps, and at least three calls. -/
theorem Reconcile_count (r : Client) (request : ObjectKey) (now : Nat) (sequence : Sequence)
    (hread : r.readSequence request = Except.ok sequence) :
    Issues r (Reconcile r request now).2 (3 + 2 * sequence.Spec.Steps.length)
      (1 + 2 * sequence.Spec.Steps.length)
      (3 +
        (if sequence.ObjectMeta.DeletionTimestamp = none ∧
            (reconcile (r.record (Op.get ResourceKind.sequence request)) sequence now).1 = none
          then 2 * sequence.Spec.Steps.length else 0)) := by
  rw [Reconcile_store r request now sequence hread]
  unfold statusCall
  have h1 := Issues.get r ResourceKind.sequence request
  have h2 := reconcile_count (r.record (Op.get ResourceKind.sequence request)) sequence now
  have h3 := updateStatus_count _ _ sequence now (statusCall_read r request now sequence hread)
  exact ((h1.andThen h2).andThen h3).mono (by omega) (by omega) (by omega)

/-- C19 (as amended): the number of calls of a run is bounded by the number `N` of steps, not
determined by it.  A run whose read of the Sequence fails issues that one call.  A run that read
the Sequence issues at least 2 and at most `4 + 4 * N` calls, of which at most `3 + 2 * N` are
reads; when the Sequence is not being deleted and the run returns nil it issues at least
`3 + 2 * N` calls, and exactly `3 + 2 * N` when it writes nothing.  Of these calls those of
`updateStatus`, on whatever store it runs, are one when its read of the Sequence fails, and
two or three otherwise. -/
theorem C19_calls_bounded (r : Client) (request : ObjectKey) (now : Nat) :
    (∃ new, (Reconcile r request now).2.log = r.log ++ new ∧
      (∀ err, r.readSequence request = Except.error err → new.length = 1) ∧
      (∀ sequence, r.readSequence request = Except.ok sequence →
        2 ≤ new.length ∧
          new.length ≤ 4 + 4 * sequence.Spec.Steps.length ∧
          new.length ≤ 3 + 2 * sequence.Spec.Steps.length + (writes new).length ∧
          (sequence.ObjectMeta.DeletionTimestamp = none → (Reconcile r request now).1 = none →
            3 + 2 * sequence.Spec.Steps.length ≤ new.length ∧
              (writes new = [] → new.length = 3 + 2 * sequence.Spec.Steps.length)))) ∧
    (∀ sequence : Sequence,
      ∃ new, (updateStatus r sequence now).2.log = r.log ++ new ∧
        (∀ err, r.readSequence (ObjectKeyFromObject sequence.ObjectMeta) = Except.error err →
          new.length = 1) ∧
        (∀ fresh, r.readSequence (ObjectKeyFromObject sequence.ObjectMeta) = Except.ok fresh →
          2 ≤ new.length ∧ new.length ≤ 3)) := by
  constructor
  · cases hread : r.readSequence request with
    | error err =>
      refine ⟨[Op.get ResourceKind.sequence request], ?_, fun _ _ => rfl,
        fun _ h => Except.noConfusion h⟩
      rw [Reconcile_of_error r request now err hread]
      rfl
    | ok sequence =>
      obtain ⟨new, e, a, b, c⟩ := Reconcile_count r request now sequence hread
      refine ⟨new, e, fun _ h => Except.noConfusion h, ?_⟩
      intro s hs
      have hss : sequence = s := Except.ok.inj hs
      subst hss
      refine ⟨by omega, by omega, by omega, ?_⟩
      intro hnd hok
      have hrec := (Reconcile_ok_parts r request now sequence hread hok).1
      rw [if_pos ⟨hnd, hrec⟩] at c
      refine ⟨by omega, ?_⟩
      intro hw
      rw [hw] at a
      simp only [List.length_nil] at a
      omega
  · intro sequence
    cases hread : r.readSequence (ObjectKeyFromObject sequence.ObjectMeta) with
    | error err =>
      refine ⟨[Op.get ResourceKind.sequence (ObjectKeyFromObject sequence.ObjectMeta)], ?_,
        fun _ _ => rfl, fun _ h => Except.noConfusion h⟩
      rw [updateStatus_of_error r sequence now err hread]
      rfl
    | ok fresh =>
      obtain ⟨new, e, a, b, c⟩ := updateStatus_count r sequence fresh now hread
      exact ⟨new, e, fun _ h => Except.noConfusion h, fun _ _ => ⟨by omega, by omega⟩⟩

/-- Witness of C19: the run that follows the first run on `demoSequence`, which has two steps,
returns nil and writes nothing, and issues seven calls; and `updateStatus` on a store that
refuses the read of the Sequence issues one call. -/
theorem C19_calls_bounded_witness :
    (∃ new,
      (Reconcile (Reconcile demoClient { Namespace := "ns", Name := "s" } 5).2
          { Namespace := "ns", Name := "s" } 7).2.log =
        (Reconcile demoClient { Namespace := "ns", Name := "s" } 5).2.log ++ new ∧
      new.length = 7) ∧
    (∃ new, (updateStatus unreadableClient demoSequence 0).2.log = unreadableClient.log ++ new ∧
      new.length = 1) := by
  refine ⟨?_, ?_⟩
  swap
  · obtain ⟨new, e, h1, _⟩ := (C19_calls_bounded unreadableClient
      { Namespace := "ns", Name := "s" } 0).2 demoSequence
    exact ⟨new, e, h1 (StoreError.other "connection refused") rfl⟩
  obtain ⟨new, e, _, h⟩ := (C19_calls_bounded
    (Reconcile demoClient { Namespace := "ns", Name := "s" } 5).2
    { Namespace := "ns", Name := "s" } 7).1
  obtain ⟨s, hs⟩ : ∃ s, (Reconcile demoClient { Namespace := "ns", Name := "s" } 5).2.readSequence
      { Namespace := "ns", Name := "s" } = Except.ok s ∧ s.Spec.Steps.length = 2 ∧
        s.ObjectMeta.DeletionTimestamp = none := ⟨_, rfl, rfl, rfl⟩
  have hb := (h s hs.1).2.2.2 hs.2.2 (by decide)
  have hw : writes new = [] := by
    have h2 : writes
        (Reconcile (Reconcile demoClient { Namespace := "ns", Name := "s" } 5).2
          { Namespace := "ns", Name := "s" } 7).2.log =
        writes (Reconcile demoClient { Namespace := "ns", Name := "s" } 5).2.log := by decide
    rw [e] at h2
    simp only [Eventing.writes, List.filter_append] at h2 ⊢
    exact List.append_right_eq_self.mp h2
  refine ⟨new, e, ?_⟩
  rw [hb.2 hw, hs.2.1]

/-- C19 (counterexample): `demoSequence` has two steps; the first run for it, in a store that
holds nothing else, issues twelve calls, and the run that follows issues seven: neither issues
six, and the number differs between two runs for the same Sequence. -/
theorem C19_count_varies :
    demoSequence.Spec.Steps.length = 2 ∧
      demoClient.log.length = 0 ∧
      (Reconcile demoClient { Namespace := "ns", Name := "s" } 5).2.log.length = 12 ∧
      (Reconcile (Reconcile demoClient { Namespace := "ns", Name := "s" } 5).2
        { Namespace := "ns", Name := "s" } 7).2.log.length = 12 + 7 := by
  decide

/-! ### A Sequence without steps -/

theorem updateStatus_children (r : Client) (sequence : Sequence) (now : Nat) :
    (updateStatus r sequence now).2.channels = r.channels ∧
      (updateStatus r sequence now).2.subscriptions = r.subscriptions := by
  cases hread : r.readSequence (ObjectKeyFromObject sequence.ObjectMeta) with
  | error err =>
    rw [updateStatus_of_error r sequence now err hread]
    exact ⟨rfl, rfl⟩
  | ok fresh =>
    rw [updateStatus_eq r sequence fresh now hread]
    by_cases ht : statusTarget r sequence fresh now = fresh
    · rw [if_pos ht]
      exact ⟨rfl, rfl⟩
    · rw [if_neg ht]
      have hch := UpdateSequence_channels
        ((r.record (Op.get ResourceKind.sequence (ObjectKeyFromObject sequence.ObjectMeta))).record
          (Op.get ResourceKind.channel (stepKey sequence 0))) (statusTarget r sequence fresh now)
      have hsu := UpdateSequence_subscriptions
        ((r.record (Op.get ResourceKind.sequence (ObjectKeyFromObject sequence.ObjectMeta))).record
          (Op.get ResourceKind.channel (stepKey sequence 0))) (statusTarget r sequence fresh now)
      cases hu : ((r.record
          (Op.get ResourceKind.sequence (ObjectKeyFromObject sequence.ObjectMeta))).record
          (Op.get ResourceKind.channel (stepKey sequence 0))).UpdateSequence
          (statusTarget r sequence fresh now) with
      | mk e r3 =>
        rw [hu] at hch hsu
        cases e <;> exact ⟨hch, hsu⟩

/-- The status after `MarkProvisioned` and `SetAddress`: Provisioned is True; with the empty
hostname `Ready` is False, with another hostname it is True. -/
theorem provisioned_status (ss : SequenceStatus) (now : Nat) (hostname : String) :
    Holds ((ss.MarkProvisioned now).SetAddress now hostname).Conditions "Provisioned"
        ConditionStatus.True "" "" ∧
      (hostname = "" →
        Holds ((ss.MarkProvisioned now).SetAddress now hostname).Conditions "Ready"
            ConditionStatus.False "emptyHostname" "hostname is the empty string" ∧
          ((ss.MarkProvisioned now).SetAddress now hostname).IsReady = false) ∧
      (hostname ≠ "" → ((ss.MarkProvisioned now).SetAddress now hostname).IsReady = true) := by
  refine ⟨?_, ?_, ?_⟩
  · apply Holds_SetAddress_other _ now hostname "Provisioned" _ _ _ (by decide) (by decide)
    rw [MarkProvisioned_eq]
    exact Holds_MarkTrue_same now "Provisioned" ss.Conditions (by decide)
  · intro hh
    subst hh
    rw [SetAddress_empty]
    have h := Holds_MarkFalse now "Addressable" "emptyHostname" "hostname is the empty string"
      (ss.MarkProvisioned now).Conditions (Or.inr rfl)
    exact ⟨h.2, IsReady_false_of_Addressable_False _ h.1⟩
  · intro hh
    rw [SetAddress_nonempty _ _ _ hh, MarkProvisioned_eq, IsReady_iff]
    have h := statusOf_MarkTrue_Addressable now
      (seqCondSet.MarkTrue now "Provisioned" ss.Conditions)
    exact ⟨h.2.1.trans (statusOf_MarkTrue_Provisioned now ss.Conditions).1, h.1⟩

/-- C20 (as amended): for a stored Sequence without steps that is not being deleted, in every
store, a run creates and updates no channel and no subscription; it returns nil when the store
does not refuse the update of the Sequence; and when it returns nil the Sequence stored has
Provisioned True, and has `Ready` False, with reason emptyHostname, when the store has no
readable channel under the name of step 0 with a hostname; when it has one, `IsReady` is true. -/
theorem C20_no_steps (r : Client) (request : ObjectKey) (now : Nat) (sequence : Sequence)
    (hread : r.readSequence request = Except.ok sequence)
    (hnd : sequence.ObjectMeta.DeletionTimestamp = none)
    (hsteps : sequence.Spec.Steps = []) :
    (∃ new, (Reconcile r request now).2.log = r.log ++ new ∧
      ∀ op ∈ new, op.isChildWrite = false) ∧
    (Reconcile r request now).2.channels = r.channels ∧
    (Reconcile r request now).2.subscriptions = r.subscriptions ∧
    (r.updateFault ResourceKind.sequence request = none → (Reconcile r request now).1 = none) ∧
    ((Reconcile r request now).1 = none →
      ∃ s1, (Reconcile r request now).2.readSequence request = Except.ok s1 ∧
        Holds s1.Status.Conditions "Provisioned" ConditionStatus.True "" "" ∧
        (firstChannelHostname r sequence = "" →
          Holds s1.Status.Conditions "Ready" ConditionStatus.False "emptyHostname"
              "hostname is the empty string" ∧
            s1.Status.IsReady = false) ∧
        (firstChannelHostname r sequence ≠ "" → s1.Status.IsReady = true)) := by
  have hkey : ObjectKeyFromObject sequence.ObjectMeta = request :=
    lookup_key Sequence.ObjectMeta r.sequences _ sequence (readSequence_ok hread).2
  have hps : provisionSteps (r.record (Op.get ResourceKind.sequence request)) sequence
      sequence.Spec.Steps.length 0 = (none, r.record (Op.get ResourceKind.sequence request)) := by
    rw [hsteps]
    rfl
  have hrun := reconcile_converged (r.record (Op.get ResourceKind.sequence request)) sequence now
    hnd (by rw [hps])
  rw [hps] at hrun
  have hreadB := statusCall_read r request now sequence hread
  have hstore := Reconcile_store r request now sequence hread
  have hoth := reconcile_others (r.record (Op.get ResourceKind.sequence request)) sequence now
  have hhost : firstChannelHostname
      (reconcile (r.record (Op.get ResourceKind.sequence request)) sequence now).2.2
      (reconcile (r.record (Op.get ResourceKind.sequence request)) sequence now).2.1 =
      firstChannelHostname r sequence := by
    apply firstChannelHostname_congr
    rw [hrun]
    exact readChannel_congr rfl rfl _
  have hlog := updateStatus_log _ _ sequence now hreadB
  have hch := updateStatus_children
    (reconcile (r.record (Op.get ResourceKind.sequence request)) sequence now).2.2
    (reconcile (r.record (Op.get ResourceKind.sequence request)) sequence now).2.1 now
  have htarget : (statusTarget
      (reconcile (r.record (Op.get ResourceKind.sequence request)) sequence now).2.2
      (reconcile (r.record (Op.get ResourceKind.sequence request)) sequence now).2.1
      sequence now).Status =
      ((sequence.Status.InitializeConditions now).MarkProvisioned now).SetAddress now
        (firstChannelHostname r sequence) := by
    unfold statusTarget
    rw [hhost, hrun]
    rfl
  unfold statusCall at hstore
  refine ⟨?_, ?_, ?_, ?_, ?_⟩
  · have hlogB : (reconcile (r.record (Op.get ResourceKind.sequence request)) sequence
        now).2.2.log = r.log ++ [Op.get ResourceKind.sequence request] := by
      rw [hrun]
      rfl
    rw [hlogB, List.append_assoc, List.append_assoc] at hlog
    rw [← hstore] at hlog
    refine ⟨_, hlog, ?_⟩
    · intro op hop
      simp only [List.cons_append, List.nil_append, List.mem_cons, List.mem_append,
        List.mem_singleton] at hop
      rcases hop with h | h | h | h
      · rw [h]; rfl
      · rw [h]; rfl
      · rw [h]; rfl
      · split at h
        · cases h
        · rw [List.mem_singleton.mp h]; rfl
  · rw [hstore, hch.1, hrun]
    rfl
  · rw [hstore, hch.2, hrun]
    rfl
  · intro hupd
    have hs := updateStatus_succeeds _ _ sequence now hreadB
      (by rw [hoth.2.2.2.1, hoth.2.2.2.2.1, hkey]; exact hupd)
    rw [Reconcile_of_status_ok r request now sequence _ hread hs, hrun]
  · intro hok
    obtain ⟨_, hup, _⟩ := Reconcile_ok_parts r request now sequence hread hok
    have hpost := (updateStatus_post _ _ sequence now hreadB hup).1
    rw [hoth.2.2.2.2.1, hkey] at hpost
    refine ⟨_, by rw [hstore]; exact hpost, ?_⟩
    rw [htarget]
    exact provisioned_status (sequence.Status.InitializeConditions now) now
      (firstChannelHostname r sequence)

/-- Witness of C20: `emptySequence` in a store that holds nothing else: the run writes the
Sequence only, and stores Provisioned True and `Ready` False. -/
theorem C20_no_steps_witness :
    (Reconcile { sequences := [emptySequence] } { Namespace := "ns", Name := "s" } 0).1 = none ∧
      ∃ s1, (Reconcile { sequences := [emptySequence] }
          { Namespace := "ns", Name := "s" } 0).2.readSequence
          { Namespace := "ns", Name := "s" } = Except.ok s1 ∧
        Holds s1.Status.Conditions "Provisioned" ConditionStatus.True "" "" ∧
        s1.Status.IsReady = false := by
  have h := C20_no_steps { sequences := [emptySequence] } { Namespace := "ns", Name := "s" } 0
    emptySequence rfl rfl rfl
  obtain ⟨s1, h1, h2, h3, _⟩ := h.2.2.2.2 (h.2.2.2.1 rfl)
  exact ⟨h.2.2.2.1 rfl, s1, h1, h2, (h3 rfl).2⟩

/-- C20 (counterexample): `emptySequence` has no steps; in a store that holds a channel under
the name of its step 0 with a hostname, the run returns nil and the one Sequence stored is
ready.  And for `emptySequence` under deletion the run returns nil and stores Provisioned
Unknown, not True. -/
theorem C20_ready_without_steps :
    emptySequence.Spec.Steps = [] ∧
      (Reconcile leftoverClient { Namespace := "ns", Name := "s" } 0).1 = none ∧
      (Reconcile leftoverClient { Namespace := "ns", Name := "s" } 0).2.sequences.map
          (fun s => (s.Status.IsReady, statusOf s.Status.Conditions "Ready")) =
        [(true, some ConditionStatus.True)] ∧
      (Reconcile deletedEmptyClient { Namespace := "ns", Name := "s" } 0).1 = none ∧
      (Reconcile deletedEmptyClient { Namespace := "ns", Name := "s" } 0).2.sequences.map
          (fun s => statusOf s.Status.Conditions "Provisioned") =
        [some ConditionStatus.Unknown] := by
  decide

/-! ### Child names across Sequences -/

/-- A list is split in one way at the last occurrence of an element. -/
theorem append_cons_cancel {α : Type} (c : α) : ∀ (l1 l2 r1 r2 : List α), c ∉ r1 → c ∉ r2 →
    l1 ++ c :: r1 = l2 ++ c :: r2 → l1 = l2 ∧ r1 = r2 := by
  intro l1
  induction l1 with
  | nil =>
    intro l2 r1 r2 h1 h2 h
    cases l2 with
    | nil => exact ⟨rfl, (List.cons.inj h).2⟩
    | cons x l2 =>
      exfalso
      have ht := (List.cons.inj h).2
      apply h1
      rw [ht]
      simp
  | cons x l1 ih =>
    intro l2 r1 r2 h1 h2 h
    cases l2 with
    | nil =>
      exfalso
      have ht := (List.cons.inj h).2
      apply h2
      rw [← ht]
      simp
    | cons y l2 =>
      obtain ⟨hx, ht⟩ := List.cons.inj h
      obtain ⟨hl, hr⟩ := ih l2 r1 r2 h1 h2 ht
      exact ⟨by rw [hx, hl], hr⟩

theorem digitChar_ne_dash (d : Nat) (hd : d < 10) : Nat.digitChar d ≠ '-' := by
  interval_cases d <;> decide

theorem toDigitsCore_zero (n : Nat) (acc : List Char) : Nat.toDigitsCore 10 0 n acc = acc := rfl

theorem dash_not_mem_toDigitsCore (fuel : Nat) : ∀ (n : Nat) (acc : List Char), '-' ∉ acc →
    '-' ∉ Nat.toDigitsCore 10 fuel n acc := by
  induction fuel with
  | zero =>
    intro n acc h
    rw [toDigitsCore_zero]
    exact h
  | succ fuel ih =>
    intro n acc h
    have hd := digitChar_ne_dash (n % 10) (Nat.mod_lt n (by norm_num))
    rw [toDigitsCore_succ]
    generalize Nat.digitChar (n % 10) = d at hd ⊢
    have hacc : '-' ∉ d :: acc := by
      intro hm
      rcases List.mem_cons.mp hm with hm | hm
      · exact hd hm.symm
      · exact h hm
    by_cases h0 : n / 10 = 0
    · rw [if_pos h0]
      exact hacc
    · rw [if_neg h0]
      exact ih (n / 10) (d :: acc) hacc

/-- The decimal rendering of an index holds no dash. -/
theorem dash_not_mem_toString (i : Nat) : '-' ∉ (toString i).data := by
  have h : (toString i).data = Nat.toDigitsCore 10 (i + 1) i [] := by
    simp [toString, Nat.repr, List.asString, Nat.toDigits]
  rw [h]
  exact dash_not_mem_toDigitsCore (i + 1) i [] (by simp)

theorem stepName_data (name : String) (i : Nat) :
    (stepName name i).data =
      (name.data ++ ['-', 's', 't', 'e', 'p']) ++ '-' :: (toString i).data := by
  unfold stepName
  simp only [String.data_append]
  simp

/-- The child name determines the name of the Sequence and the index of the step. -/
theorem stepName_injective_both (a b : String) (i j : Nat) (h : stepName a i = stepName b j) :
    a = b ∧ i = j := by
  have hd := congrArg String.data h
  rw [stepName_data, stepName_data] at hd
  obtain ⟨hl, hr⟩ := append_cons_cancel '-' _ _ _ _ (dash_not_mem_toString i)
    (dash_not_mem_toString j) hd
  exact ⟨String.ext (List.append_cancel_right hl), toString_nat_injective i j (String.ext hr)⟩

/-- C21: the child name built for the Sequence name `a` and the index `i`, `a-step-i` with the
index in decimal, equals the one built for `b` and `j` only if `a = b` and `i = j`.  So for two
Sequences and two indices that differ in the name of the Sequence or in the index, the names of
the channels differ, the names of the subscriptions differ, and the keys under which the
children are read and written differ, whatever the namespaces. -/
theorem C21_child_names_injective (a b : String) (i j : Nat) :
    stepName a i = a ++ "-step-" ++ toString i ∧
      (stepName a i = stepName b j ↔ a = b ∧ i = j) ∧
      (∀ s t : Sequence, s.ObjectMeta.Name = a → t.ObjectMeta.Name = b → a ≠ b ∨ i ≠ j →
        (stepChannel s i).ObjectMeta.Name ≠ (stepChannel t j).ObjectMeta.Name ∧
          (stepSubscription s i).ObjectMeta.Name ≠ (stepSubscription t j).ObjectMeta.Name ∧
          stepKey s i ≠ stepKey t j) := by
  refine ⟨rfl, ⟨stepName_injective_both a b i j, ?_⟩, ?_⟩
  · rintro ⟨rfl, rfl⟩
    rfl
  · intro s t hs ht hne
    have hn : stepName s.ObjectMeta.Name i ≠ stepName t.ObjectMeta.Name j := by
      intro h
      rw [hs, ht] at h
      obtain ⟨h1, h2⟩ := stepName_injective_both a b i j h
      rcases hne with hne | hne
      · exact hne h1
      · exact hne h2
    exact ⟨hn, hn, fun hk => hn (congrArg ObjectKey.Name hk)⟩

/-- Witness of C21: a Sequence whose own name ends in a step suffix, next to `demoSequence`;
and two steps of `demoSequence`. -/
theorem C21_child_names_injective_witness :
    stepName "s-step-1" 0 ≠ stepName "s" 10 ∧
      stepKey demoSequence 0 ≠ stepKey demoSequence 1 :=
  ⟨fun h => absurd ((C21_child_names_injective "s-step-1" "s" 0 10).2.1.mp h).1 (by decide),
    ((C21_child_names_injective "s" "s" 0 1).2.2 demoSequence demoSequence rfl rfl
      (Or.inr (by decide))).2.2⟩

end Eventing
